import Mathlib

/-!
Session core of the multi-vehicle simulator (`src/run.cpp`)

A shallow embedding of `run.cpp`.  The global session variables become one
`State` record and every function of the file becomes a function on `State`.
What a tick reads from outside the program (the key state, the scenario file,
the throttle timer) is an explicit `TickInput`.  The calls made to the
external collaborators by `OnTimer`, `ResetSimulation` and
`KeyboardInteraction` (vehicle `Reset` and `Run`, visualizer, grapher,
telemetry node, configuration reload, timer re-arm) are recorded, in order, in
the `log` field of the state; of `LoadScenario` the record keeps the
configuration reload, the emptying of the graphs, the visualizer reset and the
start-up menu commands.

A function whose C++ original can read `quads[0]` outside the vector, or whose
`int` loop counter can pass `INT_MAX`, returns an `Option`; `none` stands for
that undefined behaviour.

Numbers.  The C++ `float` values (`simulationTime`, `dtSim`, the force components, the
configured times) are elements of a type `K` that carries the operations `run.cpp` applies to
them (`FloatArith`), of which no law is assumed.  The type `F32` is the binary32 format of
IEEE 754 with its two zeros, subnormal numbers, infinities and NaN, and its operations round
to nearest, ties to even; the results that depend on how `float` computes are stated for it,
and the concrete examples are evaluated in it.  NaN payloads and the contraction of a product
and a sum into one rounding are not modelled.  The reading of the `double` throttle timer is a
rational number: a `double` exceeds the `double` constant `0.030` exactly when its value
exceeds 3/100.  The `int` session counter `_simCount` is incremented modulo `2 ^ 32`
(`wrapInt`), which is what the two's-complement targets compute where C++ leaves the overflow
undefined; `randomNumCarry` is only passed to the vehicles.
-/

set_option linter.unusedSectionVars false

namespace Run

/-! ## The C++ `float`: IEEE 754 binary32 -/

/-- A binary32 datum, the C++ `float` of `run.cpp`: the sign bit, the 8-bit biased exponent
field and the 23-bit fraction field.  Exponent field 255 is an infinity (fraction 0) or a NaN;
exponent field 0 is a zero or a subnormal number. -/
structure F32 where
  sign : Bool
  expo : Fin 256
  frac : Fin 8388608
deriving DecidableEq, Repr

namespace F32

/-- The datum with the given fields; the quiet NaN when a field is out of range. -/
def pack (sign : Bool) (e f : Nat) : F32 :=
  if h : e < 256 ∧ f < 8388608 then ⟨sign, ⟨e, h.1⟩, ⟨f, h.2⟩⟩ else ⟨false, 255, 4194304⟩

/-- The quiet NaN. -/
def nan : F32 := ⟨false, 255, 4194304⟩

/-- The infinity of the given sign. -/
def inf (sign : Bool) : F32 := ⟨sign, 255, 0⟩

/-- The zero of the given sign. -/
def zero (sign : Bool) : F32 := ⟨sign, 0, 0⟩

/-- Not a number. -/
def isNaN (x : F32) : Bool := x.expo.val == 255 && x.frac.val != 0

/-- An infinity. -/
def isInf (x : F32) : Bool := x.expo.val == 255 && x.frac.val == 0

/-- The absolute value of a finite datum, counted in units of `2 ^ (-149)` (the smallest
positive `float`): every finite `float` is a whole number of these units. -/
def mag (x : F32) : Nat :=
  if x.expo.val = 0 then x.frac.val else (8388608 + x.frac.val) * 2 ^ (x.expo.val - 1)

/-- The value of a finite datum in units of `2 ^ (-149)`, with its sign. -/
def val (x : F32) : Int := if x.sign then - (x.mag : Int) else x.mag

/-- Binary search for the position of the leading binary digit of `n`, over the positions
below `2 ^ k`. -/
def ilog2Search : Nat → Nat → Nat
  | 0, _ => 0
  | k + 1, n =>
    if n < 2 ^ 2 ^ k then ilog2Search k n else ilog2Search k (n / 2 ^ 2 ^ k) + 2 ^ k

/-- Position of the leading binary digit of `n`, the largest `k` with `2 ^ k ≤ n`: the
logarithm `Nat.log 2 n`, found by binary search when `n` has at most 1024 binary digits. -/
def ilog2 (n : Nat) : Nat :=
  if 2 ^ ilog2Search 10 n ≤ n ∧ n < 2 ^ (ilog2Search 10 n + 1) then ilog2Search 10 n
  else Nat.log 2 n

/-- The datum of the given sign whose absolute value is `m` units, for `m` a number of units
that a `float` can hold; an infinity from `2 ^ 277` units (the value `2 ^ 128`) on. -/
def ofMag (sign : Bool) (m : Nat) : F32 :=
  if m < 8388608 then pack sign 0 m
  else
    let e := ilog2 m - 22
    if 255 ≤ e then inf sign else pack sign e (m / 2 ^ (e - 1) - 8388608)

/-- Rounding to nearest, ties to even: the number of units a `float` can hold that is nearest
to the ratio `n / d` of units, the one with the even significand when two are equally near.
Below `2 ^ 24` units the grid is the whole numbers; above, 24 significant binary digits are
kept. -/
def round (n d : Nat) : Nat :=
  let q := n / d
  let s := if q < 16777216 then 0 else ilog2 q - 23
  let D := d * 2 ^ s
  let m := n / D
  let r := n % D
  let m' := if 2 * r > D ∨ (2 * r = D ∧ m % 2 = 1) then m + 1 else m
  m' * 2 ^ s

/-- The `float` of the given sign nearest to `n / d` units. -/
def ofRatio (sign : Bool) (n d : Nat) : F32 := ofMag sign (round n d)

/-- Unary minus: the sign bit is flipped. -/
def neg (x : F32) : F32 := { x with sign := !x.sign }

/-- The sum, rounded to nearest.  An exact zero sum is `+0`, except that `-0 + -0` is `-0`. -/
def add (x y : F32) : F32 :=
  if x.isNaN || y.isNaN then nan
  else if x.isInf then (if y.isInf && (x.sign != y.sign) then nan else x)
  else if y.isInf then y
  else
    let z := x.val + y.val
    if z = 0 then zero (x.sign && y.sign) else ofRatio (decide (z < 0)) z.natAbs 1

/-- The difference `x - y`, which is `x + (-y)`. -/
def sub (x y : F32) : F32 := add x (neg y)

/-- The product, rounded to nearest. -/
def mul (x y : F32) : F32 :=
  let sign := x.sign != y.sign
  if x.isNaN || y.isNaN then nan
  else if x.isInf then (if y.mag = 0 then nan else inf sign)
  else if y.isInf then (if x.mag = 0 then nan else inf sign)
  else if x.mag = 0 ∨ y.mag = 0 then zero sign
  else ofRatio sign (x.mag * y.mag) (2 ^ 149)

/-- The quotient, rounded to nearest. -/
def div (x y : F32) : F32 :=
  let sign := x.sign != y.sign
  if x.isNaN || y.isNaN then nan
  else if x.isInf then (if y.isInf then nan else inf sign)
  else if y.isInf then zero sign
  else if y.mag = 0 then (if x.mag = 0 then nan else inf sign)
  else if x.mag = 0 then zero sign
  else ofRatio sign (x.mag * 2 ^ 149) y.mag

/-- Newton iteration for the integer square root of `n` from the upper estimate `x`, at most
`k` steps: `x` is replaced by `(x + n / x) / 2` while that is smaller. -/
def isqrtNewton (n : Nat) : Nat → Nat → Nat
  | 0, x => x
  | k + 1, x => if (x + n / x) / 2 < x then isqrtNewton n k ((x + n / x) / 2) else x

/-- The integer square root, the largest `s` with `s * s ≤ n`: the root `Nat.sqrt n`, found
by Newton's iteration when that converges within 16 steps. -/
def isqrt (n : Nat) : Nat :=
  if isqrtNewton n 16 (2 ^ (ilog2 n / 2 + 1)) * isqrtNewton n 16 (2 ^ (ilog2 n / 2 + 1)) ≤ n ∧
      n < (isqrtNewton n 16 (2 ^ (ilog2 n / 2 + 1)) + 1)
        * (isqrtNewton n 16 (2 ^ (ilog2 n / 2 + 1)) + 1) then
    isqrtNewton n 16 (2 ^ (ilog2 n / 2 + 1))
  else Nat.sqrt n

/-- The square root, rounded to nearest.  The root of `m` units is the root of `m * 2 ^ 149`
counted in units; when that is not a whole number, the half unit above its whole part rounds
the same way as the root does. -/
def sqrt (x : F32) : F32 :=
  if x.isNaN then nan
  else if x.mag = 0 then x
  else if x.sign then nan
  else if x.isInf then x
  else
    let n := x.mag * 2 ^ 149
    let s := isqrt n
    if s * s = n then ofRatio false s 1 else ofRatio false (2 * s + 1) 2

/-- The place of a datum that is not a NaN in the order of the `float` values: its value in
units, with the infinities beyond every finite value; the two zeros share the place 0. -/
def ord (x : F32) : Int :=
  if x.isInf then (if x.sign then - (2 ^ 277 : Int) else 2 ^ 277) else x.val

/-- The comparison `x < y`: false when an operand is a NaN. -/
def lt (x y : F32) : Bool := !x.isNaN && !y.isNaN && decide (x.ord < y.ord)

/-- The comparison `x <= y`: false when an operand is a NaN. -/
def le (x y : F32) : Bool := !x.isNaN && !y.isNaN && decide (x.ord ≤ y.ord)

/-- Conversion of a non-negative integer, rounded to nearest. -/
def ofNat (n : Nat) : F32 := ofRatio false (n * 2 ^ 149) 1

/-- The `float` literal with decimal significand `m` and decimal exponent `-e` (when `s` is
true) or `e`: the decimal number rounded to nearest, as a C++ compiler converts a literal
with the suffix `f`. -/
def ofScientific (m : Nat) (s : Bool) (e : Nat) : F32 :=
  if s then ofRatio false (m * 2 ^ 149) (10 ^ e) else ofRatio false (m * 10 ^ e * 2 ^ 149) 1

end F32

/-- The arithmetic that `run.cpp` performs on `float` values: the four operations, unary
minus, the two comparisons, and the literals.  No law is assumed of them. -/
class FloatArith (K : Type) extends Add K, Sub K, Mul K, Div K, Neg K, LT K, LE K,
    OfScientific K where
  ofNat : Nat → K
  decLt : ∀ a b : K, Decidable (a < b)
  decLe : ∀ a b : K, Decidable (a ≤ b)

instance instOfNatFloatArith {K : Type} [FloatArith K] (n : Nat) : OfNat K n :=
  ⟨FloatArith.ofNat n⟩

instance instDecidableLtFloatArith {K : Type} [FloatArith K] (a b : K) : Decidable (a < b) :=
  FloatArith.decLt a b

instance instDecidableLeFloatArith {K : Type} [FloatArith K] (a b : K) : Decidable (a ≤ b) :=
  FloatArith.decLe a b

/-- The arithmetic of binary32. -/
instance instFloatArithF32 : FloatArith F32 where
  add := F32.add
  sub := F32.sub
  mul := F32.mul
  div := F32.div
  neg := F32.neg
  lt := fun x y => F32.lt x y = true
  le := fun x y => F32.le x y = true
  ofScientific := F32.ofScientific
  ofNat := F32.ofNat
  decLt := fun x y => inferInstanceAs (Decidable (F32.lt x y = true))
  decLe := fun x y => inferInstanceAs (Decidable (F32.le x y = true))

/-- The value of a C++ `int` that holds the arithmetic result `n`: the 32-bit two's-complement
number congruent to `n` modulo `2 ^ 32`. -/
def wrapInt (n : Int) : Int := (n + 2147483648) % 4294967296 - 2147483648


/-! ## Three-component vectors (`V3F`) -/

/-- Modelled from the spec: the vector class `V3F` of `Common.h` (not under `src/`), a triple
of floats with componentwise arithmetic. -/
structure V3F (K : Type) where
  x : K
  y : K
  z : K
deriving DecidableEq, Repr

namespace V3F

variable {K : Type} [FloatArith K]

/-- The default constructor `V3F()`: the zero vector. -/
def zero : V3F K := ⟨0, 0, 0⟩

/-- Componentwise sum: `operator+` and `operator+=`. -/
def add (a b : V3F K) : V3F K := ⟨a.x + b.x, a.y + b.y, a.z + b.z⟩

/-- Componentwise difference: `operator-`. -/
def sub (a b : V3F K) : V3F K := ⟨a.x - b.x, a.y - b.y, a.z - b.z⟩

/-- Division by a scalar: `operator/(float)`. -/
def div (a : V3F K) (c : K) : V3F K := ⟨a.x / c, a.y / c, a.z / c⟩

/-- Multiplication by a scalar: `operator*(float)`. -/
def mul (a : V3F K) (c : K) : V3F K := ⟨a.x * c, a.y * c, a.z * c⟩

/-- Sum of the squared components. -/
def magSq (a : V3F K) : K := a.x * a.x + a.y * a.y + a.z * a.z

/-- Euclidean length `mag()`, through the square-root function `sqrt`. -/
def mag (sqrt : K → K) (a : V3F K) : K := sqrt (magSq a)

end V3F

/-! ## Configuration store (`SimpleConfig`) -/

/-- Modelled from the spec: the key-value configuration store `SimpleConfig` (not under
`src/`), restricted to the keys `run.cpp` reads.  A field is `none` when the key is not stored;
`vehicle n` is the value stored under `Sim.Vehicle<n>` and `command n` the one stored under
`Commands.<n>`. -/
structure Config (K : Type) where
  timestep : Option K
  endTime : Option K
  runMode : Option String
  vehicle : Nat → Option String
  command : Nat → Option String
  mavlinkEnable : Option Int

/-- Typed lookup `config->Get(key, default)`: the stored value, or the default. -/
def Config.Get {α : Type} (stored : Option α) (dflt : α) : α :=
  match stored with
  | some v => v
  | none => dflt

/-- Key test `config->Exists(key)`. -/
def Config.Exists {α : Type} (stored : Option α) : Bool :=
  match stored with
  | some _ => true
  | none => false

/-- Modelled from the spec: `SLR::ToUpper` of `StringUtils.h` (not under `src/`), which maps
every character to upper case. -/
def ToUpper (s : String) : String := ⟨s.data.map Char.toUpper⟩

/-! ## Input devices -/

/-- The GLUT arrow keys queried through `IsSpecialKeyDown`. -/
inductive SpecialKey where
  | GLUT_KEY_LEFT
  | GLUT_KEY_UP
  | GLUT_KEY_RIGHT
  | GLUT_KEY_DOWN
deriving DecidableEq, Repr

/-- Modelled from the spec: the key state held by `Visualizer_GLUT` (not under `src/`) when it
is sampled, read through `IsSpecialKeyDown` and `IsKeyDown`. -/
structure Keys where
  IsSpecialKeyDown : SpecialKey → Bool
  IsKeyDown : Char → Bool

/-! ## Telemetry packets and the record of external calls -/

/-- Modelled from the spec: the attitude quaternion `SLR::Quaternion` (not under `src/`)
returned by a vehicle. -/
structure Quaternion (K : Type) where
  q0 : K
  q1 : K
  q2 : K
  q3 : K
deriving DecidableEq, Repr

/-- Modelled from the spec: the four telemetry packets built by the `MakeMavlinkPacket_*`
functions of `MavlinkTranslation.h` (not under `src/`), with the values they are built from. -/
inductive Packet (K : Type) where
  | Heartbeat
  | Status
  | LocalPose (simTime : K) (pos vel : V3F K)
  | Attitude (simTime : K) (attitude : Quaternion K) (omega : V3F K)
deriving DecidableEq, Repr

/-- One call made to an external collaborator. -/
inductive Event (K : Type) where
  | configReset
  | printSimulation (simCount : Int)
  | quadReset (idx : Nat)
  | grapherClear
  | onMainTimer
  | quadRun (idx : Nat) (dt simTime : K) (carry : Int) (force moment : V3F K)
  | updateData (simTime : K)
  | removeAllElements
  | setArrow (tail head : V3F K)
  | visualizerUpdate
  | drawUpdate
  | lastDrawReset
  | send (p : Packet K)
  | timerFunc (ms : Nat)
  | visualizerReset
  | onMenu (cmd : String)
deriving DecidableEq, Repr

/-- Modelled from the spec: the vehicle dynamics class `QuadDynamics` (not under `src/`), a
black box with the operations `run.cpp` calls.  `Run` returns the stepped vehicle and the new
value of the random carry it received by reference. -/
structure VehicleOps (K V : Type) where
  Create : String → Nat → V
  Reset : V → V
  Run : V → K → K → Int → V3F K → V3F K → V × Int
  Position : V → V3F K
  Velocity : V → V3F K
  Attitude : V → Quaternion K
  Omega : V → V3F K

/-! ## Session state -/

/-- The global variables of `run.cpp`, the static local `key_space_pressed`, the `paused`
member of the visualizer, the loaded configuration and the record of external calls. -/
structure State (K V : Type) where
  receivedResetRequest : Bool
  paused : Bool
  quads : List V
  dtSim : K
  force : V3F K
  moment : V3F K
  simulationTime : K
  randomNumCarry : Int
  mlNode : Bool
  _simCount : Int
  key_space_pressed : Bool
  visualizerPaused : Bool
  config : Config K
  log : List (Event K)

/-- What one tick reads from outside the program: the key state, the present contents of the
scenario file, and the reading of `lastDraw.ElapsedSeconds()`. -/
structure TickInput (K : Type) where
  keys : Keys
  file : Config K
  elapsedSeconds : ℚ

variable {K : Type} [FloatArith K] {V : Type}

/-- Number of physics sub-steps per timer tick. -/
def NUM_SIM_STEPS_PER_TIMER : Nat := 5

/-- Append one external call to the record. -/
def State.emit (s : State K V) (e : Event K) : State K V :=
  { s with log := s.log ++ [e] }

/-! ## `KeyboardInteraction` -/

/-- Lines 234–271 of `KeyboardInteraction`: the steps of the held force keys are added to the
incoming force, and the force is zeroed when no force key is down. -/
def summedForce (keys : Keys) (force : V3F K) : V3F K :=
  let keyPressed := false
  let forceStep : K := 0.04
  let (force, keyPressed) :=
    if keys.IsSpecialKeyDown .GLUT_KEY_LEFT then (force.add ⟨0, -forceStep, 0⟩, true)
    else (force, keyPressed)
  let (force, keyPressed) :=
    if keys.IsSpecialKeyDown .GLUT_KEY_UP then (force.add ⟨0, 0, -forceStep⟩, true)
    else (force, keyPressed)
  let (force, keyPressed) :=
    if keys.IsSpecialKeyDown .GLUT_KEY_RIGHT then (force.add ⟨0, forceStep, 0⟩, true)
    else (force, keyPressed)
  let (force, keyPressed) :=
    if keys.IsSpecialKeyDown .GLUT_KEY_DOWN then (force.add ⟨0, 0, forceStep⟩, true)
    else (force, keyPressed)
  let (force, keyPressed) :=
    if keys.IsKeyDown 'w' || keys.IsKeyDown 'W' then (force.add ⟨forceStep, 0, 0⟩, true)
    else (force, keyPressed)
  let (force, keyPressed) :=
    if keys.IsKeyDown 's' || keys.IsKeyDown 'S' then (force.add ⟨-forceStep, 0, 0⟩, true)
    else (force, keyPressed)
  if !keyPressed then V3F.zero else force

/-- Lines 234–275 of `KeyboardInteraction`: the summed force, rescaled to length 2 when it is
longer. -/
def keyboardForce (sqrt : K → K) (keys : Keys) (force : V3F K) : V3F K :=
  let force := summedForce keys force
  if force.mag sqrt > 2 then (force.div (force.mag sqrt)).mul 2 else force

/-- The function `KeyboardInteraction(force, visualizer)`: force update, clear-graphs command,
reset request, pause toggle. -/
def KeyboardInteraction (sqrt : K → K) (keys : Keys) (s : State K V) : State K V :=
  let s := { s with force := keyboardForce sqrt keys s.force }
  let s :=
    if keys.IsKeyDown 'c' || keys.IsKeyDown 'C' then
      (s.emit .removeAllElements).emit .removeAllElements
    else s
  let s :=
    if keys.IsKeyDown 'r' || keys.IsKeyDown 'R' then { s with receivedResetRequest := true }
    else s
  if keys.IsKeyDown ' ' then
    if !s.key_space_pressed then
      { s with key_space_pressed := true, paused := !s.paused, visualizerPaused := !s.paused }
    else s
  else
    { s with key_space_pressed := false }

/-! ## `ResetSimulation` -/

/-- The loop `for (i = 0; i < quads.size(); i++) quads[i]->Reset()`, from index `i` on: the
vehicles after their reset and the calls made. -/
def resetQuads (ops : VehicleOps K V) : Nat → List V → List V × List (Event K)
  | _, [] => ([], [])
  | i, q :: qs =>
    let r := resetQuads ops (i + 1) qs
    (ops.Reset q :: r.1, Event.quadReset i :: r.2)

/-- The function `ResetSimulation()`; `file` is what `config->Reset(_scenarioFile)` reads. -/
def ResetSimulation (ops : VehicleOps K V) (file : Config K) (s : State K V) : State K V :=
  let s := { s with _simCount := wrapInt (s._simCount + 1) }
  let s := s.emit (.printSimulation s._simCount)
  let s := { s with randomNumCarry := -1 }
  let s := { s with receivedResetRequest := false }
  let s := { s with simulationTime := 0 }
  let s := { s with config := file }.emit .configReset
  let s := { s with dtSim := Config.Get s.config.timestep 0.005 }
  let r := resetQuads ops 0 s.quads
  let s := { s with quads := r.1, log := s.log ++ r.2 }
  s.emit .grapherClear

/-! ## `OnTimer` -/

/-- The inner loop of a sub-step, from index `i` on: every vehicle is stepped in registry
order with the same `dt`, time, force and moment; the random carry is passed by reference from
one call to the next.  Returns the stepped vehicles, the final carry and the calls made. -/
def runQuads (ops : VehicleOps K V) (dt simTime : K) (force moment : V3F K) :
    Nat → List V → Int → List V × Int × List (Event K)
  | _, [], carry => ([], carry, [])
  | i, q :: qs, carry =>
    let r := ops.Run q dt simTime carry force moment
    let rest := runQuads ops dt simTime force moment (i + 1) qs r.2
    (r.1 :: rest.1, rest.2.1, Event.quadRun i dt simTime carry force moment :: rest.2.2)

/-- One sub-step: all vehicles run, then `simulationTime += dtSim`. -/
def subStep (ops : VehicleOps K V) (s : State K V) : State K V :=
  let r := runQuads ops s.dtSim s.simulationTime s.force s.moment 0 s.quads s.randomNumCarry
  { s with quads := r.1, randomNumCarry := r.2.1, log := s.log ++ r.2.2,
           simulationTime := s.simulationTime + s.dtSim }

/-- The outer loop `for (i = 0; i < NUM_SIM_STEPS_PER_TIMER; i++)`, with `n` iterations left. -/
def simSteps (ops : VehicleOps K V) : Nat → State K V → State K V
  | 0, s => s
  | n + 1, s => simSteps ops n (subStep ops s)

/-- The element access `quads[i]`; `none` is an access outside the vector. -/
def quadAt (quads : List V) (i : Nat) : Option V := quads[i]?

/-- The reset condition tested at the top of `OnTimer` (lines 147–149). -/
def resetCondition (s : State K V) : Bool :=
  let endTime : K := Config.Get s.config.endTime (-1)
  s.receivedResetRequest == true ||
    (ToUpper (Config.Get s.config.runMode "Continuous") == "REPEAT" && decide (endTime > 0)
      && decide (s.simulationTime ≥ endTime))

/-- Lines 179–198 of `OnTimer`: the throttled presentation and telemetry update.  The result
is `none` when `quads[0]` is read outside the vector. -/
def throttledUpdate (ops : VehicleOps K V) (s : State K V) : Option (State K V) := do
  let s ←
    if s.quads.length > 0 then do
      let q0 ← quadAt s.quads 0
      pure (s.emit (.setArrow ((ops.Position q0).sub s.force) (ops.Position q0)))
    else pure s
  let s := s.emit .visualizerUpdate
  let s := s.emit .drawUpdate
  let s := s.emit .lastDrawReset
  if s.mlNode then do
    let s := s.emit (.send .Heartbeat)
    let s := s.emit (.send .Status)
    let q0 ← quadAt s.quads 0
    let s := s.emit (.send (.LocalPose s.simulationTime (ops.Position q0) (ops.Velocity q0)))
    let q0 ← quadAt s.quads 0
    let s := s.emit (.send (.Attitude s.simulationTime (ops.Attitude q0) (ops.Omega q0)))
    pure s
  else pure s

/-- Lines 144–175 of `OnTimer`: reset check, tick notification, the sub-step batch and the
input sample. -/
def sessionStep (sqrt : K → K) (ops : VehicleOps K V) (inp : TickInput K) (s : State K V) :
    State K V :=
  let s := if resetCondition s then ResetSimulation ops inp.file s else s
  let s := s.emit .onMainTimer
  let s :=
    if !s.paused then
      let s := simSteps ops NUM_SIM_STEPS_PER_TIMER s
      s.emit (.updateData s.simulationTime)
    else s
  KeyboardInteraction sqrt inp.keys s

/-- The timer callback `OnTimer`: one tick.  The result is `none` when the tick reads
`quads[0]` outside the vector. -/
def OnTimer (sqrt : K → K) (ops : VehicleOps K V) (inp : TickInput K) (s : State K V) :
    Option (State K V) := do
  let s := sessionStep sqrt ops inp s
  let s ← if inp.elapsedSeconds > 0.030 then throttledUpdate ops s else pure s
  pure (s.emit (.timerFunc 5))

/-- A run of consecutive ticks, one input per tick; `none` as soon as one tick fails. -/
def runTicks (sqrt : K → K) (ops : VehicleOps K V) :
    List (TickInput K) → State K V → Option (State K V)
  | [], s => some s
  | inp :: rest, s => (OnTimer sqrt ops inp s).bind (runTicks sqrt ops rest)

/-! ## `CreateVehicles` -/

/-- Largest value of a C++ `int`. -/
def INT_MAX : Nat := 2147483647

/-- The loop `while (1)` of `CreateVehicles` with counter `i` and the vector `ret` built so
far.  One unit of `fuel` is one value the `int` counter can still take: with no fuel left the
counter has passed `INT_MAX`, and there is no result. -/
def CreateVehiclesLoop (ops : VehicleOps K V) (config : Config K) :
    Nat → Nat → List V → Option (List V)
  | 0, _, _ => none
  | fuel + 1, i, ret =>
    if Config.Exists (config.vehicle i) then
      let q := ops.Create (Config.Get (config.vehicle i) "Quad") ret.length
      CreateVehiclesLoop ops config fuel (i + 1) (ret ++ [q])
    else some ret

/-- The function `CreateVehicles()`: the counter starts at 1 with an empty vector. -/
def CreateVehicles (ops : VehicleOps K V) (config : Config K) : Option (List V) :=
  CreateVehiclesLoop ops config INT_MAX 1 []

/-! ## `LoadScenario` -/

/-- The loop of `ProcessConfigCommands` with counter `i`: every stored start-up command is
passed to the visualizer menu, up to the first missing or empty one.  The `fuel` counts the
values the `int` counter can still take, as in `CreateVehiclesLoop`. -/
def ProcessConfigCommandsLoop (config : Config K) : Nat → Nat → State K V → Option (State K V)
  | 0, _, _ => none
  | fuel + 1, i, s =>
    let cmd := Config.Get (config.command i) ""
    if cmd == "" then some s
    else ProcessConfigCommandsLoop config fuel (i + 1) (s.emit (.onMenu cmd))

/-- The function `ProcessConfigCommands(vis)`. -/
def ProcessConfigCommands (s : State K V) : Option (State K V) :=
  ProcessConfigCommandsLoop s.config INT_MAX 1 s

/-- Lines 79–88 of `LoadScenario`: the scenario file is read and the graphs are emptied. -/
def loadConfig (file : Config K) (s : State K V) : State K V :=
  let s := { s with config := file }.emit .configReset
  (s.emit .removeAllElements).emit .removeAllElements

/-- Lines 91–98 of `LoadScenario`: the new fleet is stored and the visualizer is reset. -/
def installFleet (quads : List V) (s : State K V) : State K V :=
  let s := { s with quads := quads }
  s.emit .visualizerReset

/-- Lines 103–105 of `LoadScenario`: the telemetry node is dropped, and a new one is attached
when `Mavlink.Enable` is non-zero. -/
def attachTelemetry (s : State K V) : State K V :=
  let s := { s with mlNode := false }
  if Config.Get s.config.mavlinkEnable 0 != 0 then { s with mlNode := true } else s

/-- The function `LoadScenario`: the scenario file is read, the fleet is built, the start-up
commands are run, the telemetry node is attached when `Mavlink.Enable` is non-zero, and the
simulation is reset. -/
def LoadScenario (ops : VehicleOps K V) (file : Config K) (s : State K V) :
    Option (State K V) := do
  let s := loadConfig file s
  let quads ← CreateVehicles ops s.config
  let s := installFleet quads s
  let s ← ProcessConfigCommands s
  let s := attachTelemetry s
  pure (ResetSimulation ops file s)

/-- The globals of `run.cpp` as initialised before `main` runs, with nothing loaded yet. -/
def initialState (K V : Type) [FloatArith K] : State K V where
  receivedResetRequest := true
  paused := false
  quads := []
  dtSim := 0.001
  force := V3F.zero
  moment := V3F.zero
  simulationTime := 0
  randomNumCarry := -1
  mlNode := false
  _simCount := 0
  key_space_pressed := false
  visualizerPaused := false
  config := ⟨none, none, none, fun _ => none, fun _ => none, none⟩
  log := []

/-! ## Concrete sessions used in the examples -/

/-- A vehicle model without state: every operation is trivial. -/
def unitOps (K : Type) [FloatArith K] : VehicleOps K Unit where
  Create := fun _ _ => ()
  Reset := fun _ => ()
  Run := fun _ _ _ carry _ _ => ((), carry)
  Position := fun _ => V3F.zero
  Velocity := fun _ => V3F.zero
  Attitude := fun _ => ⟨1, 0, 0, 0⟩
  Omega := fun _ => V3F.zero

/-- No key is down. -/
def noKeys : Keys := ⟨fun _ => false, fun _ => false⟩

/-- Only the named character key is down. -/
def onlyKey (c : Char) : Keys := ⟨fun _ => false, fun k => k == c⟩

/-- Only the named arrow key is down. -/
def onlySpecial (k : SpecialKey) : Keys := ⟨fun j => j == k, fun _ => false⟩

/-- A scenario file with the given timestep, end time and run mode, and one vehicle. -/
def scenario (K : Type) (dt endTime : Option K) (runMode : Option String) : Config K where
  timestep := dt
  endTime := endTime
  runMode := runMode
  vehicle := fun n => if n = 1 then some "Quad" else none
  command := fun _ => none
  mavlinkEnable := none

/-- A session with one stateless vehicle and no telemetry node, given the values of the
session variables that the examples vary. -/
def session {K : Type} [FloatArith K] (request paused : Bool) (dt simTime : K)
    (config : Config K) : State K Unit where
  receivedResetRequest := request
  paused := paused
  quads := [()]
  dtSim := dt
  force := V3F.zero
  moment := V3F.zero
  simulationTime := simTime
  randomNumCarry := -1
  mlNode := false
  _simCount := 1
  key_space_pressed := false
  visualizerPaused := paused
  config := config
  log := []

/-- A tick input with the given keys and scenario file, sampled before the throttle window
has elapsed. -/
def quietTick {K : Type} [FloatArith K] (keys : Keys) (file : Config K) :
    TickInput K := ⟨keys, file, 0⟩

/-- A scenario file that names no vehicle and sets `Mavlink.Enable = 1`. -/
def telemetryScenario (K : Type) : Config K where
  timestep := none
  endTime := none
  runMode := none
  vehicle := fun _ => none
  command := fun _ => none
  mavlinkEnable := some 1

/-- A tick input sampled one second after the last throttled update. -/
def drawTick {K : Type} [FloatArith K] (keys : Keys) (file : Config K) :
    TickInput K := ⟨keys, file, 1⟩

/-- Some force key is down: an arrow key, `w`, `W`, `s` or `S`. -/
def forceKeyDown (keys : Keys) : Bool :=
  keys.IsSpecialKeyDown .GLUT_KEY_LEFT || keys.IsSpecialKeyDown .GLUT_KEY_UP ||
  keys.IsSpecialKeyDown .GLUT_KEY_RIGHT || keys.IsSpecialKeyDown .GLUT_KEY_DOWN ||
  (keys.IsKeyDown 'w' || keys.IsKeyDown 'W') || (keys.IsKeyDown 's' || keys.IsKeyDown 'S')

/-- The steps of the held force keys in the order in which `KeyboardInteraction` adds them to
the force, one `forceStep` of 0.04 per held key: along `-y` for LEFT, `-z` for UP, `+y` for
RIGHT, `+z` for DOWN, `+x` for `w`/`W`, `-x` for `s`/`S`. -/
def heldSteps (K : Type) [FloatArith K] (keys : Keys) : List (V3F K) :=
  (if keys.IsSpecialKeyDown .GLUT_KEY_LEFT then [⟨0, -0.04, 0⟩] else [])
    ++ (if keys.IsSpecialKeyDown .GLUT_KEY_UP then [⟨0, 0, -0.04⟩] else [])
    ++ (if keys.IsSpecialKeyDown .GLUT_KEY_RIGHT then [⟨0, 0.04, 0⟩] else [])
    ++ (if keys.IsSpecialKeyDown .GLUT_KEY_DOWN then [⟨0, 0, 0.04⟩] else [])
    ++ (if keys.IsKeyDown 'w' || keys.IsKeyDown 'W' then [⟨0.04, 0, 0⟩] else [])
    ++ (if keys.IsKeyDown 's' || keys.IsKeyDown 'S' then [⟨-0.04, 0, 0⟩] else [])

/-- The UP arrow is down and no other force key is. -/
def onlyUpHeld (keys : Keys) : Prop :=
  keys.IsSpecialKeyDown .GLUT_KEY_UP = true ∧ keys.IsSpecialKeyDown .GLUT_KEY_LEFT = false ∧
  keys.IsSpecialKeyDown .GLUT_KEY_RIGHT = false ∧ keys.IsSpecialKeyDown .GLUT_KEY_DOWN = false ∧
  keys.IsKeyDown 'w' = false ∧ keys.IsKeyDown 'W' = false ∧
  keys.IsKeyDown 's' = false ∧ keys.IsKeyDown 'S' = false

/-- A run of consecutive calls of `KeyboardInteraction`, one key state per call. -/
def keyboardRun (sqrt : K → K) (samples : List Keys) (s : State K V) : State K V :=
  samples.foldl (fun u keys => KeyboardInteraction sqrt keys u) s

/-- A scenario file with `Sim.Vehicle1`, `Sim.Vehicle2` and `Sim.Vehicle4`, and no
`Sim.Vehicle3`. -/
def gapScenario (K : Type) : Config K where
  timestep := none
  endTime := none
  runMode := none
  vehicle := fun n => if n = 1 ∨ n = 2 ∨ n = 4 then some "Quad" else none
  command := fun _ => none
  mavlinkEnable := none

/-! ## Descriptions of the recorded calls -/

/-- The telemetry packets among the recorded calls, in order. -/
def sentPackets (evs : List (Event K)) : List (Packet K) :=
  evs.filterMap fun e => match e with
    | .send p => some p
    | _ => none

/-- The vehicle step calls among the recorded calls, in order. -/
def runCalls (evs : List (Event K)) : List (Event K) :=
  evs.filter fun e => match e with
    | .quadRun _ _ _ _ _ _ => true
    | _ => false

/-- The indices of the vehicles whose `Reset` is among the recorded calls, in order. -/
def resetCalls (evs : List (Event K)) : List Nat :=
  evs.filterMap fun e => match e with
    | .quadReset i => some i
    | _ => none

/-- The index, timestep, time, force and moment of a recorded vehicle step call. -/
def runArguments (e : Event K) : Option (Nat × K × K × V3F K × V3F K) :=
  match e with
  | .quadRun i dt t _ force moment => some (i, dt, t, force, moment)
  | _ => none

/-- The clock after `n` sub-steps that start at time `t`: `dt` is added `n` times in
succession, as `simulationTime += dtSim` does, each sum being a `float`. -/
def clockAfter (dt : K) : Nat → K → K
  | 0, t => t
  | n + 1, t => clockAfter dt n (t + dt)

/-- One step call: vehicle `j` of the fleet runs with timestep `dt`, time `t`, the current
carry, `force` and `moment`; the vehicle and the carry are replaced by what `Run` returns and
the call is recorded. -/
def stepCall (ops : VehicleOps K V) (dt t : K) (force moment : V3F K)
    (acc : List V × Int × List (Event K)) (j : Nat) : List V × Int × List (Event K) :=
  match acc.1[j]? with
  | some v =>
    let r := ops.Run v dt t acc.2.1 force moment
    (acc.1.set j r.1, r.2, acc.2.2 ++ [Event.quadRun j dt t acc.2.1 force moment])
  | none => acc

/-- The step calls of one unpaused tick when sub-step `k` runs at time `time k`: for
`k = 0 .. NUM_SIM_STEPS_PER_TIMER - 1` in order, for `j = 0 .. n - 1` in registry order, one
`stepCall`.  Returns the fleet and the carry after the calls, and the calls. -/
def scheduledRuns (ops : VehicleOps K V) (dt : K) (time : Nat → K) (force moment : V3F K)
    (quads : List V) (carry : Int) : List V × Int × List (Event K) :=
  (List.range NUM_SIM_STEPS_PER_TIMER).foldl
    (fun acc k => (List.range quads.length).foldl (stepCall ops dt (time k) force moment) acc)
    (quads, carry, [])

/-- The step calls of one unpaused tick as the specification words them: sub-step `k` runs at
time `t0 + k × dt`. -/
def expectedRuns (ops : VehicleOps K V) (dt t0 : K) (force moment : V3F K) (quads : List V)
    (carry : Int) : List V × Int × List (Event K) :=
  scheduledRuns ops dt (fun k => t0 + FloatArith.ofNat k * dt) force moment quads carry

/-- The step calls of one unpaused tick with the clock kept as a `float`: sub-step `k` runs at
the time reached by adding `dt` to `t0` `k` times in succession. -/
def steppedRuns (ops : VehicleOps K V) (dt t0 : K) (force moment : V3F K) (quads : List V)
    (carry : Int) : List V × Int × List (Event K) :=
  scheduledRuns ops dt (fun k => clockAfter dt k t0) force moment quads carry

/-- The calls recorded by `ResetSimulation` for session number `simCount` and a fleet of `n`
vehicles. -/
def resetEvents (K : Type) (simCount : Int) (n : Nat) : List (Event K) :=
  [Event.printSimulation simCount, Event.configReset]
    ++ (List.range n).map Event.quadReset ++ [Event.grapherClear]

/-- The fixed telemetry sequence for vehicle `q0` at time `t`. -/
def telemetryPackets (ops : VehicleOps K V) (t : K) (q0 : V) : List (Packet K) :=
  [Packet.Heartbeat, Packet.Status, Packet.LocalPose t (ops.Position q0) (ops.Velocity q0),
   Packet.Attitude t (ops.Attitude q0) (ops.Omega q0)]

/-- The calls recorded by `KeyboardInteraction`: the two graphs are emptied while `c` or `C` is
down. -/
def keyboardEvents (K : Type) (keys : Keys) : List (Event K) :=
  if keys.IsKeyDown 'c' || keys.IsKeyDown 'C' then
    [Event.removeAllElements, Event.removeAllElements]
  else []

/-- The calls of a throttled update that completes, read off the fleet, the force, the clock
and the telemetry node of the state: the arrow for vehicle 0 when there is one, the redraws,
the timer reset, and the telemetry sequence for vehicle 0 when a node is attached. -/
def throttledEvents (ops : VehicleOps K V) (s : State K V) : List (Event K) :=
  (match s.quads.head? with
    | some q0 => [Event.setArrow ((ops.Position q0).sub s.force) (ops.Position q0)]
    | none => [])
  ++ [Event.visualizerUpdate, Event.drawUpdate, Event.lastDrawReset]
  ++ (match s.quads.head?, s.mlNode with
    | some q0, true => (telemetryPackets ops s.simulationTime q0).map Event.send
    | _, _ => [])

/-- The state at the start of the stepping of a tick: after the reset when the reset
condition holds, the state at the top of the tick otherwise. -/
def stepStart (ops : VehicleOps K V) (inp : TickInput K) (s : State K V) : State K V :=
  if resetCondition s then ResetSimulation ops inp.file s else s

/-- The six force keys of `KeyboardInteraction`. -/
inductive ForceKey where
  | left
  | up
  | right
  | down
  | forward
  | back
deriving DecidableEq, Repr

/-- The vector of length `m` along the direction a force key pushes in: `-y` for LEFT, `-z`
for UP, `+y` for RIGHT, `+z` for DOWN, `+x` for `w`/`W`, `-x` for `s`/`S`. -/
def ForceKey.along : ForceKey → F32 → V3F F32
  | .left, m => ⟨0, -m, 0⟩
  | .up, m => ⟨0, 0, -m⟩
  | .right, m => ⟨0, m, 0⟩
  | .down, m => ⟨0, 0, m⟩
  | .forward, m => ⟨m, 0, 0⟩
  | .back, m => ⟨-m, 0, 0⟩

/-- The length of the force after `n` calls of `KeyboardInteraction` with one force key held,
starting from the zero force: up to call 50 the `float` reached from 0 by `n` successive
additions of the step 0.04, from call 51 on the ceiling 2. -/
def heldRamp (n : Nat) : F32 := if n ≤ 50 then clockAfter 0.04 n 0 else 2

/-- The force after `n` calls of `KeyboardInteraction` with the force key `key` held, starting
from the zero force: the zero vector before the first call, then the vector of length
`heldRamp n` along the direction of the key. -/
def heldForce (key : ForceKey) (n : Nat) : V3F F32 :=
  if n = 0 then V3F.zero else key.along (heldRamp n)

/-- Exactly the force key `key` is held: its key is down (for `w`/`W` and `s`/`S`, one of the
two letters) and no other force key is. -/
def onlyHeld (key : ForceKey) (keys : Keys) : Prop :=
  keys.IsSpecialKeyDown .GLUT_KEY_LEFT = decide (key = .left) ∧
  keys.IsSpecialKeyDown .GLUT_KEY_UP = decide (key = .up) ∧
  keys.IsSpecialKeyDown .GLUT_KEY_RIGHT = decide (key = .right) ∧
  keys.IsSpecialKeyDown .GLUT_KEY_DOWN = decide (key = .down) ∧
  (keys.IsKeyDown 'w' || keys.IsKeyDown 'W') = decide (key = .forward) ∧
  (keys.IsKeyDown 's' || keys.IsKeyDown 'S') = decide (key = .back)

/-- A vehicle model that records how a vehicle was made: a vehicle is its type name, its index
argument, and the number of `Reset` and `Run` calls it has received. -/
def recordOps (K : Type) [FloatArith K] : VehicleOps K (String × Nat × Nat × Nat) where
  Create := fun name idx => (name, idx, 0, 0)
  Reset := fun v => (v.1, v.2.1, v.2.2.1 + 1, v.2.2.2)
  Run := fun v _ _ carry _ _ => ((v.1, v.2.1, v.2.2.1, v.2.2.2 + 1), carry + 1)
  Position := fun _ => V3F.zero
  Velocity := fun _ => V3F.zero
  Attitude := fun _ => ⟨1, 0, 0, 0⟩
  Omega := fun _ => V3F.zero

/-- A scenario file with two vehicles of different type names. -/
def namedScenario (K : Type) : Config K where
  timestep := none
  endTime := none
  runMode := none
  vehicle := fun n => if n = 1 then some "QuadA" else if n = 2 then some "QuadB" else none
  command := fun _ => none
  mavlinkEnable := none

/-- A session with one stateless vehicle and the given force left by the previous input
sample. -/
def forceSession (force : V3F F32) : State F32 Unit :=
  { session false false 0.005 0 (scenario F32 none none none) with force := force }

/-- A session with one stateless vehicle and a telemetry node attached. -/
def nodeSession (K : Type) [FloatArith K] : State K Unit :=
  { session false false 0.005 0 (scenario K none none none) with mlNode := true }

/-- A session with two recorded vehicles, the carry at 7, the clock at 1, the timestep 0.005 and
the force `(0, 0, -0.04)`. -/
def recordSession (K : Type) [FloatArith K] : State K (String × Nat × Nat × Nat) where
  receivedResetRequest := false
  paused := false
  quads := [("QuadA", 0, 0, 0), ("QuadB", 1, 0, 0)]
  dtSim := 0.005
  force := ⟨0, 0, -0.04⟩
  moment := V3F.zero
  simulationTime := 1
  randomNumCarry := 7
  mlNode := false
  _simCount := 1
  key_space_pressed := false
  visualizerPaused := false
  config := namedScenario K
  log := []

/-- Along a run of ticks, every timestep loaded at a reset is positive: whenever the reset
condition holds at the top of a tick, the timestep that the scenario file gives at that tick
(the stored `Sim.Timestep`, or the default 0.005) is greater than 0. -/
def resetTimestepsPositive (sqrt : K → K) (ops : VehicleOps K V) :
    List (TickInput K) → State K V → Prop
  | [], _ => True
  | inp :: rest, s =>
    (resetCondition s = true → 0 < Config.Get inp.file.timestep 0.005) ∧
    ∀ s', OnTimer sqrt ops inp s = some s' → resetTimestepsPositive sqrt ops rest s'


/-! ## Facts of binary32 arithmetic -/

set_option exponentiation.threshold 512

namespace F32

theorem add_def (a b : F32) : a + b = F32.add a b := rfl
theorem lt_def (a b : F32) : a < b ↔ F32.lt a b = true := Iff.rfl
theorem le_def (a b : F32) : a ≤ b ↔ F32.le a b = true := Iff.rfl
theorem zero_def : (0 : F32) = ⟨false, 0, 0⟩ := by decide!

theorem ilog2_eq (n : Nat) : ilog2 n = Nat.log 2 n := by
  unfold ilog2
  split_ifs with h
  · by_cases hn : n = 0
    · subst hn; simp at h
    · exact ((Nat.log_eq_iff (Or.inr ⟨by norm_num, hn⟩)).mpr h).symm
  · rfl

theorem isqrt_eq (n : Nat) : isqrt n = Nat.sqrt n := by
  unfold isqrt
  split_ifs with h
  · exact Nat.eq_sqrt.mpr h
  · rfl

/-- The leading digit: `2 ^ ilog2 n ≤ n < 2 ^ (ilog2 n + 1)` for `n ≠ 0`. -/
theorem ilog2_spec (n : Nat) (hn : n ≠ 0) : 2 ^ ilog2 n ≤ n ∧ n < 2 ^ (ilog2 n + 1) := by
  rw [ilog2_eq]
  exact ⟨Nat.pow_log_le_self 2 hn, Nat.lt_pow_succ_log_self (by norm_num) n⟩

/-- A number of units with at most 24 significant digits survives the truncation of any larger
number to a grid on which that number keeps at least 24 digits. -/
theorem le_trunc (A n t M u : Nat) (hA : A = M * 2 ^ u) (hM : M < 16777216) (hle : A ≤ n)
    (ht : t = 0 ∨ 8388608 ≤ n / 2 ^ t) : A ≤ n / 2 ^ t * 2 ^ t := by
  by_cases hut : t ≤ u
  · have h1 : A = M * 2 ^ (u - t) * 2 ^ t := by
      rw [hA, Nat.mul_assoc, ← Nat.pow_add, Nat.sub_add_cancel hut]
    rw [h1]
    apply Nat.mul_le_mul_right
    rw [Nat.le_div_iff_mul_le (Nat.pos_pow_of_pos _ (by norm_num))]
    rw [← h1]; exact hle
  · have ht0 : t ≠ 0 := by omega
    have h2 : 8388608 ≤ n / 2 ^ t := by
      rcases ht with h | h
      · exact absurd h ht0
      · exact h
    have h3 : 2 ^ u * 2 ≤ 2 ^ t := by
      rw [← Nat.pow_succ]
      exact Nat.pow_le_pow_right (by norm_num) (by omega)
    calc A = M * 2 ^ u := hA
      _ ≤ 16777216 * 2 ^ u := Nat.mul_le_mul_right _ (by omega)
      _ = 8388608 * (2 ^ u * 2) := by ring
      _ ≤ 8388608 * 2 ^ t := Nat.mul_le_mul_left _ h3
      _ ≤ n / 2 ^ t * 2 ^ t := Nat.mul_le_mul_right _ h2

/-- The magnitude of a datum has at most 24 significant digits. -/
theorem mag_form (x : F32) : ∃ M u, x.mag = M * 2 ^ u ∧ M < 16777216 := by
  unfold mag
  have hf := x.frac.isLt
  split_ifs with h
  · exact ⟨x.frac.val, 0, by simp, by omega⟩
  · exact ⟨8388608 + x.frac.val, x.expo.val - 1, rfl, by omega⟩

/-- Rounding to nearest does not go below a `float` that the ratio is not below. -/
theorem le_round (A n : Nat) (M u : Nat) (hA : A = M * 2 ^ u) (hM : M < 16777216)
    (hle : A ≤ n) : A ≤ round n 1 := by
  unfold round
  simp only [Nat.div_one, Nat.one_mul]
  have key : A ≤ n / 2 ^ (if n < 16777216 then 0 else ilog2 n - 23)
      * 2 ^ (if n < 16777216 then 0 else ilog2 n - 23) := by
    apply le_trunc A n _ M u hA hM hle
    split_ifs with h
    · left; rfl
    · right
      have hn : n ≠ 0 := Nat.pos_iff_ne_zero.mp (lt_of_lt_of_le (by norm_num) (not_lt.mp h))
      have hs := (ilog2_spec n hn).1
      have h24 : 24 ≤ ilog2 n := by
        by_contra hc
        have := (ilog2_spec n hn).2
        have : 2 ^ (ilog2 n + 1) ≤ 2 ^ 24 := Nat.pow_le_pow_right (by norm_num) (by omega)
        omega
      rw [Nat.le_div_iff_mul_le (Nat.pos_pow_of_pos _ (by norm_num))]
      calc 8388608 * 2 ^ (ilog2 n - 23) = 2 ^ (23 + (ilog2 n - 23)) := by
            rw [Nat.pow_add]
        _ = 2 ^ ilog2 n := by rw [show 23 + (ilog2 n - 23) = ilog2 n by omega]
        _ ≤ n := hs
  refine le_trans key ?_
  apply Nat.mul_le_mul_right
  split_ifs <;> omega


theorem pack_eq (s : Bool) (e f : Nat) (he : e < 256) (hf : f < 8388608) :
    pack s e f = ⟨s, ⟨e, he⟩, ⟨f, hf⟩⟩ := by
  unfold pack
  rw [dif_pos ⟨he, hf⟩]

theorem ord_finite (e f : Nat) (he : e < 256) (hf : f < 8388608) (h255 : e ≠ 255) :
    (⟨false, ⟨e, he⟩, ⟨f, hf⟩⟩ : F32).ord
      = ((if e = 0 then f else (8388608 + f) * 2 ^ (e - 1) : Nat) : Int) := by
  have h1 : (⟨false, ⟨e, he⟩, ⟨f, hf⟩⟩ : F32).isInf = false := by
    simp [isInf, h255]
  unfold ord
  rw [h1]
  simp only [val, mag]
  simp

theorem ord_inf : (inf false).ord = 2 ^ 277 := by
  have h1 : (inf false).isInf = true := rfl
  unfold ord
  rw [h1]
  rfl

/-- The datum built from `R` units is not a NaN and is not below a `float` that `R` is not
below. -/
theorem ofMag_ge (A R M u : Nat) (hA : A = M * 2 ^ u) (hM : M < 16777216) (hle : A ≤ R)
    (hfin : A < 2 ^ 277) :
    (ofMag false R).isNaN = false ∧ (A : Int) ≤ (ofMag false R).ord := by
  unfold ofMag
  by_cases h23 : R < 8388608
  · rw [if_pos h23, pack_eq false 0 R (by norm_num) h23]
    refine ⟨by simp [isNaN], ?_⟩
    rw [ord_finite 0 R (by norm_num) h23 (by norm_num), if_pos rfl]
    exact_mod_cast hle
  · rw [if_neg h23]
    have hR : R ≠ 0 := by omega
    obtain ⟨hlo, hhi⟩ := ilog2_spec R hR
    have h23' : 23 ≤ ilog2 R := by
      by_contra hc
      have : 2 ^ (ilog2 R + 1) ≤ 2 ^ 23 := Nat.pow_le_pow_right (by norm_num) (by omega)
      omega
    simp only []
    by_cases hinf : 255 ≤ ilog2 R - 22
    · rw [if_pos hinf]
      refine ⟨rfl, ?_⟩
      rw [ord_inf]
      exact_mod_cast hfin.le
    · rw [if_neg hinf]
      have hpos : 0 < 2 ^ (ilog2 R - 22 - 1) := Nat.pos_pow_of_pos _ (by norm_num)
      have hq1 : 8388608 ≤ R / 2 ^ (ilog2 R - 22 - 1) := by
        rw [Nat.le_div_iff_mul_le hpos]
        calc 8388608 * 2 ^ (ilog2 R - 22 - 1) = 2 ^ (23 + (ilog2 R - 22 - 1)) := by
              rw [Nat.pow_add]
          _ = 2 ^ ilog2 R := by rw [show 23 + (ilog2 R - 22 - 1) = ilog2 R by omega]
          _ ≤ R := hlo
      have hq2 : R / 2 ^ (ilog2 R - 22 - 1) < 16777216 := by
        rw [Nat.div_lt_iff_lt_mul hpos]
        calc R < 2 ^ (ilog2 R + 1) := hhi
          _ = 2 ^ (24 + (ilog2 R - 22 - 1)) := by
              rw [show 24 + (ilog2 R - 22 - 1) = ilog2 R + 1 by omega]
          _ = 16777216 * 2 ^ (ilog2 R - 22 - 1) := by rw [Nat.pow_add]
      have he0 : ilog2 R - 22 ≠ 0 := by omega
      have he255 : ilog2 R - 22 ≠ 255 := by omega
      rw [pack_eq false (ilog2 R - 22) (R / 2 ^ (ilog2 R - 22 - 1) - 8388608) (by omega)
        (by omega)]
      refine ⟨by simp [isNaN, he255], ?_⟩
      rw [ord_finite _ _ (by omega) (by omega) he255, if_neg he0]
      have hm : 8388608 + (R / 2 ^ (ilog2 R - 22 - 1) - 8388608)
          = R / 2 ^ (ilog2 R - 22 - 1) := by omega
      rw [hm]
      have := le_trunc A R (ilog2 R - 22 - 1) M u hA hM hle (Or.inr hq1)
      exact_mod_cast this


theorem le_iff (x y : F32) :
    x ≤ y ↔ x.isNaN = false ∧ y.isNaN = false ∧ x.ord ≤ y.ord := by
  rw [le_def]
  simp [le, and_assoc]

theorem lt_iff (x y : F32) :
    x < y ↔ x.isNaN = false ∧ y.isNaN = false ∧ x.ord < y.ord := by
  rw [lt_def]
  simp [lt, and_assoc]

theorem ord_zero : (0 : F32).ord = 0 := by decide!

theorem expo_ne_of_finite (x : F32) (h1 : x.isNaN = false) (h2 : x.isInf = false) :
    x.expo.val ≠ 255 := by
  intro h
  by_cases hf : x.frac.val = 0
  · simp [isInf, h, hf] at h2
  · simp [isNaN, h, hf] at h1

/-- A finite datum lies below `2 ^ 128`, that is `2 ^ 277` units. -/
theorem mag_lt (x : F32) (h : x.expo.val ≠ 255) : x.mag < 2 ^ 277 := by
  have hf := x.frac.isLt
  have he := x.expo.isLt
  unfold mag
  split_ifs with h0
  · calc x.frac.val < 8388608 := hf
      _ ≤ 2 ^ 277 := by norm_num
  · calc (8388608 + x.frac.val) * 2 ^ (x.expo.val - 1)
        < 16777216 * 2 ^ (x.expo.val - 1) :=
          Nat.mul_lt_mul_of_pos_right (by omega) (Nat.pos_pow_of_pos _ (by norm_num))
      _ ≤ 16777216 * 2 ^ 253 :=
          Nat.mul_le_mul_left _ (Nat.pow_le_pow_right (by norm_num) (by omega))
      _ = 2 ^ 277 := by norm_num

theorem ord_of_not_inf (x : F32) (h : x.isInf = false) : x.ord = x.val := by
  unfold ord
  rw [h]
  rfl

theorem val_le_mag (x : F32) : x.val ≤ x.mag := by
  unfold val
  split_ifs <;> omega

/-- A datum that is not below zero has its magnitude as value. -/
theorem val_of_nonneg (x : F32) (h : 0 ≤ x.val) : x.val = x.mag := by
  unfold val at h ⊢
  split_ifs at h ⊢ <;> omega

theorem sign_of_inf_nonneg (x : F32) (hi : x.isInf = true) (h : 0 ≤ x.ord) :
    x.sign = false := by
  unfold ord at h
  rw [hi] at h
  cases hs : x.sign with
  | false => rfl
  | true =>
    rw [hs, if_pos rfl] at h
    have h277 : (0 : Int) < 2 ^ 277 := by positivity
    exact absurd (Int.neg_nonneg.mp h) (not_le.mpr h277)

theorem ord_of_inf_nonneg (x : F32) (hi : x.isInf = true) (h : 0 ≤ x.ord) :
    x.ord = 2 ^ 277 := by
  have hs := sign_of_inf_nonneg x hi h
  unfold ord
  rw [hi, hs]
  rfl

/-- Adding a positive `float` to a non-negative one gives a `float` that is not smaller, and
not negative: rounding to nearest never crosses a `float`. -/
theorem add_ge (a b : F32) (ha : (0 : F32) ≤ a) (hb : (0 : F32) < b) :
    a ≤ a + b ∧ (0 : F32) ≤ a + b := by
  rw [le_iff, ord_zero] at ha
  rw [lt_iff, ord_zero] at hb
  obtain ⟨-, hna, hoa⟩ := ha
  obtain ⟨h0, hnb, hob⟩ := hb
  have key : (a + b).isNaN = false ∧ a.ord ≤ (a + b).ord := by
    rw [add_def]
    unfold add
    rw [hna, hnb]
    simp only [Bool.or_self, Bool.false_eq_true, if_false]
    by_cases hai : a.isInf = true
    · have hsa := sign_of_inf_nonneg a hai hoa
      have hc : (b.isInf && (a.sign != b.sign)) = false := by
        by_cases hbi : b.isInf = true
        · have hsb := sign_of_inf_nonneg b hbi hob.le
          simp [hsa, hsb]
        · simp [hbi]
      rw [if_pos hai, hc]
      simp only [Bool.false_eq_true, if_false]
      exact ⟨hna, Int.le_refl _⟩
    · rw [if_neg hai]
      have hai' : a.isInf = false := by simpa using hai
      have hfa := mag_lt a (expo_ne_of_finite a hna hai')
      have hva : a.ord = a.mag := by
        rw [ord_of_not_inf a hai'] at hoa ⊢
        exact val_of_nonneg a hoa
      by_cases hbi : b.isInf = true
      · rw [if_pos hbi]
        refine ⟨hnb, ?_⟩
        rw [ord_of_inf_nonneg b hbi hob.le, hva]
        exact_mod_cast hfa.le
      · rw [if_neg hbi]
        have hbi' : b.isInf = false := by simpa using hbi
        have hvb : b.val = b.mag := by
          rw [ord_of_not_inf b hbi'] at hob
          exact val_of_nonneg b hob.le
        have hbpos : 0 < b.val := by rwa [ord_of_not_inf b hbi'] at hob
        have hva' : a.val = a.mag := by rw [← ord_of_not_inf a hai', hva]
        have hz : a.val + b.val ≠ 0 := by omega
        have hz' : ¬ (a.val + b.val < 0) := by omega
        have hn : (a.val + b.val).natAbs = a.mag + b.mag := by omega
        simp only [hz, hz', if_false, decide_False, hn]
        obtain ⟨M, u, hM1, hM2⟩ := mag_form a
        have h1 := le_round a.mag (a.mag + b.mag) M u hM1 hM2 (Nat.le_add_right _ _)
        have h2 := ofMag_ge a.mag (round (a.mag + b.mag) 1) M u hM1 hM2 h1 hfa
        rw [hva]
        exact h2
  rw [le_iff, le_iff, ord_zero]
  exact ⟨⟨hna, key.1, key.2⟩, h0, key.1, Int.le_trans hoa key.2⟩


theorem div_def (a b : F32) : a / b = F32.div a b := rfl
theorem le_refl_of_le (x y : F32) (h : x ≤ y) : y ≤ y := by
  rw [le_iff] at h ⊢
  exact ⟨h.2.1, h.2.1, Int.le_refl _⟩

theorem le_of_le_of_le (x y z : F32) (h1 : x ≤ y) (h2 : y ≤ z) : x ≤ z := by
  rw [le_iff] at h1 h2 ⊢
  exact ⟨h1.1, h2.2.1, Int.le_trans h1.2.2 h2.2.2⟩

/-- No `float` is both at most and greater than another. -/
theorem not_lt_of_le (x y : F32) (h : x ≤ y) : ¬ y < x := by
  rw [le_iff] at h
  rw [lt_iff]
  rintro ⟨-, -, h3⟩
  omega

theorem sign_of_pos (x : F32) (hi : x.isInf = false) (h : 0 < x.ord) :
    x.sign = false ∧ x.mag ≠ 0 := by
  rw [ord_of_not_inf x hi] at h
  unfold val at h
  split_ifs at h with hs
  · omega
  · exact ⟨by simpa using hs, by omega⟩

/-- Zero divided by a `float` greater than 2 and then doubled is zero. -/
theorem zero_div_mul (m : F32) (h : (2 : F32) < m) : (0 : F32) / m * 2 = 0 := by
  rw [lt_iff] at h
  obtain ⟨-, hn, ho⟩ := h
  have h2 : (0 : Int) ≤ (2 : F32).ord := by decide!
  have hpos : 0 < m.ord := by omega
  have hd : (0 : F32) / m = 0 := by
    rw [div_def]
    unfold div
    have hz1 : (0 : F32).isNaN = false := by decide!
    have hz2 : (0 : F32).isInf = false := by decide!
    have hz3 : (0 : F32).mag = 0 := by decide!
    have hz4 : (0 : F32).sign = false := by decide!
    have hz5 : zero false = 0 := by decide!
    rw [hz1, hz2, hz3, hz4, hn]
    simp only [Bool.or_self, Bool.false_eq_true, if_false, if_true]
    by_cases hi : m.isInf = true
    · rw [if_pos hi, sign_of_inf_nonneg m hi hpos.le]
      exact hz5
    · have hi' : m.isInf = false := by simpa using hi
      obtain ⟨hs, hm⟩ := sign_of_pos m hi' hpos
      rw [if_neg hi, if_neg hm, hs]
      exact hz5
  rw [hd]
  decide!

end F32

/-! ## Frame lemmas -/

section Frame

variable (sqrt : K → K) (ops : VehicleOps K V)

@[simp] theorem emit_fields (s : State K V) (e : Event K) :
    (s.emit e).receivedResetRequest = s.receivedResetRequest ∧ (s.emit e).paused = s.paused ∧
    (s.emit e).quads = s.quads ∧ (s.emit e).dtSim = s.dtSim ∧ (s.emit e).force = s.force ∧
    (s.emit e).moment = s.moment ∧ (s.emit e).simulationTime = s.simulationTime ∧
    (s.emit e).randomNumCarry = s.randomNumCarry ∧ (s.emit e).mlNode = s.mlNode ∧
    (s.emit e)._simCount = s._simCount ∧ (s.emit e).key_space_pressed = s.key_space_pressed ∧
    (s.emit e).visualizerPaused = s.visualizerPaused ∧ (s.emit e).config = s.config ∧
    (s.emit e).log = s.log ++ [e] := by
  simp [State.emit]

/-- `KeyboardInteraction` leaves the clock, the timestep, the carry, the counter, the fleet,
the telemetry node and the loaded configuration alone. -/
theorem KeyboardInteraction_frame (keys : Keys) (s : State K V) :
    (KeyboardInteraction sqrt keys s).simulationTime = s.simulationTime ∧
    (KeyboardInteraction sqrt keys s).dtSim = s.dtSim ∧
    (KeyboardInteraction sqrt keys s).randomNumCarry = s.randomNumCarry ∧
    (KeyboardInteraction sqrt keys s)._simCount = s._simCount ∧
    (KeyboardInteraction sqrt keys s).quads = s.quads ∧
    (KeyboardInteraction sqrt keys s).mlNode = s.mlNode ∧
    (KeyboardInteraction sqrt keys s).config = s.config ∧
    (KeyboardInteraction sqrt keys s).moment = s.moment := by
  unfold KeyboardInteraction
  simp only []
  split_ifs <;> simp [State.emit]

theorem resetQuads_length (i : Nat) (qs : List V) :
    (resetQuads (K := K) ops i qs).1.length = qs.length := by
  induction qs generalizing i with
  | nil => rfl
  | cons q qs ih => simp [resetQuads, ih]

/-- The session variables right after `ResetSimulation`. -/
theorem ResetSimulation_fields (file : Config K) (s : State K V) :
    (ResetSimulation ops file s).simulationTime = 0 ∧
    (ResetSimulation ops file s).randomNumCarry = -1 ∧
    (ResetSimulation ops file s).receivedResetRequest = false ∧
    (ResetSimulation ops file s)._simCount = wrapInt (s._simCount + 1) ∧
    (ResetSimulation ops file s).dtSim = Config.Get file.timestep 0.005 ∧
    (ResetSimulation ops file s).config = file ∧
    (ResetSimulation ops file s).paused = s.paused ∧
    (ResetSimulation ops file s).mlNode = s.mlNode ∧
    (ResetSimulation ops file s).force = s.force ∧
    (ResetSimulation ops file s).moment = s.moment ∧
    (ResetSimulation ops file s).key_space_pressed = s.key_space_pressed ∧
    (ResetSimulation ops file s).quads = (resetQuads (K := K) ops 0 s.quads).1 := by
  simp [ResetSimulation, State.emit]

theorem runQuads_length (dt t : K) (F M : V3F K) (i : Nat) (qs : List V) (c : Int) :
    (runQuads ops dt t F M i qs c).1.length = qs.length := by
  induction qs generalizing i c with
  | nil => rfl
  | cons q qs ih => simp [runQuads, ih]

theorem subStep_fields (s : State K V) :
    (subStep ops s).simulationTime = s.simulationTime + s.dtSim ∧
    (subStep ops s).dtSim = s.dtSim ∧
    (subStep ops s).paused = s.paused ∧
    (subStep ops s).receivedResetRequest = s.receivedResetRequest ∧
    (subStep ops s)._simCount = s._simCount ∧
    (subStep ops s).mlNode = s.mlNode ∧
    (subStep ops s).config = s.config ∧
    (subStep ops s).force = s.force ∧
    (subStep ops s).moment = s.moment ∧
    (subStep ops s).key_space_pressed = s.key_space_pressed ∧
    (subStep ops s).visualizerPaused = s.visualizerPaused ∧
    (subStep ops s).quads.length = s.quads.length := by
  simp [subStep, runQuads_length]

theorem simSteps_fields (n : Nat) (s : State K V) :
    (simSteps ops n s).simulationTime = clockAfter s.dtSim n s.simulationTime ∧
    (simSteps ops n s).dtSim = s.dtSim ∧
    (simSteps ops n s).paused = s.paused ∧
    (simSteps ops n s).receivedResetRequest = s.receivedResetRequest ∧
    (simSteps ops n s)._simCount = s._simCount ∧
    (simSteps ops n s).mlNode = s.mlNode ∧
    (simSteps ops n s).config = s.config ∧
    (simSteps ops n s).force = s.force ∧
    (simSteps ops n s).moment = s.moment ∧
    (simSteps ops n s).key_space_pressed = s.key_space_pressed ∧
    (simSteps ops n s).visualizerPaused = s.visualizerPaused ∧
    (simSteps ops n s).quads.length = s.quads.length := by
  induction n generalizing s with
  | zero => simp [simSteps, clockAfter]
  | succ n ih =>
    have h := ih (subStep ops s)
    have h2 := subStep_fields ops s
    simp only [simSteps]
    refine ⟨?_, ?_, ?_, ?_, ?_, ?_, ?_, ?_, ?_, ?_, ?_, ?_⟩
    · rw [h.1, h2.1, h2.2.1]; rfl
    all_goals simp [h, h2]


/-- With a telemetry node attached and an empty fleet the throttled update reads `quads[0]`
outside the vector. -/
theorem throttledUpdate_none (s : State K V) (hml : s.mlNode = true) (hq : s.quads = []) :
    throttledUpdate ops s = none := by
  simp [throttledUpdate, quadAt, hml, hq, State.emit]

theorem throttledUpdate_some (s : State K V) (h : ¬ (s.mlNode = true ∧ s.quads = [])) :
    ∃ evs, throttledUpdate ops s = some { s with log := s.log ++ evs } := by
  cases hq : s.quads with
  | nil =>
    have hml : s.mlNode = false := by
      cases hm : s.mlNode with
      | false => rfl
      | true => exact absurd ⟨hm, hq⟩ h
    refine ⟨[.visualizerUpdate, .drawUpdate, .lastDrawReset], ?_⟩
    simp [throttledUpdate, hq, hml, State.emit]
  | cons q qs =>
    cases hm : s.mlNode with
    | false =>
      refine ⟨[.setArrow ((ops.Position q).sub s.force) (ops.Position q), .visualizerUpdate,
        .drawUpdate, .lastDrawReset], ?_⟩
      simp [throttledUpdate, hq, hm, State.emit, quadAt]
    | true =>
      refine ⟨[.setArrow ((ops.Position q).sub s.force) (ops.Position q), .visualizerUpdate,
        .drawUpdate, .lastDrawReset, .send .Heartbeat, .send .Status,
        .send (.LocalPose s.simulationTime (ops.Position q) (ops.Velocity q)),
        .send (.Attitude s.simulationTime (ops.Attitude q) (ops.Omega q))], ?_⟩
      simp [throttledUpdate, hq, hm, State.emit, quadAt]

/-- The session variables after lines 144–175 of a tick. -/
theorem sessionStep_fields (inp : TickInput K) (s : State K V) :
    (sessionStep sqrt ops inp s).simulationTime =
      (if s.paused then (if resetCondition s then 0 else s.simulationTime)
       else clockAfter (if resetCondition s then Config.Get inp.file.timestep 0.005 else s.dtSim)
        NUM_SIM_STEPS_PER_TIMER (if resetCondition s then 0 else s.simulationTime)) ∧
    (sessionStep sqrt ops inp s)._simCount =
      (if resetCondition s then wrapInt (s._simCount + 1) else s._simCount) ∧
    (sessionStep sqrt ops inp s).mlNode = s.mlNode ∧
    (sessionStep sqrt ops inp s).quads.length = s.quads.length ∧
    (sessionStep sqrt ops inp s).dtSim =
      (if resetCondition s then Config.Get inp.file.timestep 0.005 else s.dtSim) ∧
    (sessionStep sqrt ops inp s).config = (if resetCondition s then inp.file else s.config) := by
  have hk := KeyboardInteraction_frame (V := V) sqrt inp.keys
  have hr := ResetSimulation_fields ops inp.file s
  have hl := resetQuads_length (K := K) ops 0 s.quads
  simp only [sessionStep, NUM_SIM_STEPS_PER_TIMER]
  by_cases hc : resetCondition s = true <;> by_cases hp : s.paused = true <;>
    simp [hc, hp, hk, hr, hl, simSteps_fields]

/-- A tick fails exactly when the throttled update reads `quads[0]` of an empty fleet. -/
theorem OnTimer_none (inp : TickInput K) (s : State K V)
    (h : inp.elapsedSeconds > 0.030 ∧ s.mlNode = true ∧ s.quads = []) :
    OnTimer sqrt ops inp s = none := by
  have hf := sessionStep_fields sqrt ops inp s
  have hq : (sessionStep sqrt ops inp s).quads = [] := by
    apply List.eq_nil_of_length_eq_zero
    rw [hf.2.2.2.1, h.2.2]; rfl
  simp [OnTimer, h.1, throttledUpdate_none ops _ (hf.2.2.1.trans h.2.1) hq]

/-- Outside that case a tick completes, and its final state is the state after lines 144–175
with more calls recorded. -/
theorem OnTimer_some (inp : TickInput K) (s : State K V)
    (h : ¬ (inp.elapsedSeconds > 0.030 ∧ s.mlNode = true ∧ s.quads = [])) :
    ∃ evs, OnTimer sqrt ops inp s =
      some { sessionStep sqrt ops inp s with log := (sessionStep sqrt ops inp s).log ++ evs } := by
  have hf := sessionStep_fields sqrt ops inp s
  by_cases he : inp.elapsedSeconds > 0.030
  · have h2 : ¬ ((sessionStep sqrt ops inp s).mlNode = true ∧
        (sessionStep sqrt ops inp s).quads = []) := by
      rintro ⟨hm, hq⟩
      apply h
      refine ⟨he, hf.2.2.1 ▸ hm, ?_⟩
      apply List.eq_nil_of_length_eq_zero
      rw [← hf.2.2.2.1, hq]; rfl
    obtain ⟨evs, hevs⟩ := throttledUpdate_some ops _ h2
    refine ⟨evs ++ [.timerFunc 5], ?_⟩
    simp [OnTimer, he, hevs, State.emit]
  · refine ⟨[.timerFunc 5], ?_⟩
    simp [OnTimer, he, State.emit]

end Frame

section Commands
variable (sqrt : K → K) (ops : VehicleOps K V)

/-- The commands of `KeyboardInteraction`: the reset request is raised while `r` or `R` is
down; the pause flag flips when the space key goes down and was not down at the previous
sample. -/
theorem KeyboardInteraction_commands (keys : Keys) (s : State K V) :
    (KeyboardInteraction sqrt keys s).receivedResetRequest =
      (s.receivedResetRequest || keys.IsKeyDown 'r' || keys.IsKeyDown 'R') ∧
    (KeyboardInteraction sqrt keys s).paused =
      (if keys.IsKeyDown ' ' && !s.key_space_pressed then !s.paused else s.paused) ∧
    (KeyboardInteraction sqrt keys s).key_space_pressed = keys.IsKeyDown ' ' ∧
    (KeyboardInteraction sqrt keys s).visualizerPaused =
      (if keys.IsKeyDown ' ' && !s.key_space_pressed then !s.paused else s.visualizerPaused) ∧
    (KeyboardInteraction sqrt keys s).force = keyboardForce sqrt keys s.force := by
  unfold KeyboardInteraction
  simp only []
  cases h1 : keys.IsKeyDown 'c' <;> cases h2 : keys.IsKeyDown 'C' <;>
  cases h3 : keys.IsKeyDown 'r' <;> cases h4 : keys.IsKeyDown 'R' <;>
  cases h5 : keys.IsKeyDown ' ' <;> cases h6 : s.key_space_pressed <;>
    simp [State.emit, h6]

/-- When the reset condition is false, no request is pending. -/
theorem request_false_of_resetCondition_false (s : State K V) (h : resetCondition s = false) :
    s.receivedResetRequest = false := by
  cases hr : s.receivedResetRequest with
  | false => rfl
  | true => simp [resetCondition, hr] at h

/-- The command flags after lines 144–175 of a tick. -/
theorem sessionStep_commands (inp : TickInput K) (s : State K V) :
    (sessionStep sqrt ops inp s).receivedResetRequest =
      (inp.keys.IsKeyDown 'r' || inp.keys.IsKeyDown 'R') ∧
    (sessionStep sqrt ops inp s).paused =
      (if inp.keys.IsKeyDown ' ' && !s.key_space_pressed then !s.paused else s.paused) ∧
    (sessionStep sqrt ops inp s).key_space_pressed = inp.keys.IsKeyDown ' ' := by
  have hk := KeyboardInteraction_commands (V := V) sqrt inp.keys
  have hr := ResetSimulation_fields ops inp.file s
  simp only [sessionStep, NUM_SIM_STEPS_PER_TIMER]
  by_cases hc : resetCondition s = true <;> by_cases hp : s.paused = true
  · simp [hc, hp, hk, hr, simSteps_fields]
  · simp [hc, hp, hk, hr, simSteps_fields]
  · simp [hc, hp, hk, hr, simSteps_fields,
      request_false_of_resetCondition_false s (by simpa using hc)]
  · simp [hc, hp, hk, hr, simSteps_fields,
      request_false_of_resetCondition_false s (by simpa using hc)]

/-- A tick that completes: its final state agrees with the state after lines 144–175 on every
session variable. -/
theorem OnTimer_fields (inp : TickInput K) (s : State K V)
    (h : ¬ (inp.elapsedSeconds > 0.030 ∧ s.mlNode = true ∧ s.quads = [])) :
    ∃ s', OnTimer sqrt ops inp s = some s' ∧
      s'.simulationTime = (sessionStep sqrt ops inp s).simulationTime ∧
      s'._simCount = (sessionStep sqrt ops inp s)._simCount ∧
      s'.mlNode = s.mlNode ∧
      s'.quads.length = s.quads.length ∧
      s'.dtSim = (sessionStep sqrt ops inp s).dtSim ∧
      s'.config = (sessionStep sqrt ops inp s).config ∧
      s'.receivedResetRequest = (sessionStep sqrt ops inp s).receivedResetRequest ∧
      s'.paused = (sessionStep sqrt ops inp s).paused ∧
      s'.key_space_pressed = (sessionStep sqrt ops inp s).key_space_pressed ∧
      s'.randomNumCarry = (sessionStep sqrt ops inp s).randomNumCarry ∧
      s'.force = (sessionStep sqrt ops inp s).force := by
  obtain ⟨evs, hevs⟩ := OnTimer_some sqrt ops inp s h
  have hf := sessionStep_fields sqrt ops inp s
  exact ⟨_, hevs, rfl, rfl, hf.2.2.1, hf.2.2.2.1, rfl, rfl, rfl, rfl, rfl, rfl, rfl⟩

theorem ToUpper_Repeat : ToUpper "Repeat" = "REPEAT" := by decide

/-- The reset condition spelled out. -/
theorem resetCondition_iff (s : State K V) :
    resetCondition s = true ↔
      (s.receivedResetRequest = true ∨
        (ToUpper (Config.Get s.config.runMode "Continuous") = ToUpper "Repeat" ∧
          Config.Get s.config.endTime (-1) > 0 ∧
          s.simulationTime ≥ Config.Get s.config.endTime (-1))) := by
  simp [resetCondition, ToUpper_Repeat, and_assoc]

theorem ToUpper_Continuous : ToUpper "Continuous" ≠ ToUpper "Repeat" := by decide

end Commands

/-! ## Whole ticks -/

section Ticks
variable (sqrt : K → K) (ops : VehicleOps K V)

/-- A tick of a session that has a vehicle, or has no telemetry node, completes; at its end
the session variables are those after lines 144–175, and the next tick completes as well. -/
theorem OnTimer_session (inp : TickInput K) (s : State K V)
    (hfleet : s.mlNode = false ∨ s.quads ≠ []) :
    ∃ s', OnTimer sqrt ops inp s = some s' ∧
      (s'.mlNode = false ∨ s'.quads ≠ []) ∧
      s'.simulationTime =
        (if s.paused then (if resetCondition s then 0 else s.simulationTime)
         else clockAfter
          (if resetCondition s then Config.Get inp.file.timestep 0.005 else s.dtSim)
          NUM_SIM_STEPS_PER_TIMER (if resetCondition s then 0 else s.simulationTime)) ∧
      s'._simCount = (if resetCondition s then wrapInt (s._simCount + 1) else s._simCount) ∧
      s'.dtSim = (if resetCondition s then Config.Get inp.file.timestep 0.005 else s.dtSim) ∧
      s'.config = (if resetCondition s then inp.file else s.config) ∧
      s'.receivedResetRequest = (inp.keys.IsKeyDown 'r' || inp.keys.IsKeyDown 'R') ∧
      s'.paused =
        (if inp.keys.IsKeyDown ' ' && !s.key_space_pressed then !s.paused else s.paused) ∧
      s'.key_space_pressed = inp.keys.IsKeyDown ' ' := by
  have hcompl : ¬ (inp.elapsedSeconds > 0.030 ∧ s.mlNode = true ∧ s.quads = []) := by
    rintro ⟨-, h1, h2⟩
    rcases hfleet with h | h
    · rw [h] at h1; cases h1
    · exact h h2
  obtain ⟨s', e, a⟩ := OnTimer_fields sqrt ops inp s hcompl
  have f := sessionStep_fields sqrt ops inp s
  have c := sessionStep_commands sqrt ops inp s
  refine ⟨s', e, ?_, a.1.trans f.1, a.2.1.trans f.2.1, a.2.2.2.2.1.trans f.2.2.2.2.1,
    a.2.2.2.2.2.1.trans f.2.2.2.2.2, a.2.2.2.2.2.2.1.trans c.1, a.2.2.2.2.2.2.2.1.trans c.2.1,
    a.2.2.2.2.2.2.2.2.1.trans c.2.2⟩
  rcases hfleet with h | h
  · left; rw [a.2.2.1, h]
  · right
    intro h1
    apply h
    apply List.eq_nil_of_length_eq_zero
    rw [← a.2.2.2.1, h1]; rfl

/-- Repeat mode with an end time `e` that the clock has not reached after one tick and has
reached after two: two ticks bring the clock to ten successive additions of `dt` without a
reset, and the third tick resets and then steps with the reloaded timestep. -/
theorem repeat_three_ticks (t1 t2 t3 : TickInput K) (s : State K V) (dt e : K)
    (htime : s.simulationTime = 0) (hpaused : s.paused = false)
    (hrequest : s.receivedResetRequest = false) (hdt : s.dtSim = dt)
    (hmode : s.config.runMode = some "Repeat") (hend : s.config.endTime = some e)
    (hpos : e > 0) (h0 : ¬ (0 : K) ≥ e)
    (h5 : ¬ clockAfter dt NUM_SIM_STEPS_PER_TIMER 0 ≥ e)
    (h10 : clockAfter dt NUM_SIM_STEPS_PER_TIMER (clockAfter dt NUM_SIM_STEPS_PER_TIMER 0) ≥ e)
    (hkeys1 : t1.keys.IsKeyDown ' ' = false ∧ t1.keys.IsKeyDown 'r' = false ∧
      t1.keys.IsKeyDown 'R' = false)
    (hkeys2 : t2.keys.IsKeyDown ' ' = false ∧ t2.keys.IsKeyDown 'r' = false ∧
      t2.keys.IsKeyDown 'R' = false)
    (hfleet : s.mlNode = false ∨ s.quads ≠ []) :
    ∃ s2 s3, runTicks sqrt ops [t1, t2] s = some s2 ∧
      s2.simulationTime
        = clockAfter dt NUM_SIM_STEPS_PER_TIMER (clockAfter dt NUM_SIM_STEPS_PER_TIMER 0) ∧
      s2._simCount = s._simCount ∧ resetCondition s2 = true ∧
      OnTimer sqrt ops t3 s2 = some s3 ∧ s3._simCount = wrapInt (s._simCount + 1) ∧
      s3.simulationTime
        = clockAfter (Config.Get t3.file.timestep 0.005) NUM_SIM_STEPS_PER_TIMER 0 := by
  have hc0 : resetCondition s = false := by
    rw [← Bool.not_eq_true, resetCondition_iff, hrequest, hend, htime]
    rintro (h | ⟨-, -, h⟩)
    · cases h
    · exact h0 h
  obtain ⟨s1, e1, hfleet1, a1⟩ := OnTimer_session sqrt ops t1 s hfleet
  simp only [hc0, hpaused, hkeys1, htime, hdt] at a1
  simp at a1
  have hc1 : resetCondition s1 = false := by
    rw [← Bool.not_eq_true, resetCondition_iff, a1.2.2.2.2.1, a1.2.2.2.1, a1.1, hend]
    rintro (h | ⟨-, -, h⟩)
    · cases h
    · exact h5 h
  obtain ⟨s2, e2, hfleet2, a2⟩ := OnTimer_session sqrt ops t2 s1 hfleet1
  simp only [hc1, a1, hkeys2] at a2
  simp at a2
  have hc2 : resetCondition s2 = true := by
    rw [resetCondition_iff, a2.2.2.2.1, a2.1, hend, hmode]
    right
    exact ⟨rfl, hpos, h10⟩
  obtain ⟨s3, e3, -, a3⟩ := OnTimer_session sqrt ops t3 s2 hfleet2
  simp only [hc2, a2] at a3
  simp at a3
  exact ⟨s2, s3, by simp [runTicks, e1, e2], a2.1, a2.2.1, hc2, e3, a3.2.1, a3.1⟩

end Ticks

/-! ## The force of the input sample -/

section Force
variable (sqrt : K → K)

/-- The summed force: the steps of the held keys added to the incoming force one after the
other, or zero when no force key is down. -/
theorem summedForce_eq (keys : Keys) (f : V3F K) :
    summedForce keys f
      = if forceKeyDown keys then (heldSteps K keys).foldl V3F.add f else V3F.zero := by
  unfold summedForce forceKeyDown heldSteps
  cases keys.IsSpecialKeyDown .GLUT_KEY_LEFT <;> cases keys.IsSpecialKeyDown .GLUT_KEY_UP <;>
  cases keys.IsSpecialKeyDown .GLUT_KEY_RIGHT <;> cases keys.IsSpecialKeyDown .GLUT_KEY_DOWN <;>
  cases (keys.IsKeyDown 'w' || keys.IsKeyDown 'W') <;>
  cases (keys.IsKeyDown 's' || keys.IsKeyDown 'S') <;>
    simp [V3F.zero]

/-- With only UP held and the computed length of the sum not above 2, the new force is the
incoming force plus one step along `-z`. -/
theorem keyboardForce_up (keys : Keys) (hup : onlyUpHeld keys) (f : V3F K)
    (hle : ¬ (f.add ⟨0, 0, -0.04⟩).mag sqrt > 2) :
    keyboardForce sqrt keys f = f.add ⟨0, 0, -0.04⟩ := by
  obtain ⟨h1, h2, h3, h4, h5, h6, h7, h8⟩ := hup
  have hsum : summedForce keys f = f.add ⟨0, 0, -0.04⟩ := by
    rw [summedForce_eq]
    simp [forceKeyDown, heldSteps, h1, h2, h3, h4, h5, h6, h7, h8]
  unfold keyboardForce
  simp only [hsum]
  rw [if_neg hle]

theorem onlyUpHeld_onlySpecial : onlyUpHeld (onlySpecial .GLUT_KEY_UP) := by
  simp [onlyUpHeld, onlySpecial]

/-- In binary32 the clamp leaves the zero vector alone, whatever the square-root function
returns for its length. -/
theorem clamp_zero (sqrt : F32 → F32) :
    (if (V3F.zero : V3F F32).mag sqrt > 2 then
      ((V3F.zero : V3F F32).div ((V3F.zero : V3F F32).mag sqrt)).mul 2
    else V3F.zero) = (V3F.zero : V3F F32) := by
  split_ifs with h
  · have h0 := F32.zero_div_mul _ h
    simp only [V3F.zero] at h0 ⊢
    simp only [V3F.div, V3F.mul, h0]
  · rfl

/-- In binary32, no force key down leaves the zero force. -/
theorem keyboardForce_noKey (sqrt : F32 → F32) (keys : Keys) (f : V3F F32)
    (h : forceKeyDown keys = false) : keyboardForce sqrt keys f = V3F.zero := by
  unfold keyboardForce
  simp only [summedForce_eq, h]
  exact clamp_zero sqrt

end Force

/-! ## Reset requests -/

section Reset
variable (sqrt : K → K) (ops : VehicleOps K V)

/-- A pending request makes the reset condition true. -/
theorem resetCondition_of_request (s : State K V) (h : s.receivedResetRequest = true) :
    resetCondition s = true := by
  simp [resetCondition, h]

/-- Storing an `int` between two additions does not change the stored sum. -/
theorem wrapInt_add (a b : Int) : wrapInt (wrapInt a + b) = wrapInt (a + b) := by
  unfold wrapInt
  omega

/-- An `int` value is stored as it is. -/
theorem wrapInt_of_range (a : Int) (h1 : -2147483648 ≤ a) (h2 : a ≤ 2147483647) :
    wrapInt a = a := by
  unfold wrapInt
  omega

/-- Ticks with the reset key down, entered with a request pending, and one more tick: every
one of them runs a reset. -/
theorem held_reset_ticks (held : List (TickInput K)) (last : TickInput K) :
    ∀ u : State K V, u.receivedResetRequest = true →
      (u.mlNode = false ∨ u.quads ≠ []) →
      (∀ t ∈ held, t.keys.IsKeyDown 'r' = true ∨ t.keys.IsKeyDown 'R' = true) →
      ∃ s', runTicks sqrt ops (held ++ [last]) u = some s' ∧
        s'._simCount = wrapInt (u._simCount + held.length + 1) := by
  induction held with
  | nil =>
    intro u hu hfleet _
    obtain ⟨s', e, -, a⟩ := OnTimer_session sqrt ops last u hfleet
    refine ⟨s', by simp [runTicks, e], ?_⟩
    rw [a.2.1, resetCondition_of_request u hu]
    simp
  | cons t rest ih =>
    intro u hu hfleet hheld
    obtain ⟨s1, e, hfleet1, a⟩ := OnTimer_session sqrt ops t u hfleet
    have hreq : s1.receivedResetRequest = true := by
      rw [a.2.2.2.2.1]
      rcases hheld t (List.mem_cons_self _ _) with h | h <;> simp [h]
    obtain ⟨s', e', a'⟩ := ih s1 hreq hfleet1
      (fun t' ht' => hheld t' (List.mem_cons_of_mem _ ht'))
    refine ⟨s', by simp [runTicks, e, e'], ?_⟩
    rw [a', a.2.1, resetCondition_of_request u hu]
    simp only [if_true, List.length_cons, Nat.cast_add, Nat.cast_one]
    rw [Int.add_assoc (wrapInt _), wrapInt_add]
    congr 1
    ring

/-- A run of ticks followed by one more tick. -/
theorem runTicks_snoc (inputs : List (TickInput K)) (last : TickInput K) :
    ∀ s : State K V, runTicks sqrt ops (inputs ++ [last]) s
      = (runTicks sqrt ops inputs s).bind (OnTimer sqrt ops last) := by
  induction inputs with
  | nil =>
    intro s
    simp only [List.nil_append, runTicks, Option.some_bind]
    cases OnTimer sqrt ops last s <;> rfl
  | cons t rest ih =>
    intro s
    simp only [List.cons_append, runTicks]
    cases OnTimer sqrt ops t s with
    | none => rfl
    | some s1 => exact ih s1

/-- The reset key held down over `n + 1` consecutive ticks, the first of which starts with no
reset due: each of the `n` ticks after the first runs a reset and increments the `int`
session counter, and the request is pending again at the end. -/
theorem held_key_ticks (t : TickInput K)
    (hkey : t.keys.IsKeyDown 'r' = true ∨ t.keys.IsKeyDown 'R' = true) (s : State K V)
    (hnone : resetCondition s = false) (hfleet : s.mlNode = false ∨ s.quads ≠ [])
    (hrange : wrapInt s._simCount = s._simCount) (n : Nat) :
    ∃ s', runTicks sqrt ops (List.replicate (n + 1) t) s = some s' ∧
      s'._simCount = wrapInt (s._simCount + n) ∧ s'.receivedResetRequest = true ∧
      (s'.mlNode = false ∨ s'.quads ≠ []) := by
  have hreq : (t.keys.IsKeyDown 'r' || t.keys.IsKeyDown 'R') = true := by
    rcases hkey with h | h <;> simp [h]
  induction n with
  | zero =>
    obtain ⟨s1, e, hfleet1, a⟩ := OnTimer_session sqrt ops t s hfleet
    refine ⟨s1, by simp [runTicks, e], ?_, by rw [a.2.2.2.2.1, hreq], hfleet1⟩
    rw [a.2.1, hnone]
    simp [hrange]
  | succ n ih =>
    obtain ⟨s1, e, hcount, hr, hfl⟩ := ih
    obtain ⟨s2, e2, hfleet2, a⟩ := OnTimer_session sqrt ops t s1 hfl
    refine ⟨s2, ?_, ?_, by rw [a.2.2.2.2.1, hreq], hfleet2⟩
    · rw [List.replicate_succ' (n + 1) t, runTicks_snoc, e]
      exact e2
    · rw [a.2.1, resetCondition_of_request s1 hr, hcount]
      simp only [if_true, Nat.cast_add, Nat.cast_one]
      rw [wrapInt_add, Int.add_assoc]

end Reset

/-! ## Pause toggles -/

section Pause
variable (sqrt : K → K)

theorem keyboardRun_append (a b : List Keys) (s : State K V) :
    keyboardRun sqrt (a ++ b) s = keyboardRun sqrt b (keyboardRun sqrt a s) := by
  simp [keyboardRun, List.foldl_append]

/-- Samples with the space key down, taken when it was already down: no flip. -/
theorem keyboardRun_still_held (held : List Keys) :
    ∀ s : State K V, s.key_space_pressed = true →
      (∀ k ∈ held, k.IsKeyDown ' ' = true) →
      (keyboardRun sqrt held s).paused = s.paused ∧
      (keyboardRun sqrt held s).visualizerPaused = s.visualizerPaused ∧
      (keyboardRun sqrt held s).key_space_pressed = true := by
  induction held with
  | nil => intro s h _; exact ⟨rfl, rfl, h⟩
  | cons k rest ih =>
    intro s h hheld
    have hk := KeyboardInteraction_commands sqrt k s
    have hd := hheld k (List.mem_cons_self _ _)
    have := ih (KeyboardInteraction sqrt k s) (by rw [hk.2.2.1, hd])
      (fun k' hk' => hheld k' (List.mem_cons_of_mem _ hk'))
    simp only [keyboardRun, List.foldl] at this ⊢
    rw [this.1, this.2.1, this.2.2, hk.2.1, hk.2.2.2.1]
    simp [h]

/-- Samples with the space key down, the first taken when it was not down: one flip, mirrored
in the visualizer. -/
theorem keyboardRun_press (held : List Keys) (s : State K V) (h0 : s.key_space_pressed = false)
    (hne : held ≠ []) (hheld : ∀ k ∈ held, k.IsKeyDown ' ' = true) :
    (keyboardRun sqrt held s).paused = (!s.paused) ∧
    (keyboardRun sqrt held s).visualizerPaused = (!s.paused) ∧
    (keyboardRun sqrt held s).key_space_pressed = true := by
  cases held with
  | nil => exact absurd rfl hne
  | cons k rest =>
    have hk := KeyboardInteraction_commands sqrt k s
    have hd := hheld k (List.mem_cons_self _ _)
    have := keyboardRun_still_held sqrt rest (KeyboardInteraction sqrt k s)
      (by rw [hk.2.2.1, hd]) (fun k' hk' => hheld k' (List.mem_cons_of_mem _ hk'))
    simp only [keyboardRun, List.foldl] at this ⊢
    rw [this.1, this.2.1, this.2.2, hk.2.1, hk.2.2.2.1]
    simp [h0, hd]

/-- Samples with the space key up: no flip, and the key is remembered as up after the first
of them. -/
theorem keyboardRun_released (released : List Keys) :
    ∀ s : State K V, (∀ k ∈ released, k.IsKeyDown ' ' = false) →
      (keyboardRun sqrt released s).paused = s.paused ∧
      (keyboardRun sqrt released s).visualizerPaused = s.visualizerPaused ∧
      (released ≠ [] → (keyboardRun sqrt released s).key_space_pressed = false) := by
  induction released with
  | nil => intro s _; exact ⟨rfl, rfl, fun h => absurd rfl h⟩
  | cons k rest ih =>
    intro s hrel
    have hk := KeyboardInteraction_commands sqrt k s
    have hd := hrel k (List.mem_cons_self _ _)
    have := ih (KeyboardInteraction sqrt k s)
      (fun k' hk' => hrel k' (List.mem_cons_of_mem _ hk'))
    simp only [keyboardRun, List.foldl] at this ⊢
    rw [this.1, this.2.1, hk.2.1, hk.2.2.2.1]
    refine ⟨by simp [hd], by simp [hd], fun _ => ?_⟩
    cases rest with
    | nil => simp only [List.foldl]; rw [hk.2.2.1, hd]
    | cons k' rest' => exact this.2.2 (by simp)

end Pause

/-! ## Loading: the fleet and the start-up commands -/

section Fleet
variable (ops : VehicleOps K V)

/-- The loop of `CreateVehicles` started at counter `i` with `ret` built: when a key at or
after `i` is missing and the counter can reach it, the loop returns `ret` followed by one
vehicle for each key from `i` up to the first missing one, created with the stored type name
and with its position in the result as index. -/
theorem CreateVehiclesLoop_spec (config : Config K) :
    ∀ (fuel i : Nat) (ret : List V) (d : Nat), config.vehicle (i + d) = none → d < fuel →
      ∃ m, m ≤ d ∧ (∀ k, k < m → config.vehicle (i + k) ≠ none) ∧
        config.vehicle (i + m) = none ∧
        CreateVehiclesLoop ops config fuel i ret =
          some (ret ++ (List.range m).map
            (fun k => ops.Create (Config.Get (config.vehicle (i + k)) "Quad") (ret.length + k))) := by
  intro fuel
  induction fuel with
  | zero => intro i ret d _ hd; exact absurd hd (Nat.not_lt_zero d)
  | succ fuel ih =>
    intro i ret d hgap hd
    cases hv : config.vehicle i with
    | none =>
      refine ⟨0, Nat.zero_le d, fun k hk => absurd hk (Nat.not_lt_zero k), hv, ?_⟩
      simp [CreateVehiclesLoop, hv, Config.Exists]
    | some name =>
      cases d with
      | zero => rw [Nat.add_zero, hv] at hgap; cases hgap
      | succ d =>
        obtain ⟨m, hm, hall, hnone, hres⟩ := ih (i + 1)
          (ret ++ [ops.Create (Config.Get (config.vehicle i) "Quad") ret.length]) d
          (by rw [← hgap]; congr 1; omega) (by omega)
        refine ⟨m + 1, by omega, ?_, ?_, ?_⟩
        · intro k hk
          cases k with
          | zero => rw [Nat.add_zero, hv]; simp
          | succ k =>
            have := hall k (by omega)
            rwa [show i + 1 + k = i + (k + 1) by omega] at this
        · rwa [show i + 1 + m = i + (m + 1) by omega] at hnone
        · have hex : Config.Exists (config.vehicle i) = true := by rw [hv]; rfl
          simp only [CreateVehiclesLoop, hex, if_true]
          rw [hres, List.range_succ_eq_map, List.map_cons, List.map_map]
          simp only [List.append_assoc, List.singleton_append, Nat.add_zero,
            List.length_append, List.length_singleton]
          congr 3
          apply List.map_congr_left
          intro k _
          simp only [Function.comp]
          rw [show i + 1 + k = i + (k + 1) by omega,
            show ret.length + 1 + k = ret.length + (k + 1) by omega]

end Fleet

section Load
variable (ops : VehicleOps K V)

/-- The loop of `ProcessConfigCommands` started at counter `i`: when a command at or after `i`
is missing or empty and the counter can reach it, the loop returns, and only the record of
calls has grown. -/
theorem ProcessConfigCommandsLoop_spec (config : Config K) :
    ∀ (fuel i : Nat) (s : State K V) (d : Nat),
      Config.Get (config.command (i + d)) "" = "" → d < fuel →
      ∃ evs, ProcessConfigCommandsLoop config fuel i s = some { s with log := s.log ++ evs } := by
  intro fuel
  induction fuel with
  | zero => intro i s d _ hd; exact absurd hd (Nat.not_lt_zero d)
  | succ fuel ih =>
    intro i s d hgap hd
    by_cases hc : Config.Get (config.command i) "" = ""
    · exact ⟨[], by simp [ProcessConfigCommandsLoop, hc]⟩
    · cases d with
      | zero => exact absurd hgap hc
      | succ d =>
        obtain ⟨evs, h⟩ := ih (i + 1) (s.emit (.onMenu (Config.Get (config.command i) ""))) d
          (by rw [show i + 1 + d = i + (d + 1) by omega]; exact hgap) (by omega)
        refine ⟨Event.onMenu (Config.Get (config.command i) "") :: evs, ?_⟩
        have hb : (Config.Get (config.command i) "" == "") = false := by simpa using hc
        simp only [ProcessConfigCommandsLoop, hb]
        rw [h]
        simp [State.emit]

/-- The function `ProcessConfigCommands` returns when some command key within the range of the
`int` counter is missing, and only the record of calls has grown. -/
theorem ProcessConfigCommands_spec (s : State K V) (M : Nat) (hM : 1 ≤ M) (hMmax : M ≤ INT_MAX)
    (hcommand : s.config.command M = none) :
    ∃ evs, ProcessConfigCommands s = some { s with log := s.log ++ evs } :=
  ProcessConfigCommandsLoop_spec s.config INT_MAX 1 s (M - 1)
    (by rw [show 1 + (M - 1) = M by omega, hcommand]; rfl) (by omega)

/-- A scenario file in which some vehicle key and some command key within the range of the
`int` counters are missing loads: `LoadScenario` returns a session with the clock at 0, the
carry at -1, no reset requested, the timestep and the configuration of the file, one vehicle
for each vehicle of `CreateVehicles`, and the telemetry node attached exactly when
`Mavlink.Enable` is non-zero. -/
theorem LoadScenario_spec (file : Config K) (s : State K V) (N M : Nat)
    (hN : 1 ≤ N) (hNmax : N ≤ INT_MAX) (hvehicle : file.vehicle N = none)
    (hM : 1 ≤ M) (hMmax : M ≤ INT_MAX) (hcommand : file.command M = none) :
    ∃ fleet s', CreateVehicles ops file = some fleet ∧ LoadScenario ops file s = some s' ∧
      s'.simulationTime = 0 ∧ s'.randomNumCarry = -1 ∧ s'.receivedResetRequest = false ∧
      s'.dtSim = Config.Get file.timestep 0.005 ∧ s'.config = file ∧
      s'._simCount = wrapInt (s._simCount + 1) ∧ s'.paused = s.paused ∧
      s'.key_space_pressed = s.key_space_pressed ∧
      s'.quads.length = fleet.length ∧
      s'.mlNode = (Config.Get file.mavlinkEnable 0 != 0) := by
  obtain ⟨m, -, -, -, hfleet⟩ := CreateVehiclesLoop_spec ops file INT_MAX 1 [] (N - 1)
    (by rw [show 1 + (N - 1) = N by omega]; exact hvehicle) (by omega)
  generalize ([] ++ (List.range m).map
      (fun k => ops.Create (Config.Get (file.vehicle (1 + k)) "Quad")
        (([] : List V).length + k))) = fleet at hfleet
  have hcfg : (loadConfig file s).config = file := by simp [loadConfig, State.emit]
  have hCV : CreateVehicles ops (loadConfig file s).config = some fleet := by
    rw [hcfg]; exact hfleet
  obtain ⟨evs, hcmd⟩ := ProcessConfigCommands_spec (installFleet fleet (loadConfig file s))
    M hM hMmax (by simpa [installFleet, loadConfig, State.emit] using hcommand)
  have hr := ResetSimulation_fields ops file
  have hl := fun qs : List V => resetQuads_length (K := K) ops 0 qs
  have hload : LoadScenario ops file s = some (ResetSimulation ops file (attachTelemetry
      { installFleet fleet (loadConfig file s) with
        log := (installFleet fleet (loadConfig file s)).log ++ evs })) := by
    simp only [LoadScenario, Option.bind_eq_bind, Option.pure_def, hCV, Option.some_bind, hcmd]
  refine ⟨fleet, _, hfleet, hload, ?_⟩
  simp only [hr, hl]
  refine ⟨trivial, trivial, trivial, trivial, trivial, ?_, ?_, ?_, ?_, ?_⟩ <;>
    simp only [attachTelemetry] <;> split_ifs with h <;>
    simp [installFleet, loadConfig, State.emit] at h ⊢ <;> simp [h]

end Load

/-! ## The record of calls -/

section Log
variable (sqrt : K → K) (ops : VehicleOps K V)

/-- The reset loop in closed form: every vehicle is reset in place, and the calls are the
indices from `i` on, in order. -/
theorem resetQuads_eq (i : Nat) (qs : List V) :
    resetQuads (K := K) ops i qs =
      (qs.map ops.Reset, (List.range qs.length).map (fun k => Event.quadReset (i + k))) := by
  induction qs generalizing i with
  | nil => rfl
  | cons q qs ih =>
    simp only [resetQuads, ih, List.map_cons, List.length_cons, List.range_succ_eq_map,
      List.map_map, Nat.add_zero]
    congr 2
    apply List.map_congr_left
    intro k _
    simp only [Function.comp]
    rw [show i + 1 + k = i + (k + 1) by omega]

/-- The fleet and the record after `ResetSimulation`. -/
theorem ResetSimulation_log (file : Config K) (s : State K V) :
    (ResetSimulation ops file s).quads = s.quads.map ops.Reset ∧
    (ResetSimulation ops file s).log
      = s.log ++ resetEvents K (wrapInt (s._simCount + 1)) s.quads.length := by
  simp [ResetSimulation, State.emit, resetQuads_eq, resetEvents]

/-- The record after `KeyboardInteraction`: only the clear-graphs command adds calls. -/
theorem KeyboardInteraction_log (keys : Keys) (s : State K V) :
    (KeyboardInteraction sqrt keys s).log = s.log ++
      (if keys.IsKeyDown 'c' || keys.IsKeyDown 'C' then
        [Event.removeAllElements, Event.removeAllElements] else []) ∧
    (KeyboardInteraction sqrt keys s).visualizerPaused =
      (if keys.IsKeyDown ' ' && !s.key_space_pressed then !s.paused else s.visualizerPaused) := by
  unfold KeyboardInteraction
  simp only []
  cases h1 : keys.IsKeyDown 'c' <;> cases h2 : keys.IsKeyDown 'C' <;>
  cases h3 : keys.IsKeyDown 'r' <;> cases h4 : keys.IsKeyDown 'R' <;>
  cases h5 : keys.IsKeyDown ' ' <;> cases h6 : s.key_space_pressed <;>
    simp [State.emit, h6]

/-- The clock after one more sub-step. -/
theorem clockAfter_succ (dt : K) (n : Nat) : ∀ t : K,
    clockAfter dt (n + 1) t = clockAfter dt n t + dt := by
  induction n with
  | zero => intro t; rfl
  | succ n ih =>
    intro t
    show clockAfter dt (n + 1) (t + dt) = clockAfter dt (n + 1) t + dt
    rw [ih (t + dt)]
    rfl

/-- The inner loop of a sub-step as a fold of step calls: with the vehicles `pre` already
stepped, running the vehicles `rest` from index `pre.length` is the fold of `stepCall` over
their indices. -/
theorem runQuads_fold (dt t : K) (F M : V3F K) (rest : List V) :
    ∀ (pre : List V) (c : Int) (evs : List (Event K)),
      (List.range' pre.length rest.length).foldl (stepCall ops dt t F M)
          (pre ++ rest, c, evs) =
        (pre ++ (runQuads ops dt t F M pre.length rest c).1,
         (runQuads ops dt t F M pre.length rest c).2.1,
         evs ++ (runQuads ops dt t F M pre.length rest c).2.2) := by
  induction rest with
  | nil => intro pre c evs; simp [runQuads]
  | cons q qs ih =>
    intro pre c evs
    have hget : (pre ++ q :: qs)[pre.length]? = some q := by
      rw [List.getElem?_append_right (Nat.le_refl _)]; simp
    have hset : (pre ++ q :: qs).set pre.length (ops.Run q dt t c F M).1
        = (pre ++ [(ops.Run q dt t c F M).1]) ++ qs := by
      rw [List.set_append_right _ _ (Nat.le_refl _)]; simp
    simp only [List.length_cons, List.range'_succ, List.foldl_cons]
    have h1 : stepCall ops dt t F M (pre ++ q :: qs, c, evs) pre.length
        = ((pre ++ [(ops.Run q dt t c F M).1]) ++ qs,
            (ops.Run q dt t c F M).2,
            evs ++ [Event.quadRun pre.length dt t c F M]) := by
      simp only [stepCall, hget, hset]
    rw [h1]
    have := ih (pre ++ [(ops.Run q dt t c F M).1])
      (ops.Run q dt t c F M).2
      (evs ++ [Event.quadRun pre.length dt t c F M])
    simp only [List.length_append, List.length_singleton] at this
    rw [this]
    simp [runQuads]


/-- The calls of the inner loop are step calls, one per vehicle in registry order, all with
the same timestep, time, force and moment. -/
theorem runQuads_calls (dt t : K) (F M : V3F K) (qs : List V) :
    ∀ (i : Nat) (c : Int),
      runCalls (runQuads ops dt t F M i qs c).2.2 = (runQuads ops dt t F M i qs c).2.2 ∧
      (runQuads ops dt t F M i qs c).2.2.filterMap runArguments
        = (List.range qs.length).map (fun j => (i + j, dt, t, F, M)) ∧
      sentPackets (runQuads ops dt t F M i qs c).2.2 = [] ∧
      resetCalls (runQuads ops dt t F M i qs c).2.2 = [] := by
  induction qs with
  | nil => intro i c; simp [runQuads, runCalls, sentPackets, resetCalls]
  | cons q qs ih =>
    intro i c
    obtain ⟨h1, h2, h3, h4⟩ := ih (i + 1) (ops.Run q dt t c F M).2
    simp only [runCalls, sentPackets, resetCalls] at h1 h3 h4 ⊢
    refine ⟨?_, ?_, ?_, ?_⟩
    · simp [runQuads, h1]
    · simp only [runQuads, List.filterMap_cons, runArguments, h2, List.length_cons,
        List.range_succ_eq_map, List.map_cons, List.map_map, Nat.add_zero]
      congr 1
      apply List.map_congr_left
      intro j _
      simp only [Function.comp]
      rw [show i + 1 + j = i + (j + 1) by omega]
    · simp [runQuads, h3]
    · simp [runQuads, h4]

/-- One sub-step as a fold of step calls. -/
theorem subStep_fold (s : State K V) (evs : List (Event K)) :
    (List.range s.quads.length).foldl (stepCall ops s.dtSim s.simulationTime s.force s.moment)
        (s.quads, s.randomNumCarry, evs) =
      ((subStep ops s).quads, (subStep ops s).randomNumCarry,
        evs ++ (runQuads ops s.dtSim s.simulationTime s.force s.moment 0 s.quads
          s.randomNumCarry).2.2) ∧
    (subStep ops s).log = s.log ++ (runQuads ops s.dtSim s.simulationTime s.force s.moment 0
      s.quads s.randomNumCarry).2.2 := by
  have h := runQuads_fold ops s.dtSim s.simulationTime s.force s.moment s.quads []
    s.randomNumCarry evs
  simp only [List.length_nil, List.nil_append] at h
  rw [List.range_eq_range', h]
  simp [subStep]

/-- The sub-step batch as step calls: the calls it records are step calls only, one per
sub-step and vehicle, sub-step `k` at the time reached after `k` additions of the timestep;
they are the calls of the nested fold of `stepCall`, which also gives the fleet and the carry
after the batch. -/
theorem simSteps_fold (t0 : K) (m : Nat) :
    ∀ (k : Nat) (s : State K V), s.simulationTime = clockAfter s.dtSim k t0 →
      ∃ D, (simSteps ops m s).log = s.log ++ D ∧ runCalls D = D ∧
        sentPackets D = [] ∧ resetCalls D = [] ∧
        D.filterMap runArguments = (List.range' k m).flatMap (fun k' =>
          (List.range s.quads.length).map
            (fun j => (j, s.dtSim, clockAfter s.dtSim k' t0, s.force, s.moment))) ∧
        ∀ evs, (List.range' k m).foldl
            (fun acc k' => (List.range s.quads.length).foldl
              (stepCall ops s.dtSim (clockAfter s.dtSim k' t0) s.force s.moment) acc)
            (s.quads, s.randomNumCarry, evs) =
          ((simSteps ops m s).quads, (simSteps ops m s).randomNumCarry, evs ++ D) := by
  induction m with
  | zero =>
    intro k s _
    exact ⟨[], by simp [simSteps], rfl, rfl, rfl, by simp, fun evs => by simp [simSteps]⟩
  | succ m ih =>
    intro k s hs
    have hf := subStep_fields ops s
    have hsub : (subStep ops s).simulationTime
        = clockAfter (subStep ops s).dtSim (k + 1) t0 := by
      rw [hf.1, hf.2.1, hs, clockAfter_succ]
    obtain ⟨D, hD, hrun, hsent, hreset, hargs, hfold⟩ := ih (k + 1) (subStep ops s) hsub
    have hq := runQuads_calls ops s.dtSim s.simulationTime s.force s.moment s.quads 0
      s.randomNumCarry
    refine ⟨(runQuads ops s.dtSim s.simulationTime s.force s.moment 0 s.quads
      s.randomNumCarry).2.2 ++ D, ?_, ?_, ?_, ?_, ?_, ?_⟩
    · simp only [simSteps]
      rw [hD, (subStep_fold ops s []).2, List.append_assoc]
    · simp only [runCalls, List.filter_append] at hrun hq ⊢
      rw [hrun, hq.1]
    · simp only [sentPackets, List.filterMap_append] at hsent hq ⊢
      rw [hsent, hq.2.2.1]; rfl
    · simp only [resetCalls, List.filterMap_append] at hreset hq ⊢
      rw [hreset, hq.2.2.2]; rfl
    · rw [List.filterMap_append, hq.2.1, hargs, List.range'_succ, List.flatMap_cons]
      simp only [hf, Nat.zero_add, ← hs]
    · intro evs
      simp only [List.range'_succ, List.foldl_cons, simSteps]
      rw [← hs, (subStep_fold ops s evs).1]
      have := hfold (evs ++ (runQuads ops s.dtSim s.simulationTime s.force s.moment 0 s.quads
        s.randomNumCarry).2.2)
      simp only [hf] at this
      rw [this, List.append_assoc]


/-- A throttled update that completes records exactly `throttledEvents` and changes nothing
else. -/
theorem throttledUpdate_eq (s : State K V) (h : ¬ (s.mlNode = true ∧ s.quads = [])) :
    throttledUpdate ops s = some { s with log := s.log ++ throttledEvents ops s } := by
  cases hq : s.quads with
  | nil =>
    have hml : s.mlNode = false := by
      cases hm : s.mlNode with
      | false => rfl
      | true => exact absurd ⟨hm, hq⟩ h
    simp [throttledUpdate, throttledEvents, hq, hml, State.emit]
  | cons q qs =>
    cases hm : s.mlNode <;>
      simp [throttledUpdate, throttledEvents, telemetryPackets, hq, hm, State.emit, quadAt]

/-- The state at the start of stepping, field by field. -/
theorem stepStart_fields (inp : TickInput K) (s : State K V) :
    (stepStart ops inp s).log = s.log ++
      (if resetCondition s then resetEvents K (wrapInt (s._simCount + 1)) s.quads.length
       else []) ∧
    (stepStart ops inp s).quads = (if resetCondition s then s.quads.map ops.Reset else s.quads) ∧
    (stepStart ops inp s).simulationTime = (if resetCondition s then 0 else s.simulationTime) ∧
    (stepStart ops inp s).randomNumCarry = (if resetCondition s then -1 else s.randomNumCarry) ∧
    (stepStart ops inp s).dtSim =
      (if resetCondition s then Config.Get inp.file.timestep 0.005 else s.dtSim) ∧
    (stepStart ops inp s).paused = s.paused ∧
    (stepStart ops inp s).force = s.force ∧
    (stepStart ops inp s).moment = s.moment ∧
    (stepStart ops inp s).mlNode = s.mlNode ∧
    (stepStart ops inp s).key_space_pressed = s.key_space_pressed ∧
    (stepStart ops inp s)._simCount =
      (if resetCondition s then wrapInt (s._simCount + 1) else s._simCount) := by
  have hr := ResetSimulation_fields ops inp.file s
  have hl := ResetSimulation_log ops inp.file s
  unfold stepStart
  cases resetCondition s <;> simp [hr, hl, resetQuads_eq]

/-- The record, the fleet and the carry after lines 144–175 of a tick, from the state at the
start of stepping. -/
theorem sessionStep_log (inp : TickInput K) (s : State K V) :
    (sessionStep sqrt ops inp s).log = (stepStart ops inp s).log ++ [Event.onMainTimer] ++
      (if s.paused then []
       else (steppedRuns ops (stepStart ops inp s).dtSim (stepStart ops inp s).simulationTime
            s.force s.moment (stepStart ops inp s).quads (stepStart ops inp s).randomNumCarry).2.2
          ++ [Event.updateData (clockAfter (stepStart ops inp s).dtSim NUM_SIM_STEPS_PER_TIMER
                (stepStart ops inp s).simulationTime)])
      ++ keyboardEvents K inp.keys ∧
    (sessionStep sqrt ops inp s).quads =
      (if s.paused then (stepStart ops inp s).quads
       else (steppedRuns ops (stepStart ops inp s).dtSim (stepStart ops inp s).simulationTime
            s.force s.moment (stepStart ops inp s).quads
            (stepStart ops inp s).randomNumCarry).1) ∧
    (sessionStep sqrt ops inp s).randomNumCarry =
      (if s.paused then (stepStart ops inp s).randomNumCarry
       else (steppedRuns ops (stepStart ops inp s).dtSim (stepStart ops inp s).simulationTime
            s.force s.moment (stepStart ops inp s).quads
            (stepStart ops inp s).randomNumCarry).2.1) := by
  have ha := stepStart_fields ops inp s
  have hk := KeyboardInteraction_log (V := V) sqrt inp.keys
  have hkf := KeyboardInteraction_frame (V := V) sqrt inp.keys
  have hsess : sessionStep sqrt ops inp s = KeyboardInteraction sqrt inp.keys
      (if !((stepStart ops inp s).emit Event.onMainTimer).paused then
        (simSteps ops NUM_SIM_STEPS_PER_TIMER ((stepStart ops inp s).emit Event.onMainTimer)).emit
          (Event.updateData (simSteps ops NUM_SIM_STEPS_PER_TIMER
            ((stepStart ops inp s).emit Event.onMainTimer)).simulationTime)
       else (stepStart ops inp s).emit Event.onMainTimer) := rfl
  rw [hsess]
  cases hp : s.paused with
  | true =>
    simp [hk, hkf, ha, hp, keyboardEvents]
  | false =>
    obtain ⟨D, hD, -, -, -, -, hfold⟩ := simSteps_fold ops (stepStart ops inp s).simulationTime
      NUM_SIM_STEPS_PER_TIMER 0 ((stepStart ops inp s).emit Event.onMainTimer)
      (by simp [clockAfter])
    have hE := hfold []
    simp only [emit_fields, ← List.range_eq_range', List.nil_append] at hE hD
    have hst := simSteps_fields ops NUM_SIM_STEPS_PER_TIMER
      ((stepStart ops inp s).emit Event.onMainTimer)
    simp only [emit_fields] at hst
    simp only [steppedRuns, scheduledRuns, ← ha.2.2.2.2.2.2.1, ← ha.2.2.2.2.2.2.2.1, hE]
    simp [hk, hkf, ha.2.2.2.2.2.1, hp, keyboardEvents, hD, hst]


/-- The calls of `steppedRuns` are step calls only: for each sub-step `k` in order, one call
per vehicle in registry order, with timestep `dt`, the time reached after `k` additions of
`dt` to `t0`, `force` and `moment`. -/
theorem steppedRuns_calls (dt t0 : K) (F M : V3F K) (quads : List V) (carry : Int) :
    runCalls (steppedRuns ops dt t0 F M quads carry).2.2
      = (steppedRuns ops dt t0 F M quads carry).2.2 ∧
    sentPackets (steppedRuns ops dt t0 F M quads carry).2.2 = [] ∧
    resetCalls (steppedRuns ops dt t0 F M quads carry).2.2 = [] ∧
    (steppedRuns ops dt t0 F M quads carry).2.2.filterMap runArguments
      = (List.range NUM_SIM_STEPS_PER_TIMER).flatMap (fun k =>
          (List.range quads.length).map (fun j => (j, dt, clockAfter dt k t0, F, M))) ∧
    (steppedRuns ops dt t0 F M quads carry).1.length = quads.length := by
  obtain ⟨D, -, h1, h2, h3, h4, hfold⟩ := simSteps_fold ops t0 NUM_SIM_STEPS_PER_TIMER 0
    (⟨false, false, quads, dt, F, M, t0, carry, false, 0, false, false,
      ⟨none, none, none, fun _ => none, fun _ => none, none⟩, []⟩ : State K V)
    (by simp [clockAfter])
  have hE := hfold []
  simp only [← List.range_eq_range', List.nil_append] at hE h4
  have hlen := (simSteps_fields ops NUM_SIM_STEPS_PER_TIMER
    (⟨false, false, quads, dt, F, M, t0, carry, false, 0, false, false,
      ⟨none, none, none, fun _ => none, fun _ => none, none⟩, []⟩ : State K V)).2.2.2.2.2.2.2.2.2.2.2
  simp only [steppedRuns, scheduledRuns, hE]
  exact ⟨h1, h2, h3, h4, hlen⟩

theorem sentPackets_append (a b : List (Event K)) :
    sentPackets (a ++ b) = sentPackets a ++ sentPackets b := by
  simp [sentPackets]

theorem runCalls_append (a b : List (Event K)) :
    runCalls (a ++ b) = runCalls a ++ runCalls b := by
  simp [runCalls]

theorem resetCalls_append (a b : List (Event K)) :
    resetCalls (a ++ b) = resetCalls a ++ resetCalls b := by
  simp [resetCalls]

/-- The calls of `ResetSimulation` hold no telemetry and no step call, and one `Reset` per
vehicle in registry order. -/
theorem resetEvents_calls (c : Int) (n : Nat) :
    sentPackets (resetEvents K c n) = [] ∧ runCalls (resetEvents K c n) = [] ∧
    resetCalls (resetEvents K c n) = List.range n := by
  refine ⟨?_, ?_, ?_⟩
  · simp [sentPackets, resetEvents, List.filterMap_map]
  · simp [runCalls, resetEvents, List.filter_map]
  · have hmap : ∀ l : List Nat, resetCalls (l.map (Event.quadReset (K := K))) = l := by
      intro l
      induction l with
      | nil => rfl
      | cons a l ih =>
        simp only [resetCalls, List.map_cons, List.filterMap_cons] at ih ⊢
        rw [ih]
    simp only [resetEvents, resetCalls_append, hmap]
    simp [resetCalls]

/-- The calls of `KeyboardInteraction` hold no telemetry, no step call and no `Reset`. -/
theorem keyboardEvents_calls (keys : Keys) :
    sentPackets (keyboardEvents K keys) = [] ∧ runCalls (keyboardEvents K keys) = [] ∧
    resetCalls (keyboardEvents K keys) = [] := by
  unfold keyboardEvents
  split_ifs <;> simp [sentPackets, runCalls, resetCalls]

/-- The calls of a throttled update hold no step call and no `Reset`; their telemetry is the
fixed sequence for vehicle 0 when a node is attached and a vehicle exists. -/
theorem throttledEvents_calls (s : State K V) :
    runCalls (throttledEvents ops s) = [] ∧ resetCalls (throttledEvents ops s) = [] ∧
    sentPackets (throttledEvents ops s) =
      (match s.quads.head?, s.mlNode with
        | some q0, true => telemetryPackets ops s.simulationTime q0
        | _, _ => []) := by
  unfold throttledEvents
  cases s.quads.head? <;> cases s.mlNode <;>
    simp [sentPackets, runCalls, resetCalls, telemetryPackets]

/-- A tick that completes, with its record: the state after lines 144–175, then the calls of
the throttled update when the window has elapsed, then the timer is armed again. -/
theorem OnTimer_log (inp : TickInput K) (s : State K V)
    (h : ¬ (inp.elapsedSeconds > 0.030 ∧ s.mlNode = true ∧ s.quads = [])) :
    ∃ s', OnTimer sqrt ops inp s = some s' ∧
      s'.log = (sessionStep sqrt ops inp s).log ++
        (if inp.elapsedSeconds > 0.030 then throttledEvents ops s' else []) ++
        [Event.timerFunc 5] ∧
      s'.quads = (sessionStep sqrt ops inp s).quads ∧
      s'.randomNumCarry = (sessionStep sqrt ops inp s).randomNumCarry ∧
      s'.simulationTime = (sessionStep sqrt ops inp s).simulationTime ∧
      s'.force = (sessionStep sqrt ops inp s).force ∧
      s'.mlNode = s.mlNode ∧
      s'.paused = (sessionStep sqrt ops inp s).paused ∧
      s'.receivedResetRequest = (sessionStep sqrt ops inp s).receivedResetRequest ∧
      s'._simCount = (sessionStep sqrt ops inp s)._simCount ∧
      s'.dtSim = (sessionStep sqrt ops inp s).dtSim := by
  have hf := sessionStep_fields sqrt ops inp s
  by_cases he : inp.elapsedSeconds > 0.030
  · have h2 : ¬ ((sessionStep sqrt ops inp s).mlNode = true ∧
        (sessionStep sqrt ops inp s).quads = []) := by
      rintro ⟨hm, hq⟩
      apply h
      refine ⟨he, hf.2.2.1 ▸ hm, ?_⟩
      apply List.eq_nil_of_length_eq_zero
      rw [← hf.2.2.2.1, hq]; rfl
    have ho : OnTimer sqrt ops inp s = some
        ({ sessionStep sqrt ops inp s with
            log := (sessionStep sqrt ops inp s).log
              ++ throttledEvents ops (sessionStep sqrt ops inp s) }.emit (Event.timerFunc 5)) := by
      simp only [OnTimer, he, if_true, throttledUpdate_eq ops _ h2,
        Option.bind_eq_bind, Option.some_bind, Option.pure_def]
    refine ⟨_, ho, ?_⟩
    simp [State.emit, he, throttledEvents, hf.2.2.1]
  · have ho : OnTimer sqrt ops inp s
        = some ((sessionStep sqrt ops inp s).emit (Event.timerFunc 5)) := by
      simp only [OnTimer, he, if_false, Option.pure_def, Option.bind_eq_bind, Option.some_bind]
    refine ⟨_, ho, ?_⟩
    simp [State.emit, he, hf.2.2.1]

end Log

/-! ## The ramp of a held force key -/

section Ramp

/-- With exactly one force key held, the summed force is the incoming force plus one step of
0.04 along the direction of that key. -/
theorem summedForce_onlyHeld (key : ForceKey) (keys : Keys) (h : onlyHeld key keys)
    (f : V3F F32) : summedForce keys f = f.add (key.along 0.04) := by
  obtain ⟨h1, h2, h3, h4, h5, h6⟩ := h
  rw [summedForce_eq]
  cases key <;>
    simp [forceKeyDown, heldSteps, h1, h2, h3, h4, h5, h6, ForceKey.along]

/-- One more call with the force key held, for each of the first 51 calls: evaluated in
binary32. -/
theorem keyboardForce_ramp (key : ForceKey) :
    ∀ n, n < 51 →
      (if ((heldForce key n).add (key.along 0.04)).mag F32.sqrt > 2 then
        (((heldForce key n).add (key.along 0.04)).div
          (((heldForce key n).add (key.along 0.04)).mag F32.sqrt)).mul 2
       else (heldForce key n).add (key.along 0.04)) = heldForce key (n + 1) := by
  cases key <;> decide!

/-- One more call with the force key held, at the ceiling: the sum has computed length 2.04
and is rescaled to length 2. -/
theorem keyboardForce_plateau (key : ForceKey) :
    (if ((key.along 2).add (key.along 0.04)).mag F32.sqrt > 2 then
      (((key.along 2).add (key.along 0.04)).div
        (((key.along 2).add (key.along 0.04)).mag F32.sqrt)).mul 2
     else (key.along 2).add (key.along 0.04)) = key.along 2 := by
  cases key <;> decide!

/-- One call of `KeyboardInteraction` with exactly one force key held moves the force one
place along the ramp. -/
theorem keyboardForce_heldForce (key : ForceKey) (keys : Keys) (h : onlyHeld key keys)
    (n : Nat) : keyboardForce F32.sqrt keys (heldForce key n) = heldForce key (n + 1) := by
  unfold keyboardForce
  simp only [summedForce_onlyHeld key keys h]
  by_cases hn : n < 51
  · exact keyboardForce_ramp key n hn
  · have h1 : heldForce key n = key.along 2 := by
      unfold heldForce heldRamp
      rw [if_neg (by omega), if_neg (by omega)]
    have h2 : heldForce key (n + 1) = key.along 2 := by
      unfold heldForce heldRamp
      rw [if_neg (by omega), if_neg (by omega)]
    rw [h1, h2]
    exact keyboardForce_plateau key

/-- A run of calls with exactly one force key held moves the force along the ramp. -/
theorem keyboardRun_heldForce (key : ForceKey) (samples : List Keys) :
    ∀ (s : State F32 V) (n : Nat), s.force = heldForce key n →
      (∀ keys ∈ samples, onlyHeld key keys) →
      (keyboardRun F32.sqrt samples s).force = heldForce key (n + samples.length) := by
  induction samples with
  | nil => intro s n hf _; simpa [keyboardRun] using hf
  | cons keys rest ih =>
    intro s n hf hheld
    have hk := hheld keys (List.mem_cons_self _ _)
    have hstep : (KeyboardInteraction F32.sqrt keys s).force = heldForce key (n + 1) := by
      rw [(KeyboardInteraction_commands F32.sqrt keys s).2.2.2.2, hf]
      exact keyboardForce_heldForce key keys hk n
    have := ih (KeyboardInteraction F32.sqrt keys s) (n + 1) hstep
      (fun k hk' => hheld k (List.mem_cons_of_mem _ hk'))
    simp only [keyboardRun, List.foldl_cons, List.length_cons] at this ⊢
    rw [this]
    congr 1
    omega

/-- The computed length of the force on the ramp is the length of the ramp. -/
theorem mag_heldForce (key : ForceKey) (n : Nat) :
    (heldForce key n).mag F32.sqrt = heldRamp n := by
  have h : ∀ m, m < 52 → (heldForce key m).mag F32.sqrt = heldRamp m := by
    cases key <;> decide!
  by_cases hn : n < 52
  · exact h n hn
  · have h1 : heldForce key n = heldForce key 51 := by
      unfold heldForce heldRamp
      rw [if_neg (by omega), if_neg (by omega), if_neg (by omega), if_neg (by omega)]
    have h2 : heldRamp n = heldRamp 51 := by
      unfold heldRamp
      rw [if_neg (by omega), if_neg (by omega)]
    rw [h1, h2]
    exact h 51 (by omega)

/-- The ramp rises with every call up to the 51st, stays within `2 ^ (-20)` of `0.04 × n`
(compared exactly, 25 times the value against `n` in units of `2 ^ (-149)`) while it is below
the ceiling, and passes through the values 1.0000001 at call 25 and 1.9999992 at call 50. -/
theorem heldRamp_values :
    (∀ n, n < 51 → heldRamp n < heldRamp (n + 1)) ∧
    (∀ n, n ≤ 50 → 25 * (heldRamp n).val - n * 2 ^ 149 < 25 * 2 ^ 129 ∧
      n * 2 ^ 149 - 25 * (heldRamp n).val < 25 * 2 ^ 129) ∧
    heldRamp 25 = 1.0000001 ∧ heldRamp 50 = 1.9999992 ∧ heldRamp 51 = 2 := by
  refine ⟨?_, ?_, ?_, ?_, ?_⟩ <;> decide!

end Ramp

/-! ## What `CreateVehicles` returns -/

section Fleet2
variable (ops : VehicleOps K V)

/-- Whatever the loop of `CreateVehicles` returns is `ret` followed by one vehicle per key from
`i` on, each created with the type name stored under its key and with its position in the
result as index. -/
theorem CreateVehiclesLoop_result (config : Config K) :
    ∀ (fuel i : Nat) (ret fleet : List V),
      CreateVehiclesLoop ops config fuel i ret = some fleet →
      ∃ m, (∀ k, k < m → ∃ name, config.vehicle (i + k) = some name) ∧
        fleet = ret ++ (List.range m).map
          (fun k => ops.Create (Config.Get (config.vehicle (i + k)) "Quad") (ret.length + k)) := by
  intro fuel
  induction fuel with
  | zero => intro i ret fleet h; simp [CreateVehiclesLoop] at h
  | succ fuel ih =>
    intro i ret fleet h
    cases hv : config.vehicle i with
    | none =>
      have hex : Config.Exists (config.vehicle i) = false := by rw [hv]; rfl
      simp only [CreateVehiclesLoop, hex] at h
      refine ⟨0, fun k hk => absurd hk (Nat.not_lt_zero k), ?_⟩
      simpa using (Option.some.inj h).symm
    | some name =>
      have hex : Config.Exists (config.vehicle i) = true := by rw [hv]; rfl
      simp only [CreateVehiclesLoop, hex, if_true] at h
      obtain ⟨m, hall, hfleet⟩ := ih (i + 1) _ fleet h
      refine ⟨m + 1, ?_, ?_⟩
      · intro k hk
        cases k with
        | zero => exact ⟨name, by rw [Nat.add_zero, hv]⟩
        | succ k =>
          have := hall k (by omega)
          rwa [show i + 1 + k = i + (k + 1) by omega] at this
      · rw [hfleet, List.range_succ_eq_map, List.map_cons, List.map_map]
        simp only [List.append_assoc, List.singleton_append, Nat.add_zero,
          List.length_append, List.length_singleton]
        congr 3
        funext k
        simp only [Function.comp]
        rw [show i + 1 + k = i + (k + 1) by omega,
          show ret.length + 1 + k = ret.length + (k + 1) by omega]

end Fleet2

/-! ## The record of a whole tick -/

section Record
variable (sqrt : K → K) (ops : VehicleOps K V)

/-- A tick that completes, in full: the calls it records, in order, are those of the reset
when the reset condition holds, the tick notification, the step calls of `steppedRuns` and
the graph update when not paused, the calls of the input sample, the calls of the throttled
update when its window has elapsed, and the timer re-arm; the fleet and the carry at its end
are those of `steppedRuns` when not paused, and those at the start of stepping otherwise. -/
theorem OnTimer_record (inp : TickInput K) (s : State K V)
    (h : ¬ (inp.elapsedSeconds > 0.030 ∧ s.mlNode = true ∧ s.quads = [])) :
    ∃ s', OnTimer sqrt ops inp s = some s' ∧
      s'.log = s.log ++
        ((if resetCondition s then resetEvents K (wrapInt (s._simCount + 1)) s.quads.length
          else [])
        ++ [Event.onMainTimer]
        ++ (if s.paused then []
            else (steppedRuns ops (stepStart ops inp s).dtSim
                (stepStart ops inp s).simulationTime s.force s.moment (stepStart ops inp s).quads
                (stepStart ops inp s).randomNumCarry).2.2
              ++ [Event.updateData (clockAfter (stepStart ops inp s).dtSim
                    NUM_SIM_STEPS_PER_TIMER (stepStart ops inp s).simulationTime)])
        ++ keyboardEvents K inp.keys
        ++ (if inp.elapsedSeconds > 0.030 then throttledEvents ops s' else [])
        ++ [Event.timerFunc 5]) ∧
      s'.quads =
        (if s.paused then (stepStart ops inp s).quads
         else (steppedRuns ops (stepStart ops inp s).dtSim (stepStart ops inp s).simulationTime
              s.force s.moment (stepStart ops inp s).quads
              (stepStart ops inp s).randomNumCarry).1) ∧
      s'.randomNumCarry =
        (if s.paused then (stepStart ops inp s).randomNumCarry
         else (steppedRuns ops (stepStart ops inp s).dtSim (stepStart ops inp s).simulationTime
              s.force s.moment (stepStart ops inp s).quads
              (stepStart ops inp s).randomNumCarry).2.1) ∧
      s'.simulationTime =
        (if s.paused then (stepStart ops inp s).simulationTime
         else clockAfter (stepStart ops inp s).dtSim NUM_SIM_STEPS_PER_TIMER
          (stepStart ops inp s).simulationTime) ∧
      s'._simCount = (stepStart ops inp s)._simCount ∧
      s'.mlNode = s.mlNode ∧
      s'.quads.length = s.quads.length ∧
      s'.force = keyboardForce sqrt inp.keys s.force ∧
      s'.receivedResetRequest = (inp.keys.IsKeyDown 'r' || inp.keys.IsKeyDown 'R') ∧
      s'.paused =
        (if inp.keys.IsKeyDown ' ' && !s.key_space_pressed then !s.paused else s.paused) := by
  obtain ⟨s', ho, hlog, hq, hc, ht, hforce, hml, hp, hr, hcount, -⟩ := OnTimer_log sqrt ops inp s h
  have hsl := sessionStep_log sqrt ops inp s
  have hsf := sessionStep_fields sqrt ops inp s
  have hsc := sessionStep_commands sqrt ops inp s
  have ha := stepStart_fields ops inp s
  refine ⟨s', ho, ?_, hq.trans hsl.2.1, hc.trans hsl.2.2, ?_, ?_, hml, ?_, ?_, hr.trans hsc.1,
    hp.trans hsc.2.1⟩
  · rw [hlog, hsl.1, ha.1]
    simp only [List.append_assoc]
  · rw [ht, hsf.1, ha.2.2.1, ha.2.2.2.2.1]
  · rw [hcount, hsf.2.1, ha.2.2.2.2.2.2.2.2.2.2]
  · rw [hq, hsf.2.2.2.1]
  · rw [hforce]
    have hst : sessionStep sqrt ops inp s = KeyboardInteraction sqrt inp.keys
      (if !((stepStart ops inp s).emit Event.onMainTimer).paused then
        (simSteps ops NUM_SIM_STEPS_PER_TIMER ((stepStart ops inp s).emit Event.onMainTimer)).emit
          (Event.updateData (simSteps ops NUM_SIM_STEPS_PER_TIMER
            ((stepStart ops inp s).emit Event.onMainTimer)).simulationTime)
       else (stepStart ops inp s).emit Event.onMainTimer) := rfl
    rw [hst, (KeyboardInteraction_commands sqrt inp.keys _).2.2.2.2]
    congr 1
    split_ifs <;> simp [simSteps_fields, ha]

/-- A tick that returns a state is a tick that completes. -/
theorem completes_of_some (inp : TickInput K) (s s' : State K V)
    (h : OnTimer sqrt ops inp s = some s') :
    ¬ (inp.elapsedSeconds > 0.030 ∧ s.mlNode = true ∧ s.quads = []) := by
  intro hc
  rw [OnTimer_none sqrt ops inp s hc] at h
  cases h

end Record
section Record2
variable (sqrt : K → K) (ops : VehicleOps K V)

/-- The step calls among the calls of a tick are the calls of the sub-step batch. -/
theorem runCalls_tick (resetPart runs th : List (Event K)) (t : K) (keys : Keys) (p : Bool)
    (hreset : runCalls resetPart = []) (hruns : runCalls runs = runs)
    (hth : runCalls th = []) :
    runCalls (resetPart ++ [Event.onMainTimer]
      ++ (if p then [] else runs ++ [Event.updateData t])
      ++ keyboardEvents K keys ++ th ++ [Event.timerFunc 5]) = (if p then [] else runs) := by
  simp only [runCalls_append, hreset, hth, (keyboardEvents_calls keys).2.1]
  cases p
  · simp only [Bool.false_eq_true, if_false, runCalls_append, hruns]
    simp [runCalls]
  · simp [runCalls]

/-- No step call is recorded by a reset, nor by a throttled update that may be skipped. -/
theorem runCalls_parts (c : Bool) (n : Int) (m : Nat) (e : Prop) [Decidable e]
    (s' : State K V) :
    runCalls (if c then resetEvents K n m else []) = [] ∧
    runCalls (if e then throttledEvents ops s' else []) = [] := by
  constructor
  · cases c
    · rfl
    · exact (resetEvents_calls n m).2.1
  · split_ifs
    · exact (throttledEvents_calls ops s').1
    · rfl

/-- The step calls of an unpaused tick that completes are those of `steppedRuns` from the state
at the start of stepping, and so are the fleet and the carry at its end. -/
theorem OnTimer_stepCalls (sqrt : K → K) (ops : VehicleOps K V) (inp : TickInput K) (s : State K V)
    (hpaused : s.paused = false)
    (hcompletes : ¬ (inp.elapsedSeconds > 0.030 ∧ s.mlNode = true ∧ s.quads = [])) :
    ∃ s' evs, OnTimer sqrt ops inp s = some s' ∧ s'.log = s.log ++ evs ∧
      runCalls evs =
        (steppedRuns ops (stepStart ops inp s).dtSim (stepStart ops inp s).simulationTime
          s.force s.moment (stepStart ops inp s).quads (stepStart ops inp s).randomNumCarry).2.2 ∧
      s'.quads =
        (steppedRuns ops (stepStart ops inp s).dtSim (stepStart ops inp s).simulationTime
          s.force s.moment (stepStart ops inp s).quads (stepStart ops inp s).randomNumCarry).1 ∧
      s'.randomNumCarry =
        (steppedRuns ops (stepStart ops inp s).dtSim (stepStart ops inp s).simulationTime
          s.force s.moment (stepStart ops inp s).quads
          (stepStart ops inp s).randomNumCarry).2.1 ∧
      (runCalls evs).filterMap runArguments =
        (List.range NUM_SIM_STEPS_PER_TIMER).flatMap (fun k =>
          (List.range s.quads.length).map (fun j =>
            (j, (stepStart ops inp s).dtSim,
              clockAfter (stepStart ops inp s).dtSim k (stepStart ops inp s).simulationTime,
              s.force, s.moment))) := by
  obtain ⟨s', ho, hlog, hq, hc, -⟩ := OnTimer_record sqrt ops inp s hcompletes
  have hrun := steppedRuns_calls ops (stepStart ops inp s).dtSim
    (stepStart ops inp s).simulationTime s.force s.moment (stepStart ops inp s).quads
    (stepStart ops inp s).randomNumCarry
  have hparts := runCalls_parts ops (resetCondition s) (wrapInt (s._simCount + 1)) s.quads.length
    (inp.elapsedSeconds > 0.030) s'
  have hcalls := runCalls_tick _ _ _
    (clockAfter (stepStart ops inp s).dtSim NUM_SIM_STEPS_PER_TIMER
      (stepStart ops inp s).simulationTime)
    inp.keys s.paused hparts.1 hrun.1 hparts.2
  have hlen : (stepStart ops inp s).quads.length = s.quads.length := by
    rw [(stepStart_fields ops inp s).2.1]
    split_ifs <;> simp
  rw [hpaused] at hq hc hcalls
  refine ⟨s', _, ho, hlog, ?_, hq, hc, ?_⟩
  · rw [hpaused]; exact hcalls
  · rw [hpaused, hcalls]
    simp only [Bool.false_eq_true, if_false]
    rw [hrun.2.2.2.1, hlen]

end Record2

/-! ## Invariants of a run of ticks -/

section Monotone
variable (sqrt : K → K) (ops : VehicleOps K V)

/-- A loaded session starts with the clock at 0 and the timestep of the scenario file. -/
theorem LoadScenario_of_some (file : Config K) (init s0 : State K V)
    (h : LoadScenario ops file init = some s0) :
    s0.simulationTime = 0 ∧ s0.dtSim = Config.Get file.timestep 0.005 ∧
    s0.randomNumCarry = -1 ∧ s0.receivedResetRequest = false := by
  simp only [LoadScenario, Option.bind_eq_bind, Option.pure_def, Option.bind_eq_some] at h
  obtain ⟨fleet, -, u, -, hs0⟩ := h
  have hr := ResetSimulation_fields ops file
    (attachTelemetry u)
  rw [Option.some.inj hs0] at hr
  exact ⟨hr.1, hr.2.2.2.2.1, hr.2.1, hr.2.2.1⟩

/-- In binary32, sub-steps with a positive timestep from a non-negative clock never lower
the clock and keep it non-negative. -/
theorem clockAfter_ge (dt : F32) (hdt : 0 < dt) (n : Nat) :
    ∀ t : F32, 0 ≤ t → t ≤ clockAfter dt n t ∧ 0 ≤ clockAfter dt n t := by
  induction n with
  | zero => intro t ht; exact ⟨F32.le_refl_of_le _ _ ht, ht⟩
  | succ n ih =>
    intro t ht
    obtain ⟨h1, h2⟩ := F32.add_ge t dt ht hdt
    obtain ⟨h3, h4⟩ := ih (t + dt) h2
    exact ⟨F32.le_of_le_of_le _ _ _ h1 h3, h4⟩

/-- In binary32, one tick keeps the clock non-negative and the timestep positive, never lowers
the clock when no reset fires, and changes the session counter only by the increment of a
reset. -/
theorem tick_monotone (sqrt : F32 → F32) (ops : VehicleOps F32 V) (inp : TickInput F32)
    (s s' : State F32 V)
    (h : OnTimer sqrt ops inp s = some s')
    (htime : 0 ≤ s.simulationTime) (hdt : 0 < s.dtSim)
    (hfile : resetCondition s = true → 0 < Config.Get inp.file.timestep 0.005) :
    0 ≤ s'.simulationTime ∧ 0 < s'.dtSim ∧
    (resetCondition s = false →
      s.simulationTime ≤ s'.simulationTime ∧ s'._simCount = s._simCount) ∧
    (resetCondition s = true → s'._simCount = wrapInt (s._simCount + 1)) := by
  obtain ⟨s'', e, a⟩ := OnTimer_fields sqrt ops inp s (completes_of_some sqrt ops inp s s' h)
  rw [h] at e
  cases Option.some.inj e
  have f := sessionStep_fields sqrt ops inp s
  rw [a.1, a.2.1, a.2.2.2.2.1, f.1, f.2.1, f.2.2.2.2.1]
  cases hc : resetCondition s with
  | false =>
    simp only [Bool.false_eq_true, if_false, true_implies, false_implies, and_true]
    have hm := clockAfter_ge s.dtSim hdt NUM_SIM_STEPS_PER_TIMER s.simulationTime htime
    refine ⟨?_, hdt, ?_⟩
    · split_ifs
      · exact htime
      · exact hm.2
    · split_ifs
      · exact F32.le_refl_of_le _ _ htime
      · exact hm.1
  | true =>
    have hpos := hfile hc
    have h00 : (0 : F32) ≤ 0 := by decide!
    have hm := clockAfter_ge _ hpos NUM_SIM_STEPS_PER_TIMER 0 h00
    simp only [if_true, true_implies, false_implies, and_true, reduceCtorEq]
    refine ⟨?_, hpos⟩
    split_ifs
    · exact h00
    · exact hm.2

/-- In binary32, a run of ticks keeps the clock non-negative and the timestep positive; the
session counter moves only by the increments of the resets, at most one per tick, so it does
not decrease as long as it stays within the `int` range. -/
theorem runTicks_monotone (sqrt : F32 → F32) (ops : VehicleOps F32 V)
    (inputs : List (TickInput F32)) :
    ∀ s s' : State F32 V, runTicks sqrt ops inputs s = some s' →
      0 ≤ s.simulationTime → 0 < s.dtSim → resetTimestepsPositive sqrt ops inputs s →
      0 ≤ s'.simulationTime ∧ 0 < s'.dtSim ∧
      (-2147483648 ≤ s._simCount → s._simCount + inputs.length ≤ 2147483647 →
        s._simCount ≤ s'._simCount ∧ s'._simCount ≤ s._simCount + inputs.length) := by
  induction inputs with
  | nil =>
    intro s s' h ht hd _
    cases Option.some.inj h
    exact ⟨ht, hd, fun _ _ => ⟨Int.le_refl _, by simp⟩⟩
  | cons inp rest ih =>
    intro s s' h ht hd hpos
    simp only [runTicks, Option.bind_eq_some] at h
    obtain ⟨s1, h1, h2⟩ := h
    obtain ⟨a1, a2, a3, a4⟩ := tick_monotone sqrt ops inp s s1 h1 ht hd hpos.1
    obtain ⟨b1, b2, b3⟩ := ih s1 s' h2 a1 a2 (hpos.2 s1 h1)
    refine ⟨b1, b2, ?_⟩
    intro hlo hhi
    simp only [List.length_cons, Nat.cast_add, Nat.cast_one] at hhi ⊢
    have hstep : s._simCount ≤ s1._simCount ∧ s1._simCount ≤ s._simCount + 1 := by
      cases hc : resetCondition s with
      | false => rw [(a3 hc).2]; omega
      | true => rw [a4 hc, wrapInt_of_range _ (by omega) (by omega)]; omega
    obtain ⟨c1, c2⟩ := b3 (by omega) (by omega)
    omega

/-- When every scenario file read along a run gives a positive timestep, every timestep loaded
at a reset is positive. -/
theorem resetTimestepsPositive_of_all (inputs : List (TickInput K))
    (h : ∀ inp ∈ inputs, 0 < Config.Get inp.file.timestep 0.005) :
    ∀ s : State K V, resetTimestepsPositive sqrt ops inputs s := by
  induction inputs with
  | nil => intro s; trivial
  | cons inp rest ih =>
    intro s
    exact ⟨fun _ => h inp (List.mem_cons_self _ _),
      fun s' _ => ih (fun i hi => h i (List.mem_cons_of_mem _ hi)) s'⟩

end Monotone

/-! ## Paused ticks -/

section Paused

/-- A tick that starts with `paused = true`, in which no reset fires, and that completes:
no vehicle step call is recorded, and the fleet, `simulationTime` and `randomNumCarry` are
unchanged; yet the input sample is taken (the force is updated from the key state, the reset
request follows the reset key, and a fresh press of the space key un-pauses), and when the
throttle window has elapsed the redraws and the timer reset are recorded and the telemetry
sequence is sent if a node is attached. -/
theorem paused_tick_completes (sqrt : K → K) (ops : VehicleOps K V) (inp : TickInput K) (s : State K V)
    (hpaused : s.paused = true) (hnoreset : resetCondition s = false)
    (hcompletes : ¬ (inp.elapsedSeconds > 0.030 ∧ s.mlNode = true ∧ s.quads = [])) :
    ∃ s' evs, OnTimer sqrt ops inp s = some s' ∧ s'.log = s.log ++ evs ∧
      runCalls evs = [] ∧ s'.quads = s.quads ∧
      s'.simulationTime = s.simulationTime ∧ s'.randomNumCarry = s.randomNumCarry ∧
      s'.force = keyboardForce sqrt inp.keys s.force ∧
      s'.receivedResetRequest = (inp.keys.IsKeyDown 'r' || inp.keys.IsKeyDown 'R') ∧
      (inp.keys.IsKeyDown ' ' = true → s.key_space_pressed = false → s'.paused = false) ∧
      (inp.elapsedSeconds > 0.030 →
        Event.visualizerUpdate ∈ evs ∧ Event.drawUpdate ∈ evs ∧ Event.lastDrawReset ∈ evs ∧
        (s.mlNode = false → sentPackets evs = []) ∧
        (s.mlNode = true → ∃ q0, s.quads.head? = some q0 ∧
          sentPackets evs =
            [Packet.Heartbeat, Packet.Status,
             Packet.LocalPose s.simulationTime (ops.Position q0) (ops.Velocity q0),
             Packet.Attitude s.simulationTime (ops.Attitude q0) (ops.Omega q0)])) := by
  obtain ⟨s', ho, hlog, hq, hc, ht, -, hml, -, hforce, hreq, hp⟩ :=
    OnTimer_record sqrt ops inp s hcompletes
  have hst : stepStart ops inp s = s := by simp [stepStart, hnoreset]
  rw [hpaused, hst] at hq hc ht
  simp only [if_true] at hq hc ht
  have hparts := runCalls_parts ops (resetCondition s) (wrapInt (s._simCount + 1)) s.quads.length
    (inp.elapsedSeconds > 0.030) s'
  have hcalls := runCalls_tick
    (if resetCondition s then resetEvents K (wrapInt (s._simCount + 1)) s.quads.length else [])
    (steppedRuns ops (stepStart ops inp s).dtSim (stepStart ops inp s).simulationTime
      s.force s.moment (stepStart ops inp s).quads (stepStart ops inp s).randomNumCarry).2.2
    (if inp.elapsedSeconds > 0.030 then throttledEvents ops s' else [])
    (clockAfter (stepStart ops inp s).dtSim NUM_SIM_STEPS_PER_TIMER
      (stepStart ops inp s).simulationTime)
    inp.keys s.paused hparts.1 (steppedRuns_calls ops _ _ _ _ _ _).1 hparts.2
  rw [hpaused] at hcalls hlog
  simp only [if_true] at hcalls hlog
  rw [hnoreset] at hlog
  simp only [Bool.false_eq_true, if_false, List.nil_append, List.append_nil] at hlog
  refine ⟨s', _, ho, hlog, ?_, hq, ht, hc, hforce, hreq, ?_, ?_⟩
  · rw [hnoreset] at hcalls
    simpa using hcalls
  · intro hsp hksp
    rw [hp, hsp, hksp, hpaused]; rfl
  · intro he
    have hsent : sentPackets ([Event.onMainTimer] ++ keyboardEvents K inp.keys
        ++ (if inp.elapsedSeconds > 0.030 then throttledEvents ops s' else [])
        ++ [Event.timerFunc 5]) = sentPackets (throttledEvents ops s') := by
      rw [if_pos he]
      simp only [sentPackets_append, (keyboardEvents_calls inp.keys).1]
      simp [sentPackets]
    have hth := (throttledEvents_calls ops s').2.2
    rw [hq, hml, ht] at hth
    refine ⟨?_, ?_, ?_, ?_, ?_⟩
    · simp [throttledEvents, he]
    · simp [throttledEvents, he]
    · simp [throttledEvents, he]
    · intro hm
      rw [hsent, hth, hm]
      cases s.quads.head? <;> rfl
    · intro hm
      have hne : s.quads ≠ [] := fun h0 => hcompletes ⟨he, hm, h0⟩
      obtain ⟨q0, rest, hq0⟩ := List.exists_cons_of_ne_nil hne
      refine ⟨q0, by rw [hq0]; rfl, ?_⟩
      rw [hsent, hth, hm, hq0]
      rfl

/-- A paused tick in which no reset fires, up to the throttled update: when line 179 is reached
no vehicle step call has been recorded, the fleet, the clock and the carry are unchanged, and
the input sample has been taken. -/
theorem paused_sessionStep (sqrt : K → K) (ops : VehicleOps K V) (inp : TickInput K)
    (s : State K V) (hpaused : s.paused = true) (hnoreset : resetCondition s = false) :
    (sessionStep sqrt ops inp s).log
      = s.log ++ ([Event.onMainTimer] ++ keyboardEvents K inp.keys) ∧
    runCalls ([Event.onMainTimer] ++ keyboardEvents K inp.keys) = [] ∧
    (sessionStep sqrt ops inp s).quads = s.quads ∧
    (sessionStep sqrt ops inp s).simulationTime = s.simulationTime ∧
    (sessionStep sqrt ops inp s).randomNumCarry = s.randomNumCarry ∧
    (sessionStep sqrt ops inp s).force = keyboardForce sqrt inp.keys s.force := by
  have hsl := sessionStep_log sqrt ops inp s
  have hsf := sessionStep_fields sqrt ops inp s
  have hst : stepStart ops inp s = s := by simp [stepStart, hnoreset]
  rw [hpaused, hst] at hsl
  simp only [if_true, List.append_nil, List.append_assoc] at hsl
  refine ⟨hsl.1, ?_, hsl.2.1, ?_, hsl.2.2, ?_⟩
  · rw [runCalls_append, (keyboardEvents_calls inp.keys).2.1]
    rfl
  · rw [hsf.1, hpaused, hnoreset]
    rfl
  · have hsess : sessionStep sqrt ops inp s = KeyboardInteraction sqrt inp.keys
        (if !((stepStart ops inp s).emit Event.onMainTimer).paused then
          (simSteps ops NUM_SIM_STEPS_PER_TIMER
            ((stepStart ops inp s).emit Event.onMainTimer)).emit
            (Event.updateData (simSteps ops NUM_SIM_STEPS_PER_TIMER
              ((stepStart ops inp s).emit Event.onMainTimer)).simulationTime)
         else (stepStart ops inp s).emit Event.onMainTimer) := rfl
    rw [hsess, (KeyboardInteraction_commands sqrt inp.keys _).2.2.2.2, hst]
    simp [hpaused]

end Paused

/-! ## The clock over one tick (C1) -/

/-- C1 (amended).  A tick that completes leaves `simulationTime` equal to the `float` reached
from its value before the tick by `NUM_SIM_STEPS_PER_TIMER` (5) successive additions of
`dtSim`, each sum a `float`, when no reset fires and `paused` is false at the top of the tick,
and equal to its value before when no reset fires and `paused` is true; when the reset fires,
the clock restarts from 0 with the reloaded timestep. -/
theorem tick_simulationTime (sqrt : K → K) (ops : VehicleOps K V) (inp : TickInput K)
    (s : State K V)
    (hcompletes : ¬ (inp.elapsedSeconds > 0.030 ∧ s.mlNode = true ∧ s.quads = [])) :
    ∃ s', OnTimer sqrt ops inp s = some s' ∧
      (resetCondition s = false → s.paused = false →
        s'.simulationTime
          = s.simulationTime + s.dtSim + s.dtSim + s.dtSim + s.dtSim + s.dtSim) ∧
      (resetCondition s = false → s.paused = true → s'.simulationTime = s.simulationTime) ∧
      (resetCondition s = true → s.paused = false →
        s'.simulationTime
          = 0 + Config.Get inp.file.timestep 0.005 + Config.Get inp.file.timestep 0.005
            + Config.Get inp.file.timestep 0.005 + Config.Get inp.file.timestep 0.005
            + Config.Get inp.file.timestep 0.005) ∧
      (resetCondition s = true → s.paused = true → s'.simulationTime = 0) := by
  obtain ⟨evs, h⟩ := OnTimer_some sqrt ops inp s hcompletes
  have hf := (sessionStep_fields sqrt ops inp s).1
  refine ⟨_, h, ?_, ?_, ?_, ?_⟩ <;> intro hc hp <;>
    simp [hf, hc, hp, NUM_SIM_STEPS_PER_TIMER, clockAfter]

/-- C1, witness: an unpaused session at time 1 with timestep 0.005 and no reset due ends the
tick at `1.025`, the `float` reached by the five additions. -/
theorem tick_simulationTime_witness :
    ∃ s', OnTimer F32.sqrt (unitOps F32) (quietTick noKeys (scenario F32 none none none))
        (session false false 0.005 1 (scenario F32 none none none)) = some s' ∧
      s'.simulationTime = 1.025 := by
  obtain ⟨s', h, h1, -⟩ := tick_simulationTime F32.sqrt (unitOps F32)
    (quietTick noKeys (scenario F32 none none none))
    (session false false 0.005 1 (scenario F32 none none none)) (by simp [session])
  refine ⟨s', h, ?_⟩
  rw [h1 (by decide!) rfl]
  decide!

/-- C1, counterexample.  A paused session with a pending reset request and the clock at 1:
the tick leaves `simulationTime` at 0, not at its value before the tick.  An unpaused session
with no reset due, the clock at 131072 and the timestep 0.005: each of the five additions
rounds back to 131072, so the tick leaves `simulationTime` at its value before, which is
neither the `float` expression `before + 5 * dtSim` (131072.03125) nor the exact sum of the
values (`F32.val`, in units of `2 ^ (-149)`). -/
theorem tick_simulationTime_counterexample :
    (∃ s', OnTimer F32.sqrt (unitOps F32) (quietTick noKeys (scenario F32 none none none))
        (session true true 0.005 1 (scenario F32 none none none)) = some s' ∧
      (session true true 0.005 1 (scenario F32 none none none)).paused = true ∧
      (session true true 0.005 1 (scenario F32 none none none)).simulationTime = 1 ∧
      s'.simulationTime = 0 ∧
      s'.simulationTime ≠ (session true true 0.005 1 (scenario F32 none none none)).simulationTime) ∧
    (∃ s', OnTimer F32.sqrt (unitOps F32) (quietTick noKeys (scenario F32 none none none))
        (session false false 0.005 131072 (scenario F32 none none none)) = some s' ∧
      (session false false 0.005 131072 (scenario F32 none none none)).paused = false ∧
      resetCondition (session false false 0.005 131072 (scenario F32 none none none)) = false ∧
      (session false false 0.005 131072 (scenario F32 none none none)).simulationTime = 131072 ∧
      (session false false 0.005 131072 (scenario F32 none none none)).dtSim = 0.005 ∧
      s'.simulationTime = 131072 ∧
      s'.simulationTime ≠
        (session false false 0.005 131072 (scenario F32 none none none)).simulationTime
          + 5 * (session false false 0.005 131072 (scenario F32 none none none)).dtSim ∧
      s'.simulationTime.val ≠
        (session false false 0.005 131072 (scenario F32 none none none)).simulationTime.val
          + 5 * (session false false 0.005 131072 (scenario F32 none none none)).dtSim.val) := by
  constructor
  · obtain ⟨s', h, -, a⟩ := OnTimer_session F32.sqrt (unitOps F32)
      (quietTick noKeys (scenario F32 none none none))
      (session true true 0.005 1 (scenario F32 none none none)) (Or.inl rfl)
    refine ⟨s', h, rfl, rfl, ?_, ?_⟩ <;> rw [a.1] <;> decide!
  · obtain ⟨s', h, -, a⟩ := OnTimer_session F32.sqrt (unitOps F32)
      (quietTick noKeys (scenario F32 none none none))
      (session false false 0.005 131072 (scenario F32 none none none)) (Or.inl rfl)
    refine ⟨s', h, rfl, by decide!, rfl, rfl, ?_, ?_, ?_⟩ <;> rw [a.1] <;> decide!

/-! ## Repeat-mode reset (C2) -/

/-- C2 (amended).  From a session with `simulationTime = 0`, not paused, no reset requested,
`Sim.RunMode = Repeat`, `Sim.EndTime = 1.0` and `dtSim = 0.1`, with neither the space key nor
the reset key down and the scenario file still giving the timestep 0.1: after 2 ticks no
reset has run and `simulationTime` is the `float` 1.0000001 (`1 + 2 ^ (-23)`), the result of
ten rounded additions of the `float` 0.1; it has reached the end time, so the third tick
meets the reset condition, runs `ResetSimulation` once and then the 5 sub-steps, and ends
with `simulationTime = 0.5`. -/
theorem repeat_mode_autoreset (sqrt : F32 → F32) (ops : VehicleOps F32 V)
    (t1 t2 t3 : TickInput F32) (s : State F32 V)
    (htime : s.simulationTime = 0) (hpaused : s.paused = false)
    (hrequest : s.receivedResetRequest = false) (hdt : s.dtSim = 0.1)
    (hmode : s.config.runMode = some "Repeat") (hend : s.config.endTime = some 1)
    (hfile : t3.file.timestep = some 0.1)
    (hkeys1 : t1.keys.IsKeyDown ' ' = false ∧ t1.keys.IsKeyDown 'r' = false ∧
      t1.keys.IsKeyDown 'R' = false)
    (hkeys2 : t2.keys.IsKeyDown ' ' = false ∧ t2.keys.IsKeyDown 'r' = false ∧
      t2.keys.IsKeyDown 'R' = false)
    (hfleet : s.mlNode = false ∨ s.quads ≠ []) :
    ∃ s2 s3, runTicks sqrt ops [t1, t2] s = some s2 ∧ s2.simulationTime = 1.0000001 ∧
      s2._simCount = s._simCount ∧ resetCondition s2 = true ∧
      OnTimer sqrt ops t3 s2 = some s3 ∧ s3._simCount = wrapInt (s._simCount + 1) ∧
      s3.simulationTime = 0.5 := by
  obtain ⟨s2, s3, h1, h2, h3, h4, h5, h6, h7⟩ := repeat_three_ticks sqrt ops t1 t2 t3 s 0.1 1
    htime hpaused hrequest hdt hmode hend (by decide!) (by decide!) (by decide!) (by decide!)
    hkeys1 hkeys2 hfleet
  refine ⟨s2, s3, h1, ?_, h3, h4, h5, h6, ?_⟩
  · rw [h2]; decide!
  · rw [h7, hfile]; decide!

/-- C2, witness: the scenario of the claim with one vehicle, loaded by `LoadScenario` from the
initial globals, and ticks with no key down. -/
theorem repeat_mode_autoreset_witness :
    ∃ s0 s2 s3,
      LoadScenario (unitOps F32) (scenario F32 (some 0.1) (some 1) (some "Repeat"))
        (initialState F32 Unit) = some s0 ∧
      runTicks F32.sqrt (unitOps F32)
        [quietTick noKeys (scenario F32 (some 0.1) (some 1) (some "Repeat")),
         quietTick noKeys (scenario F32 (some 0.1) (some 1) (some "Repeat"))] s0 = some s2 ∧
      s2.simulationTime = 1.0000001 ∧
      s2._simCount = s0._simCount ∧ resetCondition s2 = true ∧
      OnTimer F32.sqrt (unitOps F32)
        (quietTick noKeys (scenario F32 (some 0.1) (some 1) (some "Repeat"))) s2 = some s3 ∧
      s3._simCount = wrapInt (s0._simCount + 1) ∧ s3.simulationTime = 0.5 := by
  obtain ⟨fleet, s0, -, hload, h1, -, h3, h4, h5, -, h7, -, -, h10⟩ :=
    LoadScenario_spec (unitOps F32) (scenario F32 (some 0.1) (some 1) (some "Repeat"))
      (initialState F32 Unit) 2 1 (by decide) (by decide) (by simp [scenario])
      (by decide) (by decide) rfl
  obtain ⟨s2, s3, h⟩ := repeat_mode_autoreset F32.sqrt (unitOps F32)
    (quietTick noKeys (scenario F32 (some 0.1) (some 1) (some "Repeat")))
    (quietTick noKeys (scenario F32 (some 0.1) (some 1) (some "Repeat")))
    (quietTick noKeys (scenario F32 (some 0.1) (some 1) (some "Repeat"))) s0
    h1 (by rw [h7]; rfl) h3 (by rw [h4]; rfl) (by rw [h5]; rfl) (by rw [h5]; rfl) rfl
    ⟨rfl, rfl, rfl⟩ ⟨rfl, rfl, rfl⟩ (Or.inl (by rw [h10]; rfl))
  exact ⟨s0, s2, s3, hload, h⟩

/-- C2, counterexample.  The scenario of the claim is loaded and ticked with no key down:
after two ticks the clock is at the `float` 1.0000001, not at 1.0, and the third tick leaves
`simulationTime` at 0.5, not at 0: the reset is followed by the 5 sub-steps of that tick. -/
theorem repeat_mode_autoreset_counterexample :
    ∃ s0 s2 s3,
      LoadScenario (unitOps F32) (scenario F32 (some 0.1) (some 1) (some "Repeat"))
        (initialState F32 Unit) = some s0 ∧
      runTicks F32.sqrt (unitOps F32)
        [quietTick noKeys (scenario F32 (some 0.1) (some 1) (some "Repeat")),
         quietTick noKeys (scenario F32 (some 0.1) (some 1) (some "Repeat"))] s0 = some s2 ∧
      s2.simulationTime = 1.0000001 ∧ s2.simulationTime ≠ 1 ∧
      OnTimer F32.sqrt (unitOps F32)
        (quietTick noKeys (scenario F32 (some 0.1) (some 1) (some "Repeat"))) s2 = some s3 ∧
      s3.simulationTime = 0.5 ∧ s3.simulationTime ≠ 0 := by
  obtain ⟨fleet, s0, -, hload, h1, -, h3, h4, h5, -, h7, -, -, h10⟩ :=
    LoadScenario_spec (unitOps F32) (scenario F32 (some 0.1) (some 1) (some "Repeat"))
      (initialState F32 Unit) 2 1 (by decide) (by decide) (by simp [scenario])
      (by decide) (by decide) rfl
  obtain ⟨s2, s3, e1, e2, -, -, e3, -, e4⟩ := repeat_three_ticks F32.sqrt (unitOps F32)
    (quietTick noKeys (scenario F32 (some 0.1) (some 1) (some "Repeat")))
    (quietTick noKeys (scenario F32 (some 0.1) (some 1) (some "Repeat")))
    (quietTick noKeys (scenario F32 (some 0.1) (some 1) (some "Repeat"))) s0 0.1 1
    h1 (by rw [h7]; rfl) h3 (by rw [h4]; rfl) (by rw [h5]; rfl) (by rw [h5]; rfl)
    (by decide!) (by decide!) (by decide!) (by decide!)
    ⟨rfl, rfl, rfl⟩ ⟨rfl, rfl, rfl⟩ (Or.inl (by rw [h10]; rfl))
  refine ⟨s0, s2, s3, hload, e1, by rw [e2]; decide!, by rw [e2]; decide!, e3,
    by rw [e4]; decide!, by rw [e4]; decide!⟩

/-! ## Telemetry with an empty fleet (C3) -/

/-- C3.  A scenario file that names no vehicle and enables telemetry is loaded from the
initial globals: the fleet is empty and the telemetry node is attached.  The first tick whose
throttle window has elapsed reads `quads[0]` outside the vector: it has no result. -/
theorem tick_emptyFleet_telemetry_fails :
    ∃ s0, LoadScenario (unitOps F32) (telemetryScenario F32) (initialState F32 Unit) = some s0 ∧
      s0.quads = [] ∧ s0.mlNode = true ∧
      (drawTick noKeys (telemetryScenario F32)).elapsedSeconds > 0.030 ∧
      OnTimer F32.sqrt (unitOps F32) (drawTick noKeys (telemetryScenario F32)) s0 = none := by
  obtain ⟨fleet, s0, hfleet, hload, -, -, -, -, -, -, -, -, hlen, hml⟩ :=
    LoadScenario_spec (unitOps F32) (telemetryScenario F32) (initialState F32 Unit) 1 1
      (by decide) (by decide) rfl (by decide) (by decide) rfl
  obtain ⟨m, hm, -, -, hloop⟩ := CreateVehiclesLoop_spec (unitOps F32) (telemetryScenario F32)
    INT_MAX 1 [] 0 rfl (by decide)
  have hm0 : m = 0 := by omega
  subst hm0
  have hnil : fleet = [] := by
    have h : some fleet = some [] := by rw [← hfleet]; exact hloop
    exact Option.some.inj h
  have hq : s0.quads = [] := by
    apply List.eq_nil_of_length_eq_zero
    rw [hlen, hnil]; rfl
  have hm1 : s0.mlNode = true := by rw [hml]; rfl
  have hel : (drawTick noKeys (telemetryScenario F32)).elapsedSeconds > 0.030 := by
    norm_num [drawTick]
  exact ⟨s0, hload, hq, hm1, hel, OnTimer_none F32.sqrt (unitOps F32) _ _ ⟨hel, hm1, hq⟩⟩

/-! ## The force left by `KeyboardInteraction` (C4) -/

/-- C4 (amended).  In binary32, the force left by `KeyboardInteraction` is the zero vector
when no force key is down (whatever the square-root function returns); when a force key is
down it is the incoming force with the steps of the held keys added one after the other,
rescaled through its computed length when that exceeds 2.  With only UP held and the computed
length of the sum not above 2 it is the incoming force plus `(0, 0, -0.04)`; from the zero
force that is `(0, 0, -0.04)`. -/
theorem keyboard_force_accumulates (sqrt : F32 → F32) (keys : Keys) (s : State F32 V) :
    (forceKeyDown keys = false → (KeyboardInteraction sqrt keys s).force = V3F.zero) ∧
    (forceKeyDown keys = true →
      (KeyboardInteraction sqrt keys s).force =
        if ((heldSteps F32 keys).foldl V3F.add s.force).mag sqrt > 2 then
          (((heldSteps F32 keys).foldl V3F.add s.force).div
            (((heldSteps F32 keys).foldl V3F.add s.force).mag sqrt)).mul 2
        else (heldSteps F32 keys).foldl V3F.add s.force) ∧
    (onlyUpHeld keys → ¬ (s.force.add ⟨0, 0, -0.04⟩).mag sqrt > 2 →
      (KeyboardInteraction sqrt keys s).force = s.force.add ⟨0, 0, -0.04⟩) ∧
    (onlyUpHeld keys → s.force = V3F.zero →
      (KeyboardInteraction F32.sqrt keys s).force = ⟨0, 0, -0.04⟩) := by
  have hf := fun sq => (KeyboardInteraction_commands (V := V) sq keys s).2.2.2.2
  rw [hf, hf]
  refine ⟨?_, ?_, ?_, ?_⟩
  · intro h
    exact keyboardForce_noKey sqrt keys s.force h
  · intro h
    simp only [keyboardForce, summedForce_eq, h, if_true]
  · intro hup hle
    exact keyboardForce_up sqrt keys hup s.force hle
  · intro hup h0
    rw [keyboardForce_up F32.sqrt keys hup s.force (by rw [h0]; decide!), h0]
    decide!

/-- C4, witness: only UP held, starting from the zero force. -/
theorem keyboard_force_accumulates_witness :
    onlyUpHeld (onlySpecial .GLUT_KEY_UP) ∧
    (KeyboardInteraction F32.sqrt (onlySpecial .GLUT_KEY_UP)
      (session false false 0.005 0 (scenario F32 none none none))).force = ⟨0, 0, -0.04⟩ :=
  ⟨onlyUpHeld_onlySpecial,
    (keyboard_force_accumulates F32.sqrt (onlySpecial .GLUT_KEY_UP)
      (session false false 0.005 0 (scenario F32 none none none))).2.2.2
      onlyUpHeld_onlySpecial rfl⟩

/-- C4, counterexample.  With only UP held, the force after one call from the zero force is
`(0, 0, -0.04)` and after a second call it is `(0, 0, -0.08)`: the result depends on the
incoming force, and it is not `(0, 0, -0.04)` on the second tick. -/
theorem keyboard_force_counterexample :
    (keyboardRun F32.sqrt [onlySpecial .GLUT_KEY_UP]
      (session false false 0.005 0 (scenario F32 none none none))).force = ⟨0, 0, -0.04⟩ ∧
    (keyboardRun F32.sqrt [onlySpecial .GLUT_KEY_UP, onlySpecial .GLUT_KEY_UP]
      (session false false 0.005 0 (scenario F32 none none none))).force = ⟨0, 0, -0.08⟩ ∧
    (keyboardRun F32.sqrt [onlySpecial .GLUT_KEY_UP, onlySpecial .GLUT_KEY_UP]
      (session false false 0.005 0 (scenario F32 none none none))).force ≠ ⟨0, 0, -0.04⟩ := by
  refine ⟨?_, ?_, ?_⟩ <;> decide!

/-! ## The reset request (C5) -/

/-- C5 (amended).  The reset request is level-triggered.  When `r` or `R` is down at the
sample of each of `n ≥ 1` consecutive ticks, the first of which starts with no reset due, one
reset runs in each of the `n` ticks that follow a held sample: over those ticks and the tick
following them the `int` `_simCount` is incremented `n` times, so it increases by exactly `n`
(as long as it stays within the `int` range). -/
theorem reset_request_level_triggered (sqrt : K → K) (ops : VehicleOps K V)
    (held : List (TickInput K)) (last : TickInput K) (s : State K V)
    (hne : held ≠ [])
    (hheld : ∀ t ∈ held, t.keys.IsKeyDown 'r' = true ∨ t.keys.IsKeyDown 'R' = true)
    (hnone : resetCondition s = false)
    (hfleet : s.mlNode = false ∨ s.quads ≠ []) :
    ∃ s', runTicks sqrt ops (held ++ [last]) s = some s' ∧
      s'._simCount = wrapInt (s._simCount + held.length) ∧
      (-2147483648 ≤ s._simCount → s._simCount + held.length ≤ 2147483647 →
        s'._simCount = s._simCount + held.length) := by
  cases held with
  | nil => exact absurd rfl hne
  | cons t rest =>
    obtain ⟨s1, e, hfleet1, a⟩ := OnTimer_session sqrt ops t s hfleet
    have hreq : s1.receivedResetRequest = true := by
      rw [a.2.2.2.2.1]
      rcases hheld t (List.mem_cons_self _ _) with h | h <;> simp [h]
    obtain ⟨s', e', a'⟩ := held_reset_ticks sqrt ops rest last s1 hreq hfleet1
      (fun t' ht' => hheld t' (List.mem_cons_of_mem _ ht'))
    have hcount : s'._simCount = wrapInt (s._simCount + (t :: rest).length) := by
      rw [a', a.2.1, hnone]
      simp only [Bool.false_eq_true, if_false, List.length_cons, Nat.cast_add, Nat.cast_one]
      rw [Int.add_assoc]
    refine ⟨s', by simp [runTicks, e, e'], hcount, ?_⟩
    intro hlo hhi
    rw [hcount, wrapInt_of_range _ (by omega) hhi]

/-- C5, witness: `r` down for one tick, released in the next; one reset runs. -/
theorem reset_request_level_triggered_witness :
    ∃ s', runTicks F32.sqrt (unitOps F32)
        ([quietTick (onlyKey 'r') (scenario F32 none none none)] ++
          [quietTick noKeys (scenario F32 none none none)])
        (session false false 0.005 0 (scenario F32 none none none)) = some s' ∧
      s'._simCount = 2 := by
  obtain ⟨s', h1, -, h3⟩ := reset_request_level_triggered F32.sqrt (unitOps F32)
    [quietTick (onlyKey 'r') (scenario F32 none none none)]
    (quietTick noKeys (scenario F32 none none none))
    (session false false 0.005 0 (scenario F32 none none none)) (by simp)
    (by simp [quietTick, onlyKey])
    (by decide!)
    (Or.inl rfl)
  exact ⟨s', h1, h3 (by decide) (by decide)⟩

/-- C5, counterexample.  `r` pressed once and held for two consecutive ticks, released in
the third: two resets run over these three ticks, `_simCount` goes from 1 to 3. -/
theorem reset_request_counterexample :
    ∃ s', runTicks F32.sqrt (unitOps F32)
        [quietTick (onlyKey 'r') (scenario F32 none none none),
         quietTick (onlyKey 'r') (scenario F32 none none none),
         quietTick noKeys (scenario F32 none none none)]
        (session false false 0.005 0 (scenario F32 none none none)) = some s' ∧
      (session false false 0.005 0 (scenario F32 none none none))._simCount = 1 ∧
      s'._simCount = 3 := by
  obtain ⟨s1, e1, hfleet1, a1⟩ := OnTimer_session F32.sqrt (unitOps F32)
    (quietTick (onlyKey 'r') (scenario F32 none none none))
    (session false false 0.005 0 (scenario F32 none none none)) (Or.inl rfl)
  have hc0 : resetCondition (session false false 0.005 0 (scenario F32 none none none))
      = false := by decide!
  have hreq : s1.receivedResetRequest = true := by
    rw [a1.2.2.2.2.1]; simp [quietTick, onlyKey]
  obtain ⟨s', e', a'⟩ := held_reset_ticks F32.sqrt (unitOps F32)
    [quietTick (onlyKey 'r') (scenario F32 none none none)]
    (quietTick noKeys (scenario F32 none none none)) s1 hreq hfleet1
    (by simp [quietTick, onlyKey])
  refine ⟨s', ?_, rfl, ?_⟩
  · have h : runTicks F32.sqrt (unitOps F32)
        [quietTick (onlyKey 'r') (scenario F32 none none none),
         quietTick (onlyKey 'r') (scenario F32 none none none),
         quietTick noKeys (scenario F32 none none none)]
        (session false false 0.005 0 (scenario F32 none none none))
        = runTicks F32.sqrt (unitOps F32)
          ([quietTick (onlyKey 'r') (scenario F32 none none none)] ++
            [quietTick noKeys (scenario F32 none none none)]) s1 := by
      simp [runTicks, e1]
    rw [h, e']
  · rw [a', a1.2.1, hc0]
    decide

/-! ## The pause toggle (C6) -/

/-- C6.  From a state where the space key was not down at the previous sample, a run of
`n ≥ 1` calls with space held flips `paused` exactly once; calls with space released leave it
alone; after at least one such call the next call with space held flips it again.  After each
flip the visualizer's `paused` equals `paused`. -/
theorem pause_edge_triggered (sqrt : K → K) (held released : List Keys) (again : Keys)
    (s : State K V) (h0 : s.key_space_pressed = false)
    (hne : held ≠ []) (hheld : ∀ k ∈ held, k.IsKeyDown ' ' = true)
    (hrne : released ≠ []) (hrel : ∀ k ∈ released, k.IsKeyDown ' ' = false)
    (hagain : again.IsKeyDown ' ' = true) :
    (keyboardRun sqrt held s).paused = (!s.paused) ∧
    (keyboardRun sqrt held s).visualizerPaused = (keyboardRun sqrt held s).paused ∧
    (keyboardRun sqrt (held ++ released) s).paused = (!s.paused) ∧
    (keyboardRun sqrt (held ++ released ++ [again]) s).paused = s.paused ∧
    (keyboardRun sqrt (held ++ released ++ [again]) s).visualizerPaused
      = (keyboardRun sqrt (held ++ released ++ [again]) s).paused := by
  have h1 := keyboardRun_press sqrt held s h0 hne hheld
  have h2 := keyboardRun_released sqrt released (keyboardRun sqrt held s) hrel
  have h3 := keyboardRun_press sqrt [again] (keyboardRun sqrt released (keyboardRun sqrt held s))
    (h2.2.2 hrne) (by simp) (by simpa using hagain)
  rw [keyboardRun_append, keyboardRun_append, keyboardRun_append]
  refine ⟨h1.1, by rw [h1.1, h1.2.1], by rw [h2.1, h1.1], ?_, ?_⟩
  · rw [h3.1, h2.1, h1.1]; simp
  · rw [h3.1, h3.2.1]

/-- C6, witness: space held for 10 consecutive samples, released for one, pressed again. -/
theorem pause_edge_triggered_witness :
    (keyboardRun F32.sqrt (List.replicate 10 (onlyKey ' '))
      (session false false 0.005 0 (scenario F32 none none none))).paused = true ∧
    (keyboardRun F32.sqrt (List.replicate 10 (onlyKey ' ') ++ [noKeys] ++ [onlyKey ' '])
      (session false false 0.005 0 (scenario F32 none none none))).paused = false := by
  have h := pause_edge_triggered F32.sqrt (List.replicate 10 (onlyKey ' ')) [noKeys]
    (onlyKey ' ') (session false false 0.005 0 (scenario F32 none none none)) rfl
    (by simp) (by simp [onlyKey]) (by simp) (by simp [noKeys]) (by simp [onlyKey])
  exact ⟨h.1, h.2.2.2.1⟩

/-! ## The fleet built by `CreateVehicles` (C7) -/

/-- C7.  When some key `Sim.Vehicle<N>` with `1 ≤ N` (a value of the `int` counter) is
missing, `CreateVehicles` returns a fleet; its length `n` is below `N`, the keys
`Sim.Vehicle1 .. Sim.Vehicle<n>` all exist and `Sim.Vehicle<n+1>` does not, so `n` is the
largest number whose keys `1 .. n` all exist, whatever is stored after the gap.  Without
`Sim.Vehicle1` the fleet is empty. -/
theorem CreateVehicles_first_gap (ops : VehicleOps K V) (config : Config K) (N : Nat)
    (hN : 1 ≤ N) (hmax : N ≤ INT_MAX) (hgap : config.vehicle N = none) :
    ∃ fleet, CreateVehicles ops config = some fleet ∧
      fleet.length < N ∧
      (∀ k, 1 ≤ k → k ≤ fleet.length → config.vehicle k ≠ none) ∧
      config.vehicle (fleet.length + 1) = none ∧
      (∀ n, (∀ k, 1 ≤ k → k ≤ n → config.vehicle k ≠ none) → n ≤ fleet.length) ∧
      (config.vehicle 1 = none → fleet = []) := by
  obtain ⟨m, hm, hall, hnone, hres⟩ := CreateVehiclesLoop_spec ops config INT_MAX 1 [] (N - 1)
    (by rw [show 1 + (N - 1) = N by omega]; exact hgap) (by omega)
  have hlen : ([] ++ (List.range m).map
      (fun k => ops.Create (Config.Get (config.vehicle (1 + k)) "Quad")
        (([] : List V).length + k))).length = m := by simp
  refine ⟨_, hres, ?_, ?_, ?_, ?_, ?_⟩
  · rw [hlen]; omega
  · rw [hlen]
    intro k hk1 hk2
    have := hall (k - 1) (by omega)
    rwa [show 1 + (k - 1) = k by omega] at this
  · rw [hlen, Nat.add_comm]; exact hnone
  · rw [hlen]
    intro n hn
    by_contra hlt
    exact hn (m + 1) (by omega) (by omega) (by rw [Nat.add_comm]; exact hnone)
  · intro h1
    have hm0 : m = 0 := by
      by_contra hne
      exact hall 0 (by omega) h1
    subst hm0
    simp

/-- C7, witness: with `Sim.Vehicle1`, `Sim.Vehicle2` and `Sim.Vehicle4` stored and
`Sim.Vehicle3` missing, the fleet has exactly 2 vehicles. -/
theorem CreateVehicles_first_gap_witness :
    (gapScenario F32).vehicle 3 = none ∧ (gapScenario F32).vehicle 4 ≠ none ∧
    ∃ fleet, CreateVehicles (unitOps F32) (gapScenario F32) = some fleet ∧ fleet.length = 2 := by
  obtain ⟨fleet, h, hlt, -, -, hmax, -⟩ := CreateVehicles_first_gap (unitOps F32)
    (gapScenario F32) 3 (by decide) (by decide) (by simp [gapScenario])
  refine ⟨by simp [gapScenario], by simp [gapScenario], fleet, h, ?_⟩
  have h2 : 2 ≤ fleet.length := by
    apply hmax
    intro k hk1 hk2
    have : k = 1 ∨ k = 2 := by omega
    rcases this with rfl | rfl <;> simp [gapScenario]
  omega

/-! ## The reset (C8) and its condition (C9) -/

/-- C8.  `ResetSimulation` ends with `simulationTime = 0`, `randomNumCarry = -1` and
`receivedResetRequest = false`, from every state; so right after a reset
`simulationTime = 0` comes with `randomNumCarry = -1`. -/
theorem reset_time_and_carry (ops : VehicleOps K V) (file : Config K) (s : State K V) :
    (ResetSimulation ops file s).simulationTime = 0 ∧
    (ResetSimulation ops file s).randomNumCarry = -1 ∧
    (ResetSimulation ops file s).receivedResetRequest = false ∧
    ((ResetSimulation ops file s).simulationTime = 0 →
      (ResetSimulation ops file s).randomNumCarry = -1) := by
  have h := ResetSimulation_fields ops file s
  exact ⟨h.1, h.2.1, h.2.2.1, fun _ => h.2.1⟩

/-- C9.  In a tick that completes, the reset runs (the `int` session counter is incremented)
exactly when, at the top of the tick, a request is pending or the run mode is `Repeat`
ignoring case, `Sim.EndTime` is positive and `simulationTime` has reached it; otherwise the
counter is unchanged.  With no request pending, a run mode that is missing or is not `Repeat`,
or an end time that is missing or not positive, gives no reset.  The comparisons are those of
binary32. -/
theorem reset_iff_condition (sqrt : F32 → F32) (ops : VehicleOps F32 V) (inp : TickInput F32)
    (s : State F32 V)
    (hcompletes : ¬ (inp.elapsedSeconds > 0.030 ∧ s.mlNode = true ∧ s.quads = [])) :
    ∃ s', OnTimer sqrt ops inp s = some s' ∧
      (s'._simCount = wrapInt (s._simCount + 1) ↔
        (s.receivedResetRequest = true ∨
          (ToUpper (Config.Get s.config.runMode "Continuous") = ToUpper "Repeat" ∧
            Config.Get s.config.endTime (-1) > 0 ∧
            s.simulationTime ≥ Config.Get s.config.endTime (-1)))) ∧
      (s'._simCount = wrapInt (s._simCount + 1) ∨ s'._simCount = s._simCount) ∧
      (-2147483648 ≤ s._simCount → s._simCount < 2147483647 →
        wrapInt (s._simCount + 1) = s._simCount + 1) ∧
      (s.receivedResetRequest = false → s.config.runMode = none →
        s'._simCount = s._simCount) ∧
      (s.receivedResetRequest = false →
        (∀ mode, s.config.runMode = some mode → ToUpper mode ≠ ToUpper "Repeat") →
        s'._simCount = s._simCount) ∧
      (s.receivedResetRequest = false → s.config.endTime = none →
        s'._simCount = s._simCount) ∧
      (s.receivedResetRequest = false →
        (∀ e, s.config.endTime = some e → e ≤ 0) → s'._simCount = s._simCount) := by
  obtain ⟨s', e, a⟩ := OnTimer_fields sqrt ops inp s hcompletes
  have hcount : s'._simCount
      = (if resetCondition s then wrapInt (s._simCount + 1) else s._simCount) := by
    rw [a.2.1, (sessionStep_fields sqrt ops inp s).2.1]
  have hne : s._simCount ≠ wrapInt (s._simCount + 1) := by
    unfold wrapInt
    omega
  have hiff := resetCondition_iff s
  have hno : resetCondition s = false → s'._simCount = s._simCount := by
    intro h; rw [hcount, h]; simp
  have hfalse : ∀ {p : Prop}, (resetCondition s = true ↔ p) → ¬ p →
      resetCondition s = false := by
    intro p hp hnp
    cases hc : resetCondition s with
    | false => rfl
    | true => exact absurd (hp.mp hc) hnp
  refine ⟨s', e, ?_, ?_, ?_, ?_, ?_, ?_, ?_⟩
  · rw [← hiff, hcount]
    cases resetCondition s <;> simp [hne]
  · rw [hcount]
    cases resetCondition s <;> simp
  · intro h1 h2
    exact wrapInt_of_range _ (by omega) (by omega)
  · intro hr hm
    apply hno; apply hfalse hiff
    rintro (h | ⟨h, -, -⟩)
    · rw [hr] at h; cases h
    · rw [hm] at h; exact ToUpper_Continuous h
  · intro hr hm
    apply hno; apply hfalse hiff
    rintro (h | ⟨h, -, -⟩)
    · rw [hr] at h; cases h
    · cases hmode : s.config.runMode with
      | none => rw [hmode] at h; exact ToUpper_Continuous h
      | some mode => rw [hmode] at h; exact hm mode hmode h
  · intro hr he
    apply hno; apply hfalse hiff
    rintro (h | ⟨-, h, -⟩)
    · rw [hr] at h; cases h
    · rw [he] at h
      exact absurd h (by decide!)
  · intro hr he
    apply hno; apply hfalse hiff
    rintro (h | ⟨-, h, -⟩)
    · rw [hr] at h; cases h
    · cases hend : s.config.endTime with
      | none => rw [hend] at h; exact absurd h (by decide!)
      | some e => rw [hend] at h; exact F32.not_lt_of_le _ _ (he e hend) h

/-- C9, witness: run mode `repeat` in lower case, end time 1, clock at 1, no request: the
tick resets. -/
theorem reset_iff_condition_witness :
    ∃ s', OnTimer F32.sqrt (unitOps F32)
        (quietTick noKeys (scenario F32 none (some 1) (some "repeat")))
        (session false false 0.005 1 (scenario F32 none (some 1) (some "repeat"))) = some s' ∧
      s'._simCount = 2 := by
  obtain ⟨s', h, hiff, -⟩ := reset_iff_condition F32.sqrt (unitOps F32)
    (quietTick noKeys (scenario F32 none (some 1) (some "repeat")))
    (session false false 0.005 1 (scenario F32 none (some 1) (some "repeat")))
    (by simp [session])
  refine ⟨s', h, ?_⟩
  have := hiff.mpr (Or.inr ⟨by decide, by decide!, by decide!⟩)
  rw [this]
  decide

/-! ## The force ceiling (C10) -/

/-- C11.  When none of the six force keys (LEFT, UP, RIGHT, DOWN, `w`/`W`, `s`/`S`) is down,
`KeyboardInteraction` leaves `force` equal to the zero vector `(+0, +0, +0)` of binary32,
whatever the incoming force and whatever the square-root function computes. -/
theorem no_force_key_zero_force (sqrt : F32 → F32) (keys : Keys) (s : State F32 V)
    (hleft : keys.IsSpecialKeyDown .GLUT_KEY_LEFT = false)
    (hup : keys.IsSpecialKeyDown .GLUT_KEY_UP = false)
    (hright : keys.IsSpecialKeyDown .GLUT_KEY_RIGHT = false)
    (hdown : keys.IsSpecialKeyDown .GLUT_KEY_DOWN = false)
    (hw : keys.IsKeyDown 'w' = false ∧ keys.IsKeyDown 'W' = false)
    (hs : keys.IsKeyDown 's' = false ∧ keys.IsKeyDown 'S' = false) :
    (KeyboardInteraction sqrt keys s).force = V3F.zero := by
  rw [(KeyboardInteraction_commands sqrt keys s).2.2.2.2]
  exact keyboardForce_noKey sqrt keys s.force
    (by simp [forceKeyDown, hleft, hup, hright, hdown, hw, hs])

/-- C11, witness: no key down, incoming force `(1, 2, 3)`. -/
theorem no_force_key_zero_force_witness :
    (KeyboardInteraction F32.sqrt noKeys
      { session false false 0.005 0 (scenario F32 none none none) with
        force := ⟨1, 2, 3⟩ }).force = V3F.zero :=
  no_force_key_zero_force F32.sqrt noKeys _ rfl rfl rfl rfl ⟨rfl, rfl⟩ ⟨rfl, rfl⟩

/-! ## The telemetry sequence (C12) -/

/-- C12.  A tick with a non-empty fleet completes.  When a telemetry node is attached and the
throttle window has elapsed (more than 0.030 s), the packets it sends are exactly Heartbeat,
Status, LocalPose and Attitude, in that order, the last two carrying the clock at the end of
the tick (after the sub-steps) and the position, velocity, attitude and angular rate of the
first vehicle of the fleet at the end of the tick; otherwise it sends no packet. -/
theorem telemetry_sequence (sqrt : K → K) (ops : VehicleOps K V) (inp : TickInput K)
    (s : State K V) (hfleet : s.quads ≠ []) :
    ∃ s' evs q0, OnTimer sqrt ops inp s = some s' ∧ s'.log = s.log ++ evs ∧
      s'.quads.head? = some q0 ∧
      s'.simulationTime =
        (if s.paused then (stepStart ops inp s).simulationTime
         else clockAfter (stepStart ops inp s).dtSim NUM_SIM_STEPS_PER_TIMER
          (stepStart ops inp s).simulationTime) ∧
      (s.mlNode = true ∧ inp.elapsedSeconds > 0.030 →
        sentPackets evs =
          [Packet.Heartbeat, Packet.Status,
           Packet.LocalPose s'.simulationTime (ops.Position q0) (ops.Velocity q0),
           Packet.Attitude s'.simulationTime (ops.Attitude q0) (ops.Omega q0)]) ∧
      (¬ (s.mlNode = true ∧ inp.elapsedSeconds > 0.030) → sentPackets evs = []) := by
  obtain ⟨s', ho, hlog, -, -, ht, -, hml, hlen, -⟩ := OnTimer_record sqrt ops inp s
    (fun hc => hfleet hc.2.2)
  have hne : s'.quads ≠ [] := by
    intro h0
    apply hfleet
    apply List.eq_nil_of_length_eq_zero
    rw [← hlen, h0]; rfl
  obtain ⟨q0, rest, hq⟩ := List.exists_cons_of_ne_nil hne
  have hrun := steppedRuns_calls ops (stepStart ops inp s).dtSim
    (stepStart ops inp s).simulationTime s.force s.moment (stepStart ops inp s).quads
    (stepStart ops inp s).randomNumCarry
  have hth := (throttledEvents_calls ops s').2.2
  rw [hq, hml] at hth
  have hsent : sentPackets
      ((if resetCondition s then resetEvents K (wrapInt (s._simCount + 1)) s.quads.length else [])
        ++ [Event.onMainTimer]
        ++ (if s.paused then []
            else (steppedRuns ops (stepStart ops inp s).dtSim
                (stepStart ops inp s).simulationTime s.force s.moment (stepStart ops inp s).quads
                (stepStart ops inp s).randomNumCarry).2.2
              ++ [Event.updateData (clockAfter (stepStart ops inp s).dtSim
                    NUM_SIM_STEPS_PER_TIMER (stepStart ops inp s).simulationTime)])
        ++ keyboardEvents K inp.keys
        ++ (if inp.elapsedSeconds > 0.030 then throttledEvents ops s' else [])
        ++ [Event.timerFunc 5])
      = sentPackets (if inp.elapsedSeconds > 0.030 then throttledEvents ops s' else []) := by
    simp only [sentPackets_append]
    have h1 : sentPackets (if resetCondition s then
        resetEvents K (wrapInt (s._simCount + 1)) s.quads.length else []) = [] := by
      split_ifs
      · exact (resetEvents_calls _ _).1
      · rfl
    have h2 : sentPackets (if s.paused then []
        else (steppedRuns ops (stepStart ops inp s).dtSim
            (stepStart ops inp s).simulationTime s.force s.moment (stepStart ops inp s).quads
            (stepStart ops inp s).randomNumCarry).2.2
          ++ [Event.updateData (clockAfter (stepStart ops inp s).dtSim
                NUM_SIM_STEPS_PER_TIMER (stepStart ops inp s).simulationTime)]) = [] := by
      split_ifs
      · rfl
      · rw [sentPackets_append, hrun.2.1]; rfl
    rw [h1, h2, (keyboardEvents_calls inp.keys).1]
    simp [sentPackets]
  refine ⟨s', _, q0, ho, hlog, by rw [hq]; rfl, ht, ?_, ?_⟩
  · rintro ⟨hm, he⟩
    rw [hsent, if_pos he, hth, hm]
    rfl
  · intro hn
    rw [hsent]
    by_cases he : inp.elapsedSeconds > 0.030
    · have hm : s.mlNode = false := by
        cases hm : s.mlNode with
        | false => rfl
        | true => exact absurd ⟨hm, he⟩ hn
      rw [if_pos he, hth, hm]
      rfl
    · rw [if_neg he]; rfl

/-- C12, witness: one vehicle, a telemetry node attached, the window elapsed; the packets
carry the clock after the five sub-steps of 0.005 from 0, the `float` 0.024999999. -/
theorem telemetry_sequence_witness :
    ∃ s' evs q0,
      OnTimer F32.sqrt (unitOps F32) (drawTick noKeys (scenario F32 none none none))
        (nodeSession F32) = some s' ∧
      s'.log = (nodeSession F32).log ++ evs ∧
      s'.simulationTime = 0.024999999 ∧
      sentPackets evs =
        [Packet.Heartbeat, Packet.Status,
         Packet.LocalPose s'.simulationTime ((unitOps F32).Position q0) ((unitOps F32).Velocity q0),
         Packet.Attitude s'.simulationTime ((unitOps F32).Attitude q0)
           ((unitOps F32).Omega q0)] := by
  obtain ⟨s', evs, q0, h1, h2, -, h4, h5, -⟩ := telemetry_sequence F32.sqrt (unitOps F32)
    (drawTick noKeys (scenario F32 none none none)) (nodeSession F32)
    (by simp [nodeSession, session])
  refine ⟨s', evs, q0, h1, h2, ?_, h5 ⟨rfl, by norm_num [drawTick]⟩⟩
  rw [h4]
  decide!

/-! ## A reset request takes effect at the top of the next tick (C13) -/

/-- C13.  Sampling the reset key down does not touch `simulationTime`, `randomNumCarry` or
`_simCount`, and raises `receivedResetRequest`.  So a tick in whose sample `r` or `R` is down
ends with the clock, the carry and the counter that its reset check and its stepping produced,
and with the request pending; the next tick meets the reset condition, raises `_simCount` by
one (in `int` arithmetic), and records the calls of `ResetSimulation` before anything else;
its step calls, if it
is not paused, are those of `steppedRuns` from the reset state: clock 0, carry -1, the
reloaded timestep and the vehicles after their `Reset`. -/
theorem reset_request_next_tick (sqrt : K → K) (ops : VehicleOps K V) (t1 t2 : TickInput K)
    (s : State K V)
    (hkey : t1.keys.IsKeyDown 'r' = true ∨ t1.keys.IsKeyDown 'R' = true)
    (hfleet : s.mlNode = false ∨ s.quads ≠ []) :
    (∀ u : State K V,
      (KeyboardInteraction sqrt t1.keys u).simulationTime = u.simulationTime ∧
      (KeyboardInteraction sqrt t1.keys u).randomNumCarry = u.randomNumCarry ∧
      (KeyboardInteraction sqrt t1.keys u)._simCount = u._simCount ∧
      (KeyboardInteraction sqrt t1.keys u).receivedResetRequest = true) ∧
    ∃ s1 s2 rest, OnTimer sqrt ops t1 s = some s1 ∧
      s1.simulationTime =
        (if s.paused then (stepStart ops t1 s).simulationTime
         else clockAfter (stepStart ops t1 s).dtSim NUM_SIM_STEPS_PER_TIMER
          (stepStart ops t1 s).simulationTime) ∧
      s1.randomNumCarry =
        (if s.paused then (stepStart ops t1 s).randomNumCarry
         else (steppedRuns ops (stepStart ops t1 s).dtSim (stepStart ops t1 s).simulationTime
              s.force s.moment (stepStart ops t1 s).quads
              (stepStart ops t1 s).randomNumCarry).2.1) ∧
      s1._simCount = (stepStart ops t1 s)._simCount ∧
      s1.receivedResetRequest = true ∧
      resetCondition s1 = true ∧
      OnTimer sqrt ops t2 s1 = some s2 ∧
      s2._simCount = wrapInt (s1._simCount + 1) ∧
      s2.log = s1.log ++ resetEvents K (wrapInt (s1._simCount + 1)) s1.quads.length ++ rest ∧
      runCalls (resetEvents K (wrapInt (s1._simCount + 1)) s1.quads.length) = [] ∧
      runCalls rest =
        (if s1.paused then []
         else (steppedRuns ops (Config.Get t2.file.timestep 0.005) 0 s1.force s1.moment
              (s1.quads.map ops.Reset) (-1)).2.2) := by
  constructor
  · intro u
    have hf := KeyboardInteraction_frame sqrt t1.keys u
    have hc := KeyboardInteraction_commands sqrt t1.keys u
    refine ⟨hf.1, hf.2.2.1, hf.2.2.2.1, ?_⟩
    rw [hc.1]
    rcases hkey with h | h <;> simp [h]
  · have hcompl1 : ¬ (t1.elapsedSeconds > 0.030 ∧ s.mlNode = true ∧ s.quads = []) := by
      rintro ⟨-, h1, h2⟩
      rcases hfleet with h | h
      · rw [h] at h1; cases h1
      · exact h h2
    obtain ⟨s1, e1, -, -, hc1, ht1, hn1, hml1, hlen1, -, hreq1, -⟩ :=
      OnTimer_record sqrt ops t1 s hcompl1
    have hreq : s1.receivedResetRequest = true := by
      rw [hreq1]; rcases hkey with h | h <;> simp [h]
    have hcond : resetCondition s1 = true := resetCondition_of_request s1 hreq
    have hcompl2 : ¬ (t2.elapsedSeconds > 0.030 ∧ s1.mlNode = true ∧ s1.quads = []) := by
      rintro ⟨-, h1, h2⟩
      rcases hfleet with h | h
      · rw [hml1, h] at h1; cases h1
      · apply h
        apply List.eq_nil_of_length_eq_zero
        rw [← hlen1, h2]; rfl
    obtain ⟨s2, e2, hlog2, -, -, -, hn2, -⟩ := OnTimer_record sqrt ops t2 s1 hcompl2
    have ha := stepStart_fields ops t2 s1
    simp only [hcond, if_true] at ha hlog2
    have hparts := runCalls_parts ops false (0 : Int) 0 (t2.elapsedSeconds > 0.030) s2
    have hcalls := runCalls_tick []
      (steppedRuns ops (stepStart ops t2 s1).dtSim (stepStart ops t2 s1).simulationTime
        s1.force s1.moment (stepStart ops t2 s1).quads (stepStart ops t2 s1).randomNumCarry).2.2
      (if t2.elapsedSeconds > 0.030 then throttledEvents ops s2 else [])
      (clockAfter (stepStart ops t2 s1).dtSim NUM_SIM_STEPS_PER_TIMER
        (stepStart ops t2 s1).simulationTime)
      t2.keys s1.paused rfl (steppedRuns_calls ops _ _ _ _ _ _).1 hparts.2
    refine ⟨s1, s2,
      [Event.onMainTimer]
        ++ (if s1.paused then []
            else (steppedRuns ops (stepStart ops t2 s1).dtSim
                (stepStart ops t2 s1).simulationTime s1.force s1.moment (stepStart ops t2 s1).quads
                (stepStart ops t2 s1).randomNumCarry).2.2
              ++ [Event.updateData (clockAfter (stepStart ops t2 s1).dtSim
                    NUM_SIM_STEPS_PER_TIMER (stepStart ops t2 s1).simulationTime)])
        ++ keyboardEvents K t2.keys
        ++ (if t2.elapsedSeconds > 0.030 then throttledEvents ops s2 else [])
        ++ [Event.timerFunc 5],
      e1, ht1, hc1, hn1, hreq, hcond, e2, ?_, ?_, (resetEvents_calls _ _).2.1, ?_⟩
    · rw [hn2, ha.2.2.2.2.2.2.2.2.2.2]
    · rw [hlog2]
      simp only [List.append_assoc]
    · simp only [List.nil_append] at hcalls
      rw [hcalls, ha.2.1, ha.2.2.1, ha.2.2.2.1, ha.2.2.2.2.1]

/-- C13, witness: `r` is down in the sample of a tick of an unpaused session at time 1 with
timestep 0.005; that tick ends at 1.025 with the counter unchanged and the request pending,
and the next tick runs the reset. -/
theorem reset_request_next_tick_witness :
    ∃ s1 s2, OnTimer F32.sqrt (unitOps F32) (quietTick (onlyKey 'r') (scenario F32 none none none))
        (session false false 0.005 1 (scenario F32 none none none)) = some s1 ∧
      s1.simulationTime = 1.025 ∧ s1._simCount = 1 ∧
      s1.receivedResetRequest = true ∧
      OnTimer F32.sqrt (unitOps F32) (quietTick noKeys (scenario F32 none none none)) s1
        = some s2 ∧
      s2._simCount = 2 := by
  obtain ⟨-, s1, s2, rest, h1, h2, -, h4, h5, -, h7, h8, -⟩ :=
    reset_request_next_tick F32.sqrt (unitOps F32)
      (quietTick (onlyKey 'r') (scenario F32 none none none))
      (quietTick noKeys (scenario F32 none none none))
      (session false false 0.005 1 (scenario F32 none none none))
      (Or.inl (by simp [quietTick, onlyKey])) (Or.inl rfl)
  have hc : resetCondition (session false false (0.005 : F32) 1 (scenario F32 none none none))
      = false := by decide!
  have hst : stepStart (unitOps F32) (quietTick (onlyKey 'r') (scenario F32 none none none))
      (session false false 0.005 1 (scenario F32 none none none))
      = session false false 0.005 1 (scenario F32 none none none) := by
    simp [stepStart, hc]
  rw [hst] at h2 h4
  have h4' : s1._simCount = 1 := by rw [h4]; rfl
  refine ⟨s1, s2, h1, ?_, h4', h5, h7, ?_⟩
  · rw [h2]; decide!
  · rw [h8, h4']; decide

/-! ## The fleet across a reset (C14) -/

/-- C14.  `ResetSimulation` does not rebuild the fleet: the fleet after it is the fleet before
it with `Reset` applied to each vehicle in place (same length, same order); the record gains
exactly one `Reset` call per vehicle, in registry order; and the fleet after the reset does
not depend on the vehicle factory nor on the vehicle keys of the scenario file. -/
theorem reset_keeps_fleet (ops : VehicleOps K V) (file : Config K) (s : State K V) :
    (ResetSimulation ops file s).quads = s.quads.map ops.Reset ∧
    (ResetSimulation ops file s).quads.length = s.quads.length ∧
    (∀ i : Nat, (ResetSimulation ops file s).quads[i]? = (s.quads[i]?).map ops.Reset) ∧
    (∃ evs, (ResetSimulation ops file s).log = s.log ++ evs ∧
      resetCalls evs = List.range s.quads.length) ∧
    (∀ (create : String → Nat → V) (vehicle : Nat → Option String),
      (ResetSimulation { ops with Create := create } { file with vehicle := vehicle } s).quads
        = (ResetSimulation ops file s).quads) := by
  have h := ResetSimulation_log ops file s
  refine ⟨h.1, by rw [h.1, List.length_map], fun i => by rw [h.1, List.getElem?_map],
    ⟨_, h.2, (resetEvents_calls _ _).2.2⟩, fun create vehicle => ?_⟩
  rw [h.1, (ResetSimulation_log _ _ s).1]

/-! ## A paused tick (C15) -/

/-- C15.  A scenario file that names no vehicle and enables telemetry is loaded from the
initial globals, and the space key is pressed in the first tick, before the throttle window
has elapsed: the session is paused, with an empty fleet and the telemetry node attached.  The
next tick starts paused and no reset fires in it.  Up to line 179 it does what a paused tick
does: no vehicle step call is recorded, and the fleet, `simulationTime` and `randomNumCarry`
are unchanged.  Its throttle window has elapsed, and the throttled update reads `quads[0]`
outside the vector: the update has no result, and neither has the tick. -/
theorem paused_tick_emptyFleet_telemetry_fails :
    ∃ s0 s1, LoadScenario (unitOps F32) (telemetryScenario F32) (initialState F32 Unit) = some s0 ∧
      OnTimer F32.sqrt (unitOps F32) (quietTick (onlyKey ' ') (telemetryScenario F32)) s0
        = some s1 ∧
      s1.paused = true ∧ resetCondition s1 = false ∧ s1.quads = [] ∧ s1.mlNode = true ∧
      (drawTick noKeys (telemetryScenario F32)).elapsedSeconds > 0.030 ∧
      runCalls [Event.onMainTimer (K := F32)] = [] ∧
      (sessionStep F32.sqrt (unitOps F32) (drawTick noKeys (telemetryScenario F32)) s1).log
        = s1.log ++ [Event.onMainTimer] ∧
      (sessionStep F32.sqrt (unitOps F32) (drawTick noKeys (telemetryScenario F32)) s1).quads
        = s1.quads ∧
      (sessionStep F32.sqrt (unitOps F32)
        (drawTick noKeys (telemetryScenario F32)) s1).simulationTime = s1.simulationTime ∧
      (sessionStep F32.sqrt (unitOps F32)
        (drawTick noKeys (telemetryScenario F32)) s1).randomNumCarry = s1.randomNumCarry ∧
      throttledUpdate (unitOps F32)
        (sessionStep F32.sqrt (unitOps F32) (drawTick noKeys (telemetryScenario F32)) s1)
        = none ∧
      OnTimer F32.sqrt (unitOps F32) (drawTick noKeys (telemetryScenario F32)) s1 = none := by
  obtain ⟨fleet, s0, hfleet, hload, -, -, hreq0, -, hcfg0, -, hp0, hk0, hlen, hml⟩ :=
    LoadScenario_spec (unitOps F32) (telemetryScenario F32) (initialState F32 Unit) 1 1
      (by decide) (by decide) rfl (by decide) (by decide) rfl
  obtain ⟨m, hm, -, -, hloop⟩ := CreateVehiclesLoop_spec (unitOps F32) (telemetryScenario F32)
    INT_MAX 1 [] 0 rfl (by decide)
  have hm0 : m = 0 := by omega
  subst hm0
  have hnil : fleet = [] := by
    have h : some fleet = some [] := by rw [← hfleet]; exact hloop
    exact Option.some.inj h
  have hq0 : s0.quads = [] := by
    apply List.eq_nil_of_length_eq_zero
    rw [hlen, hnil]; rfl
  have hm0 : s0.mlNode = true := by rw [hml]; rfl
  have hup : (ToUpper "Continuous" == "REPEAT") = false := by decide
  have hc0 : resetCondition s0 = false := by
    simp [resetCondition, hreq0, hcfg0, telemetryScenario, Config.Get, hup]
  obtain ⟨s1, e1, a⟩ := OnTimer_fields F32.sqrt (unitOps F32)
    (quietTick (onlyKey ' ') (telemetryScenario F32)) s0
    (by norm_num [quietTick])
  have hsc := sessionStep_commands F32.sqrt (unitOps F32)
    (quietTick (onlyKey ' ') (telemetryScenario F32)) s0
  have hsf := sessionStep_fields F32.sqrt (unitOps F32)
    (quietTick (onlyKey ' ') (telemetryScenario F32)) s0
  have hp1 : s1.paused = true := by
    rw [a.2.2.2.2.2.2.2.1, hsc.2.1, hk0, hp0]
    rfl
  have hq1 : s1.quads = [] := by
    apply List.eq_nil_of_length_eq_zero
    rw [a.2.2.2.1, hq0]; rfl
  have hm1 : s1.mlNode = true := by rw [a.2.2.1, hm0]
  have hc1 : resetCondition s1 = false := by
    have hr1 : s1.receivedResetRequest = false := by
      rw [a.2.2.2.2.2.2.1, hsc.1]; rfl
    have hcfg1 : s1.config = telemetryScenario F32 := by
      rw [a.2.2.2.2.2.1, hsf.2.2.2.2.2, hc0]
      exact hcfg0
    simp [resetCondition, hr1, hcfg1, telemetryScenario, Config.Get, hup]
  have hel : (drawTick noKeys (telemetryScenario F32)).elapsedSeconds > 0.030 := by
    norm_num [drawTick]
  obtain ⟨b1, -, b3, b4, b5, -⟩ := paused_sessionStep F32.sqrt (unitOps F32)
    (drawTick noKeys (telemetryScenario F32)) s1 hp1 hc1
  have hu : throttledUpdate (unitOps F32)
      (sessionStep F32.sqrt (unitOps F32) (drawTick noKeys (telemetryScenario F32)) s1)
      = none := by
    apply throttledUpdate_none
    · rw [(sessionStep_fields F32.sqrt (unitOps F32)
        (drawTick noKeys (telemetryScenario F32)) s1).2.2.1, hm1]
    · rw [b3, hq1]
  refine ⟨s0, s1, hload, e1, hp1, hc1, hq1, hm1, hel, rfl, ?_, b3, b4, b5, hu,
    OnTimer_none F32.sqrt (unitOps F32) _ _ ⟨hel, hm1, hq1⟩⟩
  rw [b1]
  rfl

/-! ## Index and type name of each created vehicle (C16) -/

/-- C16.  When `CreateVehicles` returns a fleet, its `k`-th vehicle (0-based) was created with
index argument `k` and with the type name stored under `Sim.Vehicle<k+1>`. -/
theorem CreateVehicles_index_and_name (ops : VehicleOps K V) (config : Config K)
    (fleet : List V) (hfleet : CreateVehicles ops config = some fleet) (k : Nat)
    (hk : k < fleet.length) :
    ∃ name, config.vehicle (k + 1) = some name ∧ fleet[k]? = some (ops.Create name k) := by
  obtain ⟨m, hall, hres⟩ := CreateVehiclesLoop_result ops config INT_MAX 1 [] fleet hfleet
  have hlen : fleet.length = m := by rw [hres]; simp
  obtain ⟨name, hname⟩ := hall k (by omega)
  refine ⟨name, by rw [Nat.add_comm]; exact hname, ?_⟩
  rw [hres]
  simp only [List.nil_append, List.length_nil, Nat.zero_add]
  rw [List.getElem?_map, List.getElem?_range (by omega)]
  simp [hname, Config.Get]

/-- C16, witness: with `Sim.Vehicle1 = QuadA` and `Sim.Vehicle2 = QuadB`, the second vehicle of
the fleet was created from the name `QuadB` with index 1. -/
theorem CreateVehicles_index_and_name_witness :
    ∃ fleet, CreateVehicles (recordOps F32) (namedScenario F32) = some fleet ∧
      fleet.length = 2 ∧ fleet[1]? = some ("QuadB", 1, 0, 0) := by
  obtain ⟨m, hm, hall, hnone, hloop⟩ := CreateVehiclesLoop_spec (recordOps F32) (namedScenario F32)
    INT_MAX 1 [] 2 (by simp [namedScenario]) (by decide)
  have hm2 : m = 2 := by
    have h0 : m ≠ 0 := by rintro rfl; simp [namedScenario] at hnone
    have h1 : m ≠ 1 := by rintro rfl; simp [namedScenario] at hnone
    omega
  subst hm2
  have hlen : ([] ++ (List.range 2).map (fun k =>
      (recordOps F32).Create (Config.Get ((namedScenario F32).vehicle (1 + k)) "Quad")
        (([] : List (String × Nat × Nat × Nat)).length + k))).length = 2 := by simp
  obtain ⟨name, hname, hget⟩ := CreateVehicles_index_and_name (recordOps F32) (namedScenario F32)
    _ hloop 1 (by rw [hlen]; decide)
  refine ⟨_, hloop, hlen, ?_⟩
  rw [hget]
  have : name = "QuadB" := by
    have h : (namedScenario F32).vehicle 2 = some "QuadB" := by simp [namedScenario]
    rw [show (1 + 1 : Nat) = 2 from rfl, h] at hname
    exact (Option.some.inj hname).symm
  rw [this]; rfl

/-! ## The step calls of a tick (C17) -/

/-- C17 (amended).  In an unpaused tick that completes, with `t0`, `dt`, the fleet and the carry
taken at the start of stepping (after the reset of that tick, if any) and the force and moment
left by the previous input sample: the vehicle step calls of the tick are exactly those of
`steppedRuns` — for `k = 0 .. 4` in order, for each vehicle `j` in registry order,
`Run(vehicle j, dt, t, carry, force, moment)` with the carry threaded from call to call and
`t` the `float` reached from `t0` by `k` successive additions of `dt` (`t0`, `t0 + dt`,
`(t0 + dt) + dt`, …) — and the fleet and the carry at the end of the tick are the ones those
calls return. -/
theorem step_calls (sqrt : K → K) (ops : VehicleOps K V) (inp : TickInput K) (s : State K V)
    (hpaused : s.paused = false)
    (hcompletes : ¬ (inp.elapsedSeconds > 0.030 ∧ s.mlNode = true ∧ s.quads = [])) :
    ∃ s' evs, OnTimer sqrt ops inp s = some s' ∧ s'.log = s.log ++ evs ∧
      runCalls evs =
        (steppedRuns ops (stepStart ops inp s).dtSim (stepStart ops inp s).simulationTime
          s.force s.moment (stepStart ops inp s).quads (stepStart ops inp s).randomNumCarry).2.2 ∧
      s'.quads =
        (steppedRuns ops (stepStart ops inp s).dtSim (stepStart ops inp s).simulationTime
          s.force s.moment (stepStart ops inp s).quads (stepStart ops inp s).randomNumCarry).1 ∧
      s'.randomNumCarry =
        (steppedRuns ops (stepStart ops inp s).dtSim (stepStart ops inp s).simulationTime
          s.force s.moment (stepStart ops inp s).quads
          (stepStart ops inp s).randomNumCarry).2.1 ∧
      (runCalls evs).filterMap runArguments =
        (List.range NUM_SIM_STEPS_PER_TIMER).flatMap (fun k =>
          (List.range s.quads.length).map (fun j =>
            (j, (stepStart ops inp s).dtSim,
              clockAfter (stepStart ops inp s).dtSim k (stepStart ops inp s).simulationTime,
              s.force, s.moment))) ∧
      clockAfter (stepStart ops inp s).dtSim 0 (stepStart ops inp s).simulationTime
        = (stepStart ops inp s).simulationTime ∧
      (∀ k, clockAfter (stepStart ops inp s).dtSim (k + 1) (stepStart ops inp s).simulationTime
        = clockAfter (stepStart ops inp s).dtSim k (stepStart ops inp s).simulationTime
          + (stepStart ops inp s).dtSim) := by
  obtain ⟨s', evs, h1, h2, h3, h4, h5, h6⟩ := OnTimer_stepCalls sqrt ops inp s hpaused hcompletes
  exact ⟨s', evs, h1, h2, h3, h4, h5, h6, rfl, fun k => clockAfter_succ _ k _⟩

/-- C17, witness: an unpaused session with two vehicles whose `Run` adds one to the carry,
timestep 0.005, clock at 1, carry 7, force `(0, 0, -0.04)`: ten step calls, vehicle 0 then
vehicle 1 at each of the times 1, 1.005, 1.010, 1.015 and 1.020, the carry running from 7 to
16. -/
theorem step_calls_witness :
    ∃ s' evs, OnTimer F32.sqrt (recordOps F32) (quietTick noKeys (namedScenario F32))
        (recordSession F32) = some s' ∧
      s'.log = (recordSession F32).log ++ evs ∧
      s'.randomNumCarry = 17 ∧
      runCalls evs =
        [Event.quadRun 0 0.005 1 7 ⟨0, 0, -0.04⟩ V3F.zero,
         Event.quadRun 1 0.005 1 8 ⟨0, 0, -0.04⟩ V3F.zero,
         Event.quadRun 0 0.005 1.005 9 ⟨0, 0, -0.04⟩ V3F.zero,
         Event.quadRun 1 0.005 1.005 10 ⟨0, 0, -0.04⟩ V3F.zero,
         Event.quadRun 0 0.005 1.010 11 ⟨0, 0, -0.04⟩ V3F.zero,
         Event.quadRun 1 0.005 1.010 12 ⟨0, 0, -0.04⟩ V3F.zero,
         Event.quadRun 0 0.005 1.015 13 ⟨0, 0, -0.04⟩ V3F.zero,
         Event.quadRun 1 0.005 1.015 14 ⟨0, 0, -0.04⟩ V3F.zero,
         Event.quadRun 0 0.005 1.020 15 ⟨0, 0, -0.04⟩ V3F.zero,
         Event.quadRun 1 0.005 1.020 16 ⟨0, 0, -0.04⟩ V3F.zero] := by
  obtain ⟨s', evs, h1, h2, h3, -, h5, -⟩ := step_calls F32.sqrt (recordOps F32)
    (quietTick noKeys (namedScenario F32)) (recordSession F32) rfl
    (by simp [recordSession])
  refine ⟨s', evs, h1, h2, ?_, ?_⟩
  · rw [h5]; decide!
  · rw [h3]; decide!

/-- C17, counterexample.  An unpaused session with one vehicle, the clock at 0.5 and the
timestep 0.1 (the `float` nearest to it), no reset due.  The five step calls of the tick run
at the times 0.5, 0.6, 0.70000005, 0.8000001 and 0.9000001, each the rounded sum of the one
before and the timestep.  They are not the calls the specification words: the third call does
not run at `t0 + 2 × dt`, neither evaluated in `float` (0.7) nor exactly (`F32.val`, in units
of `2 ^ (-149)`). -/
theorem step_calls_counterexample :
    ∃ s' evs, OnTimer F32.sqrt (unitOps F32) (quietTick noKeys (scenario F32 none none none))
        (session false false 0.1 0.5 (scenario F32 none none none)) = some s' ∧
      s'.log = (session false false 0.1 0.5 (scenario F32 none none none)).log ++ evs ∧
      (runCalls evs).filterMap runArguments =
        [(0, 0.1, 0.5, V3F.zero, V3F.zero), (0, 0.1, 0.6, V3F.zero, V3F.zero),
         (0, 0.1, 0.70000005, V3F.zero, V3F.zero), (0, 0.1, 0.8000001, V3F.zero, V3F.zero),
         (0, 0.1, 0.9000001, V3F.zero, V3F.zero)] ∧
      runCalls evs ≠
        (expectedRuns (unitOps F32) 0.1 0.5 V3F.zero V3F.zero [()] (-1)).2.2 ∧
      (0.70000005 : F32) ≠ 0.5 + 2 * 0.1 ∧
      (0.70000005 : F32).val ≠ (0.5 : F32).val + 2 * (0.1 : F32).val := by
  obtain ⟨s', evs, h1, h2, h3, -, -, h6⟩ := OnTimer_stepCalls F32.sqrt (unitOps F32)
    (quietTick noKeys (scenario F32 none none none))
    (session false false 0.1 0.5 (scenario F32 none none none)) rfl (by simp [session])
  refine ⟨s', evs, h1, h2, ?_, ?_, by decide!, by decide!⟩
  · rw [h6]; decide!
  · rw [h3]; decide!

/-! ## The clock and the session counter along a run (C18) -/

/-- C18 (amended).  In binary32, when every timestep loaded at a reset is positive: in every
state reached from a loaded session by a run of ticks `simulationTime ≥ 0`, and the session
counter has not gone down as long as the run is short enough for it to stay within the `int`
range; every further tick that completes leaves `simulationTime ≥ 0` and leaves it at or above
its value before when no reset fires; it leaves `_simCount` as it is when no reset fires and
increments the `int` when the reset fires: by exactly 1 below `INT_MAX`, and from `INT_MAX`
to `-2147483648`. -/
theorem clock_and_counter_monotone (sqrt : F32 → F32) (ops : VehicleOps F32 V)
    (file : Config F32) (init s0 s : State F32 V) (inputs : List (TickInput F32))
    (hload : LoadScenario ops file init = some s0)
    (hfile : 0 < Config.Get file.timestep 0.005)
    (hresets : resetTimestepsPositive sqrt ops inputs s0)
    (hrun : runTicks sqrt ops inputs s0 = some s) :
    0 ≤ s.simulationTime ∧
    (-2147483648 ≤ s0._simCount → s0._simCount + inputs.length ≤ 2147483647 →
      s0._simCount ≤ s._simCount) ∧
    ∀ inp : TickInput F32,
      (resetCondition s = true → 0 < Config.Get inp.file.timestep 0.005) →
      ¬ (inp.elapsedSeconds > 0.030 ∧ s.mlNode = true ∧ s.quads = []) →
      ∃ s', OnTimer sqrt ops inp s = some s' ∧ 0 ≤ s'.simulationTime ∧
        (resetCondition s = false →
          s.simulationTime ≤ s'.simulationTime ∧ s'._simCount = s._simCount) ∧
        (resetCondition s = true →
          s'._simCount = wrapInt (s._simCount + 1) ∧
          (-2147483648 ≤ s._simCount → s._simCount < 2147483647 →
            s'._simCount = s._simCount + 1) ∧
          (s._simCount = 2147483647 → s'._simCount = -2147483648)) := by
  obtain ⟨h0, hdt0, -, -⟩ := LoadScenario_of_some ops file init s0 hload
  have h00 : (0 : F32) ≤ 0 := by decide!
  obtain ⟨ht, hdt, hcount⟩ := runTicks_monotone sqrt ops inputs s0 s hrun (by rw [h0]; exact h00)
    (by rw [hdt0]; exact hfile) hresets
  refine ⟨ht, fun h1 h2 => (hcount h1 h2).1, fun inp hpos hcompl => ?_⟩
  obtain ⟨s', e, -⟩ := OnTimer_fields sqrt ops inp s hcompl
  obtain ⟨a1, -, a3, a4⟩ := tick_monotone sqrt ops inp s s' e ht hdt hpos
  refine ⟨s', e, a1, a3, fun hc => ⟨a4 hc, fun h1 h2 => ?_, fun h => ?_⟩⟩
  · rw [a4 hc, wrapInt_of_range _ (by omega) (by omega)]
  · rw [a4 hc, h]
    decide

/-- C18, witness: the one-vehicle scenario with the default timestep is loaded from the
initial globals and ticked twice with no key down. -/
theorem clock_and_counter_monotone_witness :
    ∃ s0 s, LoadScenario (unitOps F32) (scenario F32 none none none) (initialState F32 Unit)
        = some s0 ∧
      runTicks F32.sqrt (unitOps F32)
        [quietTick noKeys (scenario F32 none none none),
         quietTick noKeys (scenario F32 none none none)] s0 = some s ∧
      0 ≤ s.simulationTime ∧ s0._simCount ≤ s._simCount := by
  obtain ⟨fleet, s0, -, hload, -, -, -, -, -, hcnt, -, -, -, hml⟩ :=
    LoadScenario_spec (unitOps F32) (scenario F32 none none none)
      (initialState F32 Unit) 2 1 (by decide) (by decide) (by simp [scenario])
      (by decide) (by decide) rfl
  have hcnt1 : s0._simCount = 1 := by rw [hcnt]; decide
  have hfl0 : s0.mlNode = false ∨ s0.quads ≠ [] := Or.inl (by rw [hml]; rfl)
  obtain ⟨s1, e1, hfl1, -⟩ := OnTimer_session F32.sqrt (unitOps F32)
    (quietTick noKeys (scenario F32 none none none)) s0 hfl0
  obtain ⟨s2, e2, -, -⟩ := OnTimer_session F32.sqrt (unitOps F32)
    (quietTick noKeys (scenario F32 none none none)) s1 hfl1
  have hrun : runTicks F32.sqrt (unitOps F32)
      [quietTick noKeys (scenario F32 none none none),
       quietTick noKeys (scenario F32 none none none)] s0 = some s2 := by
    simp [runTicks, e1, e2]
  have hpos : ∀ inp ∈ [quietTick noKeys (scenario F32 none none none),
      quietTick noKeys (scenario F32 none none none)],
      (0 : F32) < Config.Get inp.file.timestep 0.005 := by
    intro inp hinp
    simp only [List.mem_cons, List.mem_singleton, List.not_mem_nil, or_false, or_self] at hinp
    rw [hinp]
    decide!
  obtain ⟨h1, h2, -⟩ := clock_and_counter_monotone F32.sqrt (unitOps F32)
    (scenario F32 none none none) (initialState F32 Unit) s0 s2 _ hload
    (by decide!)
    (resetTimestepsPositive_of_all F32.sqrt (unitOps F32) _ hpos s0) hrun
  exact ⟨s0, s2, hload, hrun, h1, h2 (by rw [hcnt1]; decide) (by rw [hcnt1]; decide)⟩

/-- C18, counterexample.  The one-vehicle scenario with the default timestep (0.005 > 0) is
loaded from the initial globals; `_simCount` is 1.  The reset key is held down: every tick
after the first runs a reset.  After 2147483647 ticks `_simCount` is 2147483647, the largest
`int`; the next tick runs a reset and leaves `_simCount` at -2147483648: the counter has
decreased, and it has not increased by 1. -/
theorem clock_and_counter_counterexample :
    ∃ s0 s s', LoadScenario (unitOps F32) (scenario F32 none none none) (initialState F32 Unit)
        = some s0 ∧
      (0 : F32) < Config.Get (scenario F32 none none none).timestep 0.005 ∧
      s0._simCount = 1 ∧
      runTicks F32.sqrt (unitOps F32)
        (List.replicate 2147483647 (quietTick (onlyKey 'r') (scenario F32 none none none))) s0
        = some s ∧
      s._simCount = 2147483647 ∧ resetCondition s = true ∧
      OnTimer F32.sqrt (unitOps F32) (quietTick (onlyKey 'r') (scenario F32 none none none)) s
        = some s' ∧
      s'._simCount = -2147483648 ∧ s'._simCount < s._simCount ∧
      s'._simCount ≠ s._simCount + 1 := by
  obtain ⟨fleet, s0, -, hload, -, -, hreq, -, hcfg, hcnt, -, -, -, hml⟩ :=
    LoadScenario_spec (unitOps F32) (scenario F32 none none none)
      (initialState F32 Unit) 2 1 (by decide) (by decide) (by simp [scenario])
      (by decide) (by decide) rfl
  have hcnt1 : s0._simCount = 1 := by rw [hcnt]; decide
  have hup : (ToUpper "Continuous" == "REPEAT") = false := by decide
  have hc0 : resetCondition s0 = false := by
    simp [resetCondition, hreq, hcfg, scenario, Config.Get, hup]
  obtain ⟨s, e, hcount, hr, hfl⟩ := held_key_ticks F32.sqrt (unitOps F32)
    (quietTick (onlyKey 'r') (scenario F32 none none none)) (Or.inl rfl) s0 hc0
    (Or.inl (by rw [hml]; rfl)) (by rw [hcnt1]; decide) 2147483646
  have hs : s._simCount = 2147483647 := by rw [hcount, hcnt1]; decide
  obtain ⟨s', e', -, a⟩ := OnTimer_session F32.sqrt (unitOps F32)
    (quietTick (onlyKey 'r') (scenario F32 none none none)) s hfl
  have hs' : s'._simCount = -2147483648 := by
    rw [a.2.1, resetCondition_of_request s hr, hs]
    decide
  refine ⟨s0, s, s', hload, by decide!, hcnt1, e, hs, resetCondition_of_request s hr, e', hs',
    ?_, ?_⟩
  · rw [hs, hs']; decide
  · rw [hs, hs']; decide

/-! ## The held-key ramp (C19) -/

/-- C19 (amended).  In binary32, starting from the zero force, after `n` consecutive calls of
`KeyboardInteraction` in each of which exactly one and the same force key is held, the force
lies along the direction of that key and its length, also as `mag()` computes it, is
`heldRamp n`: for `n ≤ 50` the `float` reached from 0 by `n` successive rounded additions of
the step 0.04, which is within `2 ^ (-20)` of `0.04 × n`, and for `n ≥ 51` the ceiling 2,
where it stays. -/
theorem held_key_ramp (key : ForceKey) (samples : List Keys) (s : State F32 V)
    (hzero : s.force = V3F.zero) (hheld : ∀ keys ∈ samples, onlyHeld key keys) :
    (keyboardRun F32.sqrt samples s).force = heldForce key samples.length ∧
    (samples.length ≠ 0 →
      (keyboardRun F32.sqrt samples s).force = key.along (heldRamp samples.length)) ∧
    (keyboardRun F32.sqrt samples s).force.mag F32.sqrt = heldRamp samples.length ∧
    (samples.length ≤ 50 →
      heldRamp samples.length = clockAfter 0.04 samples.length 0 ∧
      25 * (heldRamp samples.length).val - samples.length * 2 ^ 149 < 25 * 2 ^ 129 ∧
      samples.length * 2 ^ 149 - 25 * (heldRamp samples.length).val < 25 * 2 ^ 129) ∧
    (51 ≤ samples.length →
      heldRamp samples.length = 2 ∧ (keyboardRun F32.sqrt samples s).force = key.along 2) := by
  have h := keyboardRun_heldForce key samples s 0 (by rw [hzero]; rfl) hheld
  rw [Nat.zero_add] at h
  refine ⟨h, ?_, ?_, ?_, ?_⟩
  · intro hn
    rw [h]
    unfold heldForce
    rw [if_neg hn]
  · rw [h]
    exact mag_heldForce key _
  · intro hn
    refine ⟨?_, heldRamp_values.2.1 _ hn⟩
    unfold heldRamp
    rw [if_pos hn]
  · intro hn
    have h2 : heldRamp samples.length = 2 := by
      unfold heldRamp
      rw [if_neg (by omega)]
    refine ⟨h2, ?_⟩
    rw [h]
    unfold heldForce
    rw [if_neg (by omega), h2]

/-- C19, witness: UP held for 60 consecutive calls from the zero force; the force is
`(0, 0, -2)`. -/
theorem held_key_ramp_witness :
    (keyboardRun F32.sqrt (List.replicate 60 (onlySpecial .GLUT_KEY_UP))
      (forceSession V3F.zero)).force = ⟨0, 0, -2⟩ := by
  have h := (held_key_ramp ForceKey.up
    (List.replicate 60 (onlySpecial .GLUT_KEY_UP)) (forceSession V3F.zero) rfl
    (by intro keys hk; rw [List.eq_of_mem_replicate hk]; simp [onlyHeld, onlySpecial])).2.2.2.2
    (by simp)
  rw [h.2]
  rfl

/-- C19, counterexample.  UP is held from the zero force.  After 25 calls the force is
`(0, 0, -1.0000001)`: its length is not `min(0.04 × 25, 2) = 1`, whether the product is
evaluated in `float` or exactly.  After 50 calls the force is `(0, 0, -1.9999992)`: the
ceiling `min(0.04 × 50, 2) = 2` has not been reached; it is reached at call 51. -/
theorem held_key_ramp_counterexample :
    (keyboardRun F32.sqrt (List.replicate 25 (onlySpecial .GLUT_KEY_UP))
      (forceSession V3F.zero)).force = ⟨0, 0, -1.0000001⟩ ∧
    (0.04 : F32) * 25 = 1 ∧ (1.0000001 : F32) ≠ 1 ∧
    (1.0000001 : F32).val ≠ (1 : F32).val ∧
    (keyboardRun F32.sqrt (List.replicate 50 (onlySpecial .GLUT_KEY_UP))
      (forceSession V3F.zero)).force = ⟨0, 0, -1.9999992⟩ ∧
    (0.04 : F32) * 50 = 2 ∧ (1.9999992 : F32) ≠ 2 ∧
    (1.9999992 : F32).val ≠ (2 : F32).val ∧
    (keyboardRun F32.sqrt (List.replicate 51 (onlySpecial .GLUT_KEY_UP))
      (forceSession V3F.zero)).force = ⟨0, 0, -2⟩ := by
  have hup : ∀ n, ∀ keys ∈ List.replicate n (onlySpecial .GLUT_KEY_UP),
      onlyHeld ForceKey.up keys := by
    intro n keys hk
    rw [List.eq_of_mem_replicate hk]
    simp [onlyHeld, onlySpecial]
  have h := fun n => keyboardRun_heldForce ForceKey.up
    (List.replicate n (onlySpecial .GLUT_KEY_UP)) (forceSession V3F.zero) 0 rfl (hup n)
  simp only [List.length_replicate, Nat.zero_add] at h
  refine ⟨?_, by decide!, by decide!, by decide!, ?_, by decide!, by decide!, by decide!, ?_⟩
  · rw [h 25]; decide!
  · rw [h 50]; decide!
  · rw [h 51]; decide!

end Run
